import Mathlib

/-! protolake-gazelle: configuration merge and bundle rule synthesis

A shallow embedding of `src/language/bundle.go` (configuration records and
`MergeConfigurations`) and of the rule synthesis of `src/language/generate.go`
(`generateBundleRules` and the three per-language generators), followed by
theorems about them.

Conventions of the embedding
* a Go `*bool` is an `Option Bool` (`none` is the nil pointer);
* a Go `*LakeConfig` argument is an `Option LakeConfig`;
* anonymous nested Go structs are given names, their fields keep the Go names;
* `fmt.Sprintf` with `%s` verbs is string concatenation;
* a gazelle `rule.Rule` is a record of kind, name and the attributes set through
  `SetAttr`, in the order in which they were first set;
* `log.Printf` calls have no effect on the returned values and are left out.
-/

set_option autoImplicit false

namespace Protolake

/-! ## Configuration records (bundle.go, lines 10-65 and 210-236) -/

/-- Java block of `LakeConfig.Config.LanguageDefaults`. -/
structure LakeJavaDefaults where
  Enabled : Bool
  GroupId : String
  SourceVersion : String
  TargetVersion : String
  deriving DecidableEq, Repr

/-- Python block of `LakeConfig.Config.LanguageDefaults`. -/
structure LakePythonDefaults where
  Enabled : Bool
  PackageName : String
  Version : String
  deriving DecidableEq, Repr

/-- Javascript block of `LakeConfig.Config.LanguageDefaults`. -/
structure LakeJavascriptDefaults where
  Enabled : Bool
  PackageName : String
  deriving DecidableEq, Repr

/-- The `LanguageDefaults` struct of `LakeConfig.Config`. -/
structure LakeLanguageDefaults where
  Java : LakeJavaDefaults
  Python : LakePythonDefaults
  Javascript : LakeJavascriptDefaults
  deriving DecidableEq, Repr

/-- The `BuildDefaults` struct of `LakeConfig.Config`. -/
structure LakeBuildDefaults where
  BaseVersion : String
  deriving DecidableEq, Repr

/-- The `Config` struct of `LakeConfig`. -/
structure LakeConfigSection where
  LanguageDefaults : LakeLanguageDefaults
  BuildDefaults : LakeBuildDefaults
  deriving DecidableEq, Repr

/-- The lake.yaml configuration, `type LakeConfig struct`. -/
structure LakeConfig where
  Config : LakeConfigSection
  deriving DecidableEq, Repr

/-- Java block of `BundleConfig.Config.Languages`; `Enabled` is a `*bool`. -/
structure BundleJava where
  Enabled : Option Bool
  GroupId : String
  ArtifactId : String
  deriving DecidableEq, Repr

/-- Python block of `BundleConfig.Config.Languages`; `Enabled` is a `*bool`. -/
structure BundlePython where
  Enabled : Option Bool
  PackageName : String
  deriving DecidableEq, Repr

/-- Javascript block of `BundleConfig.Config.Languages`; `Enabled` is a `*bool`. -/
structure BundleJavascript where
  Enabled : Option Bool
  PackageName : String
  deriving DecidableEq, Repr

/-- The `Languages` struct of `BundleConfig.Config`. -/
structure BundleLanguages where
  Java : BundleJava
  Python : BundlePython
  Javascript : BundleJavascript
  deriving DecidableEq, Repr

/-- The `Config` struct of `BundleConfig`. -/
structure BundleConfigSection where
  Languages : BundleLanguages
  deriving DecidableEq, Repr

/-- The bundle.yaml configuration, `type BundleConfig struct`. -/
structure BundleConfig where
  Name : String
  DisplayName : String
  Description : String
  BundlePrefix : String
  Version : String
  Config : BundleConfigSection
  deriving DecidableEq, Repr

/-- Merged Java settings, `type JavaConfig struct`. -/
structure JavaConfig where
  Enabled : Bool
  GroupId : String
  ArtifactId : String
  deriving DecidableEq, Repr

/-- Merged Python settings, `type PythonConfig struct`. -/
structure PythonConfig where
  Enabled : Bool
  PackageName : String
  deriving DecidableEq, Repr

/-- Merged JavaScript settings, `type JavaScriptConfig struct`. -/
structure JavaScriptConfig where
  Enabled : Bool
  PackageName : String
  deriving DecidableEq, Repr

/-- The result of the merge, `type MergedConfig struct`. -/
structure MergedConfig where
  BundleName : String
  BundleOwner : String
  ProtoPackage : String
  Description : String
  Version : String
  JavaConfig : JavaConfig
  PythonConfig : PythonConfig
  JavaScriptConfig : JavaScriptConfig
  deriving DecidableEq, Repr

/-! ## MergeConfigurations (bundle.go, lines 130-208) -/

/-- The record built at lines 133-142: bundle metadata and zero-valued language
configs (`JavaConfig{}`, `PythonConfig{}`, `JavaScriptConfig{}`). -/
def mergedInit (bundleConfig : BundleConfig) : MergedConfig :=
  { BundleName := bundleConfig.Name
    BundleOwner := ""
    ProtoPackage := ""
    Description := bundleConfig.Description
    Version := bundleConfig.Version
    JavaConfig := { Enabled := false, GroupId := "", ArtifactId := "" }
    PythonConfig := { Enabled := false, PackageName := "" }
    JavaScriptConfig := { Enabled := false, PackageName := "" } }

/-- Lines 144-166: `if lakeConfig != nil` the three language configs are
replaced by the lake defaults (the Java artifact id is set to the empty string). -/
def applyLakeDefaults (lakeConfig : Option LakeConfig) (merged : MergedConfig) : MergedConfig :=
  match lakeConfig with
  | some lc =>
    { merged with
      JavaConfig :=
        { Enabled := lc.Config.LanguageDefaults.Java.Enabled
          GroupId := lc.Config.LanguageDefaults.Java.GroupId
          ArtifactId := "" }
      PythonConfig :=
        { Enabled := lc.Config.LanguageDefaults.Python.Enabled
          PackageName := lc.Config.LanguageDefaults.Python.PackageName }
      JavaScriptConfig :=
        { Enabled := lc.Config.LanguageDefaults.Javascript.Enabled
          PackageName := lc.Config.LanguageDefaults.Javascript.PackageName } }
  | none => merged

/-- Lines 169-179: the Java overrides of the bundle. -/
def overrideJava (bj : BundleJava) (j : JavaConfig) : JavaConfig :=
  let j := match bj.Enabled with
    | some b => { j with Enabled := b }
    | none => j
  let j := if bj.GroupId != "" then { j with GroupId := bj.GroupId } else j
  if bj.ArtifactId != "" then { j with ArtifactId := bj.ArtifactId } else j

/-- Lines 181-188: the Python overrides of the bundle. -/
def overridePython (bp : BundlePython) (p : PythonConfig) : PythonConfig :=
  let p := match bp.Enabled with
    | some b => { p with Enabled := b }
    | none => p
  if bp.PackageName != "" then { p with PackageName := bp.PackageName } else p

/-- Lines 190-197: the JavaScript overrides of the bundle. -/
def overrideJavaScript (bs : BundleJavascript) (s : JavaScriptConfig) : JavaScriptConfig :=
  let s := match bs.Enabled with
    | some b => { s with Enabled := b }
    | none => s
  if bs.PackageName != "" then { s with PackageName := bs.PackageName } else s

/-- `MergeConfigurations(lakeConfig, bundleConfig)`: start from the zero-valued
record, take the lake defaults when there is a lake config, then apply the
bundle overrides language by language. -/
def MergeConfigurations (lakeConfig : Option LakeConfig) (bundleConfig : BundleConfig) :
    MergedConfig :=
  let merged := applyLakeDefaults lakeConfig (mergedInit bundleConfig)
  { merged with
    JavaConfig := overrideJava bundleConfig.Config.Languages.Java merged.JavaConfig
    PythonConfig := overridePython bundleConfig.Config.Languages.Python merged.PythonConfig
    JavaScriptConfig :=
      overrideJavaScript bundleConfig.Config.Languages.Javascript merged.JavaScriptConfig }

/-! ## Rule records (the gazelle `rule` API as used by generate.go) -/

/-- An attribute value passed to `SetAttr`: a string, a `[]string`, or a
`rule.PlatformStrings` of which only the `Generic` list is ever filled. -/
inductive AttrValue where
  | str (s : String)
  | strings (l : List String)
  | platformStrings (generic : List String)
  deriving DecidableEq, Repr

/-- A rule record: kind, name and the attributes set on it. -/
structure Rule where
  kind : String
  name : String
  attrs : List (String × AttrValue)
  deriving DecidableEq, Repr

/-- The call `rule.NewRule(kind, name)`: a rule without further attributes. -/
def NewRule (kind name : String) : Rule :=
  { kind := kind, name := name, attrs := [] }

/-- The call `r.SetAttr(key, value)`: the value of an attribute that is already
set is replaced, a new attribute is added after the existing ones. -/
def Rule.SetAttr (r : Rule) (key : String) (value : AttrValue) : Rule :=
  if r.attrs.any (fun p => p.1 == key) then
    { r with attrs := r.attrs.map (fun p => if p.1 == key then (key, value) else p) }
  else
    { r with attrs := r.attrs ++ [(key, value)] }

/-- The value of attribute `key` of a rule, if it is set. -/
def Rule.Attr (r : Rule) (key : String) : Option AttrValue :=
  (r.attrs.find? (fun p => p.1 == key)).map Prod.snd

/-- The names of the attributes set on a rule. -/
def Rule.AttrKeys (r : Rule) : List String :=
  r.attrs.map Prod.fst

/-! ## Rule synthesis (generate.go, lines 16-232) -/

/-- `generateJavaBundleRules(config, bundleName, allProtoTargets)`, lines 85-132. -/
def generateJavaBundleRules (config : MergedConfig) (bundleName : String)
    (allProtoTargets : List String) : List Rule :=
  let rules : List Rule := []
  let javaGrpcRule := NewRule "java_grpc_library" (bundleName ++ "_java_grpc")
  let javaGrpcRule := javaGrpcRule.SetAttr "protos" (.platformStrings allProtoTargets)
  let javaGrpcRule := javaGrpcRule.SetAttr "visibility" (.strings ["//visibility:public"])
  let rules := rules ++ [javaGrpcRule]
  let javaBundleRule := NewRule "java_proto_bundle" (bundleName ++ "_java_bundle")
  let javaBundleRule :=
    javaBundleRule.SetAttr "proto_deps" (.platformStrings [":" ++ bundleName ++ "_all_protos"])
  let javaBundleRule :=
    javaBundleRule.SetAttr "java_deps" (.platformStrings [":" ++ bundleName ++ "_java_grpc"])
  let javaBundleRule :=
    javaBundleRule.SetAttr "java_grpc_deps" (.platformStrings [":" ++ bundleName ++ "_java_grpc"])
  let javaBundleRule := javaBundleRule.SetAttr "group_id" (.str config.JavaConfig.GroupId)
  let javaBundleRule := javaBundleRule.SetAttr "artifact_id" (.str config.JavaConfig.ArtifactId)
  let javaBundleRule := javaBundleRule.SetAttr "visibility" (.strings ["//visibility:public"])
  let rules := rules ++ [javaBundleRule]
  let publishMavenRule := NewRule "genrule" ("publish_" ++ bundleName ++ "_to_maven")
  let publishMavenRule :=
    publishMavenRule.SetAttr "srcs" (.platformStrings [":" ++ bundleName ++ "_java_bundle"])
  let publishMavenRule :=
    publishMavenRule.SetAttr "outs" (.platformStrings ["publish_maven.log"])
  let publishCmd :=
    "$(location //tools:maven_publisher) " ++
    "--jar $(location :" ++ bundleName ++ "_java_bundle) " ++
    "--group-id " ++ config.JavaConfig.GroupId ++ " " ++
    "--artifact-id " ++ config.JavaConfig.ArtifactId ++ " " ++
    "--version \"$\x7bVERSION:-1.0.0\x7d\" " ++
    "--repo \"$\x7bMAVEN_REPO:-file://~/.m2/repository\x7d\" " ++
    "> $@"
  let publishMavenRule := publishMavenRule.SetAttr "cmd" (.str publishCmd)
  let publishMavenRule :=
    publishMavenRule.SetAttr "tools" (.platformStrings ["//tools:maven_publisher"])
  let rules := rules ++ [publishMavenRule]
  let publishMavenAlias := NewRule "alias" "publish_to_maven"
  let publishMavenAlias :=
    publishMavenAlias.SetAttr "actual" (.str (":publish_" ++ bundleName ++ "_to_maven"))
  let publishMavenAlias :=
    publishMavenAlias.SetAttr "visibility" (.strings ["//visibility:public"])
  let rules := rules ++ [publishMavenAlias]
  rules

/-- `generatePythonBundleRules(config, bundleName, allProtoTargets)`, lines 134-179. -/
def generatePythonBundleRules (config : MergedConfig) (bundleName : String)
    (allProtoTargets : List String) : List Rule :=
  let rules : List Rule := []
  let pythonGrpcRule := NewRule "python_grpc_library" (bundleName ++ "_python_grpc")
  let pythonGrpcRule := pythonGrpcRule.SetAttr "protos" (.platformStrings allProtoTargets)
  let pythonGrpcRule := pythonGrpcRule.SetAttr "visibility" (.strings ["//visibility:public"])
  let rules := rules ++ [pythonGrpcRule]
  let pyBundleRule := NewRule "py_proto_bundle" (bundleName ++ "_py_bundle")
  let pyBundleRule :=
    pyBundleRule.SetAttr "proto_deps" (.platformStrings [":" ++ bundleName ++ "_all_protos"])
  let pyBundleRule :=
    pyBundleRule.SetAttr "py_deps" (.platformStrings [":" ++ bundleName ++ "_python_grpc"])
  let pyBundleRule :=
    pyBundleRule.SetAttr "py_grpc_deps" (.platformStrings [":" ++ bundleName ++ "_python_grpc"])
  let pyBundleRule := pyBundleRule.SetAttr "package_name" (.str config.PythonConfig.PackageName)
  let pyBundleRule := pyBundleRule.SetAttr "visibility" (.strings ["//visibility:public"])
  let rules := rules ++ [pyBundleRule]
  let publishPypiRule := NewRule "genrule" ("publish_" ++ bundleName ++ "_to_pypi")
  let publishPypiRule :=
    publishPypiRule.SetAttr "srcs" (.platformStrings [":" ++ bundleName ++ "_py_bundle"])
  let publishPypiRule :=
    publishPypiRule.SetAttr "outs" (.platformStrings ["publish_pypi.log"])
  let publishCmd :=
    "$(location //tools:pypi_publisher) " ++
    "--wheel $(location :" ++ bundleName ++ "_py_bundle) " ++
    "--package-name " ++ config.PythonConfig.PackageName ++ " " ++
    "--version \"$\x7bVERSION:-1.0.0\x7d\" " ++
    "--repo \"$\x7bPYPI_REPO:-file://~/.pypi\x7d\" " ++
    "> $@"
  let publishPypiRule := publishPypiRule.SetAttr "cmd" (.str publishCmd)
  let publishPypiRule :=
    publishPypiRule.SetAttr "tools" (.platformStrings ["//tools:pypi_publisher"])
  let rules := rules ++ [publishPypiRule]
  let publishPypiAlias := NewRule "alias" "publish_to_pypi"
  let publishPypiAlias :=
    publishPypiAlias.SetAttr "actual" (.str (":publish_" ++ bundleName ++ "_to_pypi"))
  let publishPypiAlias :=
    publishPypiAlias.SetAttr "visibility" (.strings ["//visibility:public"])
  let rules := rules ++ [publishPypiAlias]
  rules

/-- `generateJavaScriptBundleRules(config, bundleName, allProtoTargets)`, lines 181-232. -/
def generateJavaScriptBundleRules (config : MergedConfig) (bundleName : String)
    (allProtoTargets : List String) : List Rule :=
  let rules : List Rule := []
  let jsGrpcNodeRule := NewRule "js_grpc_library" (bundleName ++ "_js_grpc_node")
  let jsGrpcNodeRule := jsGrpcNodeRule.SetAttr "protos" (.platformStrings allProtoTargets)
  let jsGrpcNodeRule := jsGrpcNodeRule.SetAttr "visibility" (.strings ["//visibility:public"])
  let rules := rules ++ [jsGrpcNodeRule]
  let jsGrpcWebRule := NewRule "js_grpc_web_library" (bundleName ++ "_js_grpc_web")
  let jsGrpcWebRule := jsGrpcWebRule.SetAttr "protos" (.platformStrings allProtoTargets)
  let jsGrpcWebRule := jsGrpcWebRule.SetAttr "visibility" (.strings ["//visibility:public"])
  let rules := rules ++ [jsGrpcWebRule]
  let jsBundleRule := NewRule "js_proto_bundle" (bundleName ++ "_js_bundle")
  let jsBundleRule :=
    jsBundleRule.SetAttr "proto_deps" (.platformStrings [":" ++ bundleName ++ "_all_protos"])
  let jsBundleRule :=
    jsBundleRule.SetAttr "js_deps" (.platformStrings [":" ++ bundleName ++ "_js_grpc_node"])
  let jsBundleRule :=
    jsBundleRule.SetAttr "js_grpc_web_deps"
      (.platformStrings [":" ++ bundleName ++ "_js_grpc_web"])
  let jsBundleRule :=
    jsBundleRule.SetAttr "package_name" (.str config.JavaScriptConfig.PackageName)
  let jsBundleRule := jsBundleRule.SetAttr "visibility" (.strings ["//visibility:public"])
  let rules := rules ++ [jsBundleRule]
  let publishNpmRule := NewRule "genrule" ("publish_" ++ bundleName ++ "_to_npm")
  let publishNpmRule :=
    publishNpmRule.SetAttr "srcs" (.platformStrings [":" ++ bundleName ++ "_js_bundle"])
  let publishNpmRule :=
    publishNpmRule.SetAttr "outs" (.platformStrings ["publish_npm.log"])
  let publishCmd :=
    "$(location //tools:npm_publisher) " ++
    "--package $(location :" ++ bundleName ++ "_js_bundle) " ++
    "--package-name " ++ config.JavaScriptConfig.PackageName ++ " " ++
    "--version \"$\x7bVERSION:-1.0.0\x7d\" " ++
    "--registry \"$\x7bNPM_REGISTRY:-file://~/.npm\x7d\" " ++
    "> $@"
  let publishNpmRule := publishNpmRule.SetAttr "cmd" (.str publishCmd)
  let publishNpmRule :=
    publishNpmRule.SetAttr "tools" (.platformStrings ["//tools:npm_publisher"])
  let rules := rules ++ [publishNpmRule]
  let publishNpmAlias := NewRule "alias" "publish_to_npm"
  let publishNpmAlias :=
    publishNpmAlias.SetAttr "actual" (.str (":publish_" ++ bundleName ++ "_to_npm"))
  let publishNpmAlias :=
    publishNpmAlias.SetAttr "visibility" (.strings ["//visibility:public"])
  let rules := rules ++ [publishNpmAlias]
  rules

/-- `generateBundleRules(config, protoTargets, rel, c)`, lines 16-83.

The only use the function makes of `rel` and `c` is the call of
`collectBundleTransitiveDependencies` at line 32, which reads the file system;
the list that call returns is the argument `allProtoTargets` here. -/
def generateBundleRules (config : MergedConfig) (protoTargets : List String)
    (allProtoTargets : List String) : List Rule :=
  let rules : List Rule := []
  let bundleName := config.BundleName
  let allProtosRule := NewRule "proto_library" (bundleName ++ "_all_protos")
  let allProtosRule := allProtosRule.SetAttr "deps" (.platformStrings protoTargets)
  let allProtosRule := allProtosRule.SetAttr "visibility" (.strings ["//visibility:public"])
  let rules := rules ++ [allProtosRule]
  let rules :=
    if config.JavaConfig.Enabled && config.JavaConfig.GroupId != ""
        && config.JavaConfig.ArtifactId != "" then
      rules ++ generateJavaBundleRules config bundleName allProtoTargets
    else rules
  let rules :=
    if config.PythonConfig.Enabled && config.PythonConfig.PackageName != "" then
      rules ++ generatePythonBundleRules config bundleName allProtoTargets
    else rules
  let rules :=
    if config.JavaScriptConfig.Enabled && config.JavaScriptConfig.PackageName != "" then
      rules ++ generateJavaScriptBundleRules config bundleName allProtoTargets
    else rules
  let testTargets : List String := []
  let testTargets :=
    if config.JavaConfig.Enabled then testTargets ++ [":" ++ bundleName ++ "_java_bundle"]
    else testTargets
  let testTargets :=
    if config.PythonConfig.Enabled then testTargets ++ [":" ++ bundleName ++ "_py_bundle"]
    else testTargets
  let testTargets :=
    if config.JavaScriptConfig.Enabled then testTargets ++ [":" ++ bundleName ++ "_js_bundle"]
    else testTargets
  if testTargets.length > 0 then
    let buildTestRule := NewRule "build_validation" "all"
    let buildTestRule := buildTestRule.SetAttr "targets" (.strings testTargets)
    rules ++ [buildTestRule]
  else rules

/-! ## The parts of the list returned by generateBundleRules -/

/-- The aggregate rule built at lines 25-27. -/
def aggregateRule (config : MergedConfig) (protoTargets : List String) : Rule :=
  { kind := "proto_library", name := config.BundleName ++ "_all_protos"
    attrs := [("deps", .platformStrings protoTargets),
              ("visibility", .strings ["//visibility:public"])] }

/-- The condition of line 40 under which the Java rules are generated. -/
def javaGenerated (config : MergedConfig) : Bool :=
  config.JavaConfig.Enabled && config.JavaConfig.GroupId != ""
    && config.JavaConfig.ArtifactId != ""

/-- The condition of line 49 under which the Python rules are generated. -/
def pythonGenerated (config : MergedConfig) : Bool :=
  config.PythonConfig.Enabled && config.PythonConfig.PackageName != ""

/-- The condition of line 58 under which the JavaScript rules are generated. -/
def javaScriptGenerated (config : MergedConfig) : Bool :=
  config.JavaScriptConfig.Enabled && config.JavaScriptConfig.PackageName != ""

/-- The list `testTargets` of lines 65-74. -/
def validationTargets (config : MergedConfig) : List String :=
  (if config.JavaConfig.Enabled then [":" ++ config.BundleName ++ "_java_bundle"] else [])
  ++ (if config.PythonConfig.Enabled then [":" ++ config.BundleName ++ "_py_bundle"] else [])
  ++ (if config.JavaScriptConfig.Enabled then [":" ++ config.BundleName ++ "_js_bundle"]
      else [])

/-- The rule `buildTestRule` of lines 77-78. -/
def validationRule (config : MergedConfig) : Rule :=
  { kind := "build_validation", name := "all"
    attrs := [("targets", .strings (validationTargets config))] }

/-! ## Predicates used to state the properties -/

/-- The string `sub` occurs verbatim in `s`. -/
def Contains (s sub : String) : Prop := sub.data <:+: s.data

instance (s sub : String) : Decidable (Contains s sub) :=
  inferInstanceAs (Decidable (sub.data <:+: s.data))

/-- What the Java publish command has to contain: the static coordinates and
the two environment placeholders with their literal fallbacks. -/
def JavaCmdOk (config : MergedConfig) (cmd : String) : Prop :=
  Contains cmd ("--group-id " ++ config.JavaConfig.GroupId) ∧
  Contains cmd ("--artifact-id " ++ config.JavaConfig.ArtifactId) ∧
  Contains cmd "$\x7bVERSION:-1.0.0\x7d" ∧
  Contains cmd "$\x7bMAVEN_REPO:-file://~/.m2/repository\x7d"

/-- What the Python publish command has to contain. -/
def PythonCmdOk (config : MergedConfig) (cmd : String) : Prop :=
  Contains cmd ("--package-name " ++ config.PythonConfig.PackageName) ∧
  Contains cmd "$\x7bVERSION:-1.0.0\x7d" ∧
  Contains cmd "$\x7bPYPI_REPO:-file://~/.pypi\x7d"

/-- What the JavaScript publish command has to contain. -/
def JavaScriptCmdOk (config : MergedConfig) (cmd : String) : Prop :=
  Contains cmd ("--package-name " ++ config.JavaScriptConfig.PackageName) ∧
  Contains cmd "$\x7bVERSION:-1.0.0\x7d" ∧
  Contains cmd "$\x7bNPM_REGISTRY:-file://~/.npm\x7d"

/-- The rules of the Java language: the stub rule, the bundle rule, the publish
genrule and the publish alias, recognised by kind and name. -/
def isJavaRule (bundleName : String) (r : Rule) : Bool :=
  r.kind == "java_grpc_library" || r.kind == "java_proto_bundle"
    || (r.kind == "genrule" && r.name == "publish_" ++ bundleName ++ "_to_maven")
    || (r.kind == "alias" && r.name == "publish_to_maven")

/-- The rules of the Python language, recognised by kind and name. -/
def isPythonRule (bundleName : String) (r : Rule) : Bool :=
  r.kind == "python_grpc_library" || r.kind == "py_proto_bundle"
    || (r.kind == "genrule" && r.name == "publish_" ++ bundleName ++ "_to_pypi")
    || (r.kind == "alias" && r.name == "publish_to_pypi")

/-- The rules of the JavaScript language, recognised by kind and name. -/
def isJavaScriptRule (bundleName : String) (r : Rule) : Bool :=
  r.kind == "js_grpc_library" || r.kind == "js_grpc_web_library"
    || r.kind == "js_proto_bundle"
    || (r.kind == "genrule" && r.name == "publish_" ++ bundleName ++ "_to_npm")
    || (r.kind == "alias" && r.name == "publish_to_npm")

/-- The merged config with Java switched off. -/
def disableJava (config : MergedConfig) : MergedConfig :=
  { config with JavaConfig := { config.JavaConfig with Enabled := false } }

/-- The merged config with Python switched off. -/
def disablePython (config : MergedConfig) : MergedConfig :=
  { config with PythonConfig := { config.PythonConfig with Enabled := false } }

/-- The merged config with JavaScript switched off. -/
def disableJavaScript (config : MergedConfig) : MergedConfig :=
  { config with JavaScriptConfig := { config.JavaScriptConfig with Enabled := false } }

/-! ## Sample configurations -/

/-- A lake config whose every enabled flag is false and every string is empty. -/
def emptyLake : LakeConfig :=
  { Config :=
    { LanguageDefaults :=
      { Java := { Enabled := false, GroupId := "", SourceVersion := "", TargetVersion := "" }
        Python := { Enabled := false, PackageName := "", Version := "" }
        Javascript := { Enabled := false, PackageName := "" } }
      BuildDefaults := { BaseVersion := "" } } }

/-- Lake defaults of the tests: Java on with a group id, Python on with package
`acme_proto`, JavaScript on with a package name. -/
def acmeLake : LakeConfig :=
  { Config :=
    { LanguageDefaults :=
      { Java :=
          { Enabled := true, GroupId := "com.acme.proto", SourceVersion := "11",
            TargetVersion := "8" }
        Python := { Enabled := true, PackageName := "acme_proto", Version := ">=3.8" }
        Javascript := { Enabled := true, PackageName := "@acme/proto" } }
      BuildDefaults := { BaseVersion := "1.0.0" } } }

/-- A bundle that names itself and sets nothing else. -/
def plainBundle : BundleConfig :=
  { Name := "user-service", DisplayName := "", Description := "", BundlePrefix := "",
    Version := ""
    Config :=
    { Languages :=
      { Java := { Enabled := none, GroupId := "", ArtifactId := "" }
        Python := { Enabled := none, PackageName := "" }
        Javascript := { Enabled := none, PackageName := "" } } } }

/-- A bundle that switches Java and JavaScript off, Python on, and overrides
every string field. -/
def overridingBundle : BundleConfig :=
  { Name := "user-service", DisplayName := "User", Description := "d", BundlePrefix := "",
    Version := "2.0.0"
    Config :=
    { Languages :=
      { Java := { Enabled := some false, GroupId := "com.override.proto",
                  ArtifactId := "user-service-proto" }
        Python := { Enabled := some true, PackageName := "override_proto" }
        Javascript := { Enabled := some false, PackageName := "@override/proto" } } } }

/-- The bundle of the end-to-end scenario: Java enabled with group
`com.acme.proto` and artifact `user-service-proto`, nothing said about Python
and JavaScript. -/
def javaBundle : BundleConfig :=
  { Name := "user-service", DisplayName := "", Description := "", BundlePrefix := "",
    Version := "1.0.0"
    Config :=
    { Languages :=
      { Java := { Enabled := some true, GroupId := "com.acme.proto",
                  ArtifactId := "user-service-proto" }
        Python := { Enabled := none, PackageName := "" }
        Javascript := { Enabled := none, PackageName := "" } } } }

/-- Java alone, fully identified: the scenario bundle without lake defaults. -/
def javaOnlyMerged : MergedConfig := MergeConfigurations none javaBundle

/-- The lake defaults merged with the bundle that sets nothing: all three
languages are enabled, Python and JavaScript have their package names, and Java
has the group id of the lake but no artifact id. -/
def acmeMerged : MergedConfig := MergeConfigurations (some acmeLake) plainBundle

/-- The lake defaults merged with the overriding bundle: Python alone is enabled. -/
def overridingMerged : MergedConfig := MergeConfigurations (some acmeLake) overridingBundle

/-- The scenario config at a later release: only Version and Description differ. -/
def javaOnlyMergedNext : MergedConfig :=
  { javaOnlyMerged with Version := "2.0.0", Description := "next release" }

/-- The Java bundle rule of the end-to-end scenario. -/
def scenarioJavaBundleRule : Rule :=
  { kind := "java_proto_bundle", name := "user-service_java_bundle"
    attrs := [("proto_deps", .platformStrings [":user-service_all_protos"]),
              ("java_deps", .platformStrings [":user-service_java_grpc"]),
              ("java_grpc_deps", .platformStrings [":user-service_java_grpc"]),
              ("group_id", .str "com.acme.proto"),
              ("artifact_id", .str "user-service-proto"),
              ("visibility", .strings ["//visibility:public"])] }

/-! ## Strings and regular expressions (as used by generate.go and protolake.go) -/

/-- The call `strings.HasPrefix(s, pre)`. -/
def startsWith (s pre : String) : Bool := pre.data.isPrefixOf s.data

/-- The call `strings.HasSuffix(s, suf)`. -/
def endsWith (s suf : String) : Bool := suf.data.isSuffixOf s.data

/-- Whether `sub` occurs in the character list, scanning from the left. -/
def occursIn (sub : List Char) : List Char → Bool
  | [] => sub.isPrefixOf []
  | c :: cs => sub.isPrefixOf (c :: cs) || occursIn sub cs

/-- The call `strings.Contains(s, sub)`. -/
def strContains (s sub : String) : Bool := occursIn sub.data s.data

/-- The class `\s` of Go regular expressions: tab, newline, form feed, carriage
return and space. -/
def isSpace (c : Char) : Bool :=
  c == '\t' || c == '\n' || c == '\x0c' || c == '\r' || c == ' '

/-- Match the literal `lit` at the head of `s` and return what follows it. -/
def expectLit : List Char → List Char → Option (List Char)
  | [], s => some s
  | _ :: _, [] => none
  | l :: ls, c :: cs => if l == c then expectLit ls cs else none

/-- The part `"([^"]+)"` of a pattern at the head of `s`: an opening quote, one
or more characters other than the quote, a closing quote. The captured text
and what follows the closing quote are returned. The class cannot match a
quote, so the capture ends at the first quote and there is nothing to backtrack. -/
def matchQuoted (s : List Char) : Option (List Char × List Char) :=
  match s with
  | '\x22' :: r =>
    let cap := r.takeWhile (fun c => c != '\x22')
    if cap.isEmpty then none
    else
      match r.dropWhile (fun c => c != '\x22') with
      | '\x22' :: rest => some (cap, rest)
      | _ => none
  | _ => none

/-- The pattern `import\s+"([^"]+)"` of collectImportsFromProtoFile (line 298)
anchored at the head of `s`: the captured path and what follows the match. -/
def matchImportAt (s : List Char) : Option (List Char × List Char) :=
  match expectLit "import".data s with
  | none => none
  | some r =>
    if (r.takeWhile isSpace).isEmpty then none
    else matchQuoted (r.dropWhile isSpace)

/-- Leftmost non-overlapping matches of the import pattern, as returned by
`FindAllStringSubmatch(content, -1)`: the captured path of each match. The
second argument counts the characters of the current match that are still to be
passed over before the search for the next match starts. -/
def findAllImports : List Char → Nat → List String
  | [], _ => []
  | _ :: cs, skip + 1 => findAllImports cs skip
  | c :: cs, 0 =>
    match matchImportAt (c :: cs) with
    | some (cap, rest) =>
      String.mk cap :: findAllImports cs ((c :: cs).length - rest.length - 1)
    | none => findAllImports cs 0

/-- The import paths that the pattern of line 298 extracts from a proto file:
`match[1]` of every match, in the order of the text. -/
def extractImports (content : String) : List String :=
  findAllImports content.data 0

/-- Whether some way of letting a greedy class `[^stop]*` run over the head of
the text leaves a rest that satisfies `p`. -/
def existsAfterRun (stop : Char) (p : List Char → Bool) : List Char → Bool
  | [] => p []
  | c :: cs => p (c :: cs) || (c != stop && existsAfterRun stop p cs)

/-- The tail `srcs\s*=\s*\[[^\]]*"FILE"` of the pattern of findProtoTarget
anchored at the head of `s`; `file` is the quoted file name. -/
def matchSrcsTail (file : List Char) (s : List Char) : Bool :=
  match expectLit "srcs".data s with
  | none => false
  | some r1 =>
    match expectLit "=".data (r1.dropWhile isSpace) with
    | none => false
    | some r2 =>
      match expectLit "[".data (r2.dropWhile isSpace) with
      | none => false
      | some r3 =>
        existsAfterRun ']' (fun t => (('\x22' :: file) ++ ['\x22']).isPrefixOf t) r3

/-- The pattern of findProtoTarget (line 368),
`proto_library\(\s*name\s*=\s*"([^"]+)"[^)]*srcs\s*=\s*\[[^\]]*"FILE"`,
anchored at the head of `s`: the captured name when the pattern matches here. -/
def matchProtoTargetAt (file : List Char) (s : List Char) : Option (List Char) :=
  match expectLit "proto_library(".data s with
  | none => none
  | some r1 =>
    match expectLit "name".data (r1.dropWhile isSpace) with
    | none => none
    | some r2 =>
      match expectLit "=".data (r2.dropWhile isSpace) with
      | none => none
      | some r3 =>
        match matchQuoted (r3.dropWhile isSpace) with
        | none => none
        | some (cap, r4) =>
          if existsAfterRun ')' (matchSrcsTail file) r4 then some cap else none

/-- The leftmost match of the pattern of findProtoTarget in the text. -/
def findProtoTargetIn (file : List Char) : List Char → Option (List Char)
  | [] => matchProtoTargetAt file []
  | c :: cs =>
    match matchProtoTargetAt file (c :: cs) with
    | some cap => some cap
    | none => findProtoTargetIn file cs

/-- `findProtoTarget(buildContent, protoFile)`, lines 365-373: the name captured
by the first match of the pattern, the empty string when there is no match. -/
def findProtoTarget (buildContent protoFile : String) : String :=
  match findProtoTargetIn protoFile.data buildContent.data with
  | some cap => String.mk cap
  | none => ""

/-- The tail `name\s*=\s*"([^"]+)"[^)]*\)` of the pattern of
discoverProtoTargetsInDirectory anchored at the head of `s`: the captured name
and what follows the closing parenthesis. -/
def matchNameTail (s : List Char) : Option (List Char × List Char) :=
  match expectLit "name".data s with
  | none => none
  | some r1 =>
    match expectLit "=".data (r1.dropWhile isSpace) with
    | none => none
    | some r2 =>
      match matchQuoted (r2.dropWhile isSpace) with
      | none => none
      | some (cap, r3) =>
        match r3.dropWhile (fun c => c != ')') with
        | ')' :: rest => some (cap, rest)
        | _ => none

/-- The part `\s*[^)]*` followed by the name tail: the greedy class runs as far
as it can, so of the places at which the tail matches the last one is taken. -/
def matchLastName : List Char → Option (List Char × List Char)
  | [] => matchNameTail []
  | c :: cs =>
    if c != ')' then
      match matchLastName cs with
      | some r => some r
      | none => matchNameTail (c :: cs)
    else matchNameTail (c :: cs)

/-- The pattern of discoverProtoTargetsInDirectory (protolake.go, line 201),
`proto_library\s*\(\s*[^)]*name\s*=\s*"([^"]+)"[^)]*\)`, anchored at the head
of `s`: the captured name and what follows the match. -/
def matchProtoLibraryAt (s : List Char) : Option (List Char × List Char) :=
  match expectLit "proto_library".data s with
  | none => none
  | some r1 =>
    match expectLit "(".data (r1.dropWhile isSpace) with
    | none => none
    | some r2 => matchLastName r2

/-- Leftmost non-overlapping matches of the proto_library pattern, as returned
by `FindAllStringSubmatch(buildContent, -1)`: the captured name of each match. -/
def findAllProtoLibraries : List Char → Nat → List String
  | [], _ => []
  | _ :: cs, skip + 1 => findAllProtoLibraries cs skip
  | c :: cs, 0 =>
    match matchProtoLibraryAt (c :: cs) with
    | some (cap, rest) =>
      String.mk cap :: findAllProtoLibraries cs ((c :: cs).length - rest.length - 1)
    | none => findAllProtoLibraries cs 0

/-! ## The file system seen by the generator -/

/-- A path below the repository root, as the list of its components; the empty
list is the repository root itself. -/
abbrev Path := List String

/-- An entry of the repository tree: where it is, whether it is a directory, and
the text that `ReadFile` returns for it (`none` when reading fails, as it does
for a directory or an unreadable file). -/
structure FsEntry where
  path : Path
  isDir : Bool
  content : Option String
  deriving DecidableEq, Repr

/-- The repository as the generator sees it: the absolute path of the root
(`c.RepoRoot`) and the entries below it, listed in the order in which
`filepath.Walk` visits them (a directory before what it contains, names in
lexical order). Entries that the walk reports with an error contribute nothing
to any of the callbacks and are not listed. `statErrors` lists the paths at
which `os.Stat` fails with an error other than "does not exist" (permission
denied on a directory of the path, a path component that is not a directory);
such a path has no entry, and reading it fails as well. -/
structure World where
  repoRoot : String
  entries : List FsEntry
  statErrors : List Path := []
  deriving Repr

/-- The three outcomes of `os.Stat` that the code tells apart: no error, an
error for which `os.IsNotExist` holds, and any other error. -/
inductive StatResult where
  | ok
  | notExist
  | failed
  deriving DecidableEq, Repr

/-- The call `filepath.Join(repoRoot, p...)`: the absolute path of an entry. -/
def pathString (repoRoot : String) (p : Path) : String :=
  p.foldl (fun acc c => acc ++ "/" ++ c) repoRoot

/-- The components of a path joined by slashes. -/
def joinPath : Path → String
  | [] => ""
  | [c] => c
  | c :: d :: cs => c ++ "/" ++ joinPath (d :: cs)

/-- The call `filepath.Rel(repoRoot, path)` for a path at or below the root: a
dot for the root itself, the components joined by slashes otherwise. -/
def relString (p : Path) : String :=
  if p.isEmpty then "." else joinPath p

/-- The call `filepath.Base(path)` for a path below the root. -/
def baseName (p : Path) : String := p.getLast?.getD ""

/-- The call `filepath.Dir(path)` for a path below the root. -/
def dirOf (p : Path) : Path := p.dropLast

/-- The outcome of `os.Stat(path)`. -/
def World.statResult (w : World) (p : Path) : StatResult :=
  if w.entries.any (fun e => e.path == p) then .ok
  else if w.statErrors.contains p then .failed
  else .notExist

/-- Whether `os.Stat` finds an entry at the path: the test `err == nil`. -/
def World.stat (w : World) (p : Path) : Bool :=
  w.statResult p == .ok

/-- The test `os.IsNotExist(err)` on the error of `os.Stat(path)`. -/
def World.isNotExist (w : World) (p : Path) : Bool :=
  w.statResult p == .notExist

/-- The call `filepath.Base(path)` on an absolute path: trailing slashes are
dropped, the text after the last slash is returned; the empty path gives a
dot, a path of slashes only gives a slash. -/
def filepathBase (path : String) : String :=
  if path == "" then "."
  else
    let stripped := (path.data.reverse.dropWhile (fun c => c == '/')).reverse
    let last := (stripped.reverse.takeWhile (fun c => c != '/')).reverse
    if last.isEmpty then "/" else String.mk last

/-- The call `ReadFile(path)`: the text of the entry, `none` on any error. -/
def World.readFile (w : World) (p : Path) : Option String :=
  (w.entries.find? (fun e => e.path == p)).bind FsEntry.content

/-- The entries that `filepath.Walk(root, ...)` visits: the root and everything
below it, in walk order. -/
def World.walk (w : World) (root : Path) : List FsEntry :=
  w.entries.filter (fun e => root.isPrefixOf e.path)

/-! ## Import index and bundle dependencies (generate.go, lines 234-373) -/

/-- The body of the walk callback of buildImportIndex (lines 326-362) for one
visited entry: the key and value of the assignment
`index[relPath] = fullTarget` it performs, if it performs one. -/
def indexEntry (w : World) (e : FsEntry) : Option (String × String) :=
  let path := pathString w.repoRoot e.path
  if !endsWith path ".proto" then none
  else if strContains path "bazel-" then none
  else
    let relPath := relString e.path
    let dir := dirOf e.path
    let buildPath : Option Path :=
      if w.isNotExist (dir ++ ["BUILD.bazel"]) then
        if w.isNotExist (dir ++ ["BUILD"]) then none
        else some (dir ++ ["BUILD"])
      else some (dir ++ ["BUILD.bazel"])
    match buildPath with
    | none => none
    | some bp =>
      match w.readFile bp with
      | none => none
      | some content =>
        let target := findProtoTarget content (baseName e.path)
        if target != "" then
          let pkg := relString dir
          some (relPath, "//" ++ pkg ++ ":" ++ target)
        else none

/-- `buildImportIndex(repoRoot, index)` on an empty map: the assignments made
during the walk of the repository, the latest first. A key is looked up with
`List.lookup`, which returns the value of the latest assignment to it, as the
Go map does. -/
def buildImportIndex (w : World) : List (String × String) :=
  (w.walk []).foldl
    (fun index e =>
      match indexEntry w e with
      | some kv => kv :: index
      | none => index)
    []

/-- `collectBundleProtoFiles(bundleDir)`, lines 266-287: the visited entries
whose path ends in `.proto` and does not contain `bazel-`. -/
def collectBundleProtoFiles (w : World) (bundleDir : Path) : List FsEntry :=
  (w.walk bundleDir).filter
    (fun e =>
      endsWith (pathString w.repoRoot e.path) ".proto"
        && !strContains (pathString w.repoRoot e.path) "bazel-")

/-- The assignment `allDeps[target] = true` on the key set of the map. -/
def addTarget (allDeps : List String) (target : String) : List String :=
  if allDeps.contains target then allDeps else allDeps ++ [target]

/-- The loop of lines 301-320 of collectImportsFromProtoFile over the paths that
the pattern extracted: a path that starts with `google/` is skipped, a path found
in the index adds its target, any other path is only logged. -/
def collectImportPaths (importToTarget : List (String × String)) :
    List String → List String → List String
  | [], allDeps => allDeps
  | importPath :: rest, allDeps =>
    if startsWith importPath "google/" then
      collectImportPaths importToTarget rest allDeps
    else
      match importToTarget.lookup importPath with
      | some target => collectImportPaths importToTarget rest (addTarget allDeps target)
      | none => collectImportPaths importToTarget rest allDeps

/-- `collectImportsFromProtoFile(protoFile, importToTarget, allDeps)`, lines
289-321: the key set of `allDeps` after the call. A file that cannot be read
leaves the set unchanged. -/
def collectImportsFromProtoFile (protoFile : FsEntry)
    (importToTarget : List (String × String)) (allDeps : List String) : List String :=
  match protoFile.content with
  | none => allDeps
  | some content => collectImportPaths importToTarget (extractImports content) allDeps

/-- The order in which a `range` over a Go map yields its keys: some permutation
of the key set, chosen by the runtime. -/
structure MapOrder where
  order : List String → List String
  isPerm : ∀ keys, (order keys).Perm keys

/-- `collectBundleTransitiveDependencies(c, bundleDir, directTargets)`, lines
234-264. The map `allDeps` is its key set; the final loop over the map returns
the keys in the order the runtime chooses. -/
def collectBundleTransitiveDependencies (w : World) (iteration : MapOrder)
    (bundleDir : Path) (directTargets : List String) : List String :=
  let allDeps := directTargets.foldl addTarget []
  let importToTarget := buildImportIndex w
  let bundleProtoFiles := collectBundleProtoFiles w bundleDir
  let allDeps :=
    bundleProtoFiles.foldl
      (fun deps protoFile => collectImportsFromProtoFile protoFile importToTarget deps)
      allDeps
  iteration.order allDeps

/-- `generateBundleRules(config, protoTargets, rel, c)` with the call of line 32
made on a given world: `bundleDir` is `filepath.Join(c.RepoRoot, rel)`. -/
def generateBundleRulesIn (w : World) (iteration : MapOrder) (config : MergedConfig)
    (protoTargets : List String) (rel : Path) : List Rule :=
  generateBundleRules config protoTargets
    (collectBundleTransitiveDependencies w iteration rel protoTargets)

/-! ## Target discovery (protolake.go, lines 159-258) -/

/-- `discoverProtoTargetsInDirectory(dir, repoRoot)`, lines 175-224. -/
def discoverProtoTargetsInDirectory (w : World) (dir : Path) : List String :=
  let buildFile :=
    if w.isNotExist (dir ++ ["BUILD.bazel"]) then dir ++ ["BUILD"] else dir ++ ["BUILD.bazel"]
  if w.isNotExist buildFile then []
  else
    match w.readFile buildFile with
    | none => []
    | some buildContent =>
      (findAllProtoLibraries buildContent.data 0).map
        (fun name =>
          let pkg := relString dir
          if pkg == "." then ":" ++ name else "//" ++ pkg ++ ":" ++ name)

/-- The directory names at which the walk of discoverProtoTargetsRecursively
returns `filepath.SkipDir` (lines 242-243); `bundleDir` there is the absolute
path of the bundle directory, here the path below the repository root. -/
def skippedDirNames (w : World) (bundleDir : Path) : List String :=
  ["bazel-bin", "bazel-out", "bazel-testlogs",
    "bazel-" ++ filepathBase (pathString w.repoRoot bundleDir)]

/-- Whether the walk from `bundleDir` never reaches the entry because one of the
directories between the bundle directory and the entry made the callback
return `filepath.SkipDir`. -/
def prunedBelow (w : World) (bundleDir : Path) (p : Path) : Bool :=
  ((p.drop bundleDir.length).dropLast).any
    (fun c => (skippedDirNames w bundleDir).contains c)

/-- `discoverProtoTargetsRecursively(bundleDir, repoRoot)`, lines 226-258. -/
def discoverProtoTargetsRecursively (w : World) (bundleDir : Path) : List String :=
  (((w.walk bundleDir).filter (fun e => !prunedBelow w bundleDir e.path)).map
    (fun e =>
      if e.path == bundleDir then []
      else if e.isDir && (skippedDirNames w bundleDir).contains (baseName e.path) then []
      else if baseName e.path == "BUILD.bazel" || baseName e.path == "BUILD" then
        discoverProtoTargetsInDirectory w (dirOf e.path)
      else [])).flatten

/-- `discoverExistingProtoTargets(args)`, lines 159-173, with `args.Dir` the
bundle directory. -/
def discoverExistingProtoTargets (w : World) (dir : Path) : List String :=
  discoverProtoTargetsInDirectory w dir ++ discoverProtoTargetsRecursively w dir

/-! ## A sample repository -/

/-- The build manifest of the bundle directory, as in the integration test. -/
def userBuildText : String :=
  "load(\"@rules_proto//proto:defs.bzl\", \"proto_library\")\n\n" ++
  "proto_library(\n    name = \"user_proto\",\n    srcs = [\"user.proto\"],\n" ++
  "    visibility = [\"//visibility:public\"],\n)\n\n" ++
  "proto_library(\n    name = \"types_proto\",\n    srcs = [\"types.proto\"],\n" ++
  "    visibility = [\"//visibility:public\"],\n)\n"

/-- The proto file of the bundle: it imports a file of another package, a
vendored `google/` file, a well-known file and a file that nobody owns. -/
def userProtoText : String :=
  "syntax = \"proto3\";\n\npackage acme.user;\n\n" ++
  "import \"common/money.proto\";\n" ++
  "import \"google/api/annotations.proto\";\n" ++
  "import \"google/protobuf/timestamp.proto\";\n" ++
  "import \"missing/nowhere.proto\";\n\n" ++
  "message User \x7b string id = 1; \x7d\n"

/-- A file entry with the given text. -/
def fileEntry (path : Path) (text : String) : FsEntry :=
  { path := path, isDir := false, content := some text }

/-- A directory entry. -/
def dirEntry (path : Path) : FsEntry :=
  { path := path, isDir := true, content := none }

/-- A repository with a proto file at its root, two library packages, a
vendored `google/api` package, a build-output directory and one bundle in
`services/user`. -/
def sampleWorld : World :=
  { repoRoot := "/repo"
    entries :=
      [ fileEntry ["BUILD.bazel"] "proto_library(name = \"root_proto\", srcs = [\"root.proto\"])\n",
        dirEntry ["base"],
        fileEntry ["base", "BUILD.bazel"]
          "proto_library(name = \"units_proto\", srcs = [\"units.proto\"])\n",
        fileEntry ["base", "units.proto"] "syntax = \"proto3\";\n",
        dirEntry ["bazel-bin"],
        dirEntry ["bazel-bin", "services"],
        dirEntry ["bazel-bin", "services", "user"],
        fileEntry ["bazel-bin", "services", "user", "BUILD.bazel"]
          "proto_library(name = \"copy_proto\", srcs = [\"copy.proto\"])\n",
        fileEntry ["bazel-bin", "services", "user", "copy.proto"]
          "import \"base/units.proto\";\n",
        dirEntry ["common"],
        fileEntry ["common", "BUILD.bazel"]
          "proto_library(name = \"money_proto\", srcs = [\"money.proto\"])\n",
        fileEntry ["common", "money.proto"]
          "syntax = \"proto3\";\nimport \"base/units.proto\";\n",
        dirEntry ["google"],
        dirEntry ["google", "api"],
        fileEntry ["google", "api", "BUILD.bazel"]
          ("proto_library(name = \"annotations_proto\", srcs = [\"annotations.proto\"])\n" ++
           "proto_library(name = \"http_proto\", srcs = [\"http.proto\"])\n"),
        fileEntry ["google", "api", "annotations.proto"]
          "syntax = \"proto3\";\nimport \"google/api/http.proto\";\n",
        fileEntry ["google", "api", "http.proto"] "syntax = \"proto3\";\n",
        fileEntry ["root.proto"] "syntax = \"proto3\";\n",
        dirEntry ["services"],
        dirEntry ["services", "user"],
        fileEntry ["services", "user", "BUILD.bazel"] userBuildText,
        fileEntry ["services", "user", "bundle.yaml"] "name: \"user-service\"\n",
        fileEntry ["services", "user", "types.proto"] "syntax = \"proto3\";\n",
        fileEntry ["services", "user", "user.proto"] userProtoText ] }

/-- The map iteration that yields the keys in the order of their insertion. -/
def insertionOrder : MapOrder :=
  { order := fun keys => keys, isPerm := fun keys => List.Perm.refl keys }

/-- The map iteration that yields the keys in the reverse order. -/
def reverseOrder : MapOrder :=
  { order := List.reverse, isPerm := fun keys => List.reverse_perm keys }

/-! ## Predicates on import chains and on rule lists -/

/-- The import paths extracted from an entry: those of its text, none when the
entry cannot be read. -/
def importsOf (f : FsEntry) : List String :=
  match f.content with
  | some content => extractImports content
  | none => []

/-- An import chain A → B → C as in the one-hop property: A is a proto file of
the bundle and imports the path of B; B and C lie outside the bundle directory
and B imports the path of C; both paths are keys of the import index, owned by
the different targets `tB` and `tC`; and `tC` is neither a direct target nor
the owner of a path imported by a proto file of the bundle. -/
structure ImportChain (w : World) (bundleDir : Path) (directTargets : List String)
    (A B C : FsEntry) (tB tC : String) : Prop where
  aInBundle : A ∈ collectBundleProtoFiles w bundleDir
  aImportsB : relString B.path ∈ importsOf A
  bInRepo : B ∈ w.entries
  bOutside : bundleDir.isPrefixOf B.path = false
  bImportsC : relString C.path ∈ importsOf B
  cInRepo : C ∈ w.entries
  cOutside : bundleDir.isPrefixOf C.path = false
  bOwned : (buildImportIndex w).lookup (relString B.path) = some tB
  cOwned : (buildImportIndex w).lookup (relString C.path) = some tC
  different : tB ≠ tC
  cNotDirect : tC ∉ directTargets
  cNotImported : ∀ f ∈ collectBundleProtoFiles w bundleDir, ∀ p ∈ importsOf f,
    (buildImportIndex w).lookup p ≠ some tC

/-- Two attribute values that agree up to the order of a platform string list. -/
def AttrValue.SameUpToOrder : AttrValue → AttrValue → Prop
  | .str a, .str b => a = b
  | .strings a, .strings b => a = b
  | .platformStrings a, .platformStrings b => a.Perm b
  | _, _ => False

/-- Two rules with the same kind, the same name and the same attribute names in
the same order, whose attribute values agree up to the order of the platform
string lists. -/
def Rule.SameUpToOrder (r1 r2 : Rule) : Prop :=
  r1.kind = r2.kind ∧ r1.name = r2.name ∧
    List.Forall₂ (fun a b => a.1 = b.1 ∧ a.2.SameUpToOrder b.2) r1.attrs r2.attrs

/-- The user proto file of the sample repository without its import of
`google/api/annotations.proto`. -/
def userProtoTextTrimmed : String :=
  "syntax = \"proto3\";\n\npackage acme.user;\n\n" ++
  "import \"common/money.proto\";\n" ++
  "import \"google/protobuf/timestamp.proto\";\n" ++
  "import \"missing/nowhere.proto\";\n\n" ++
  "message User \x7b string id = 1; \x7d\n"

/-- The direct targets of the bundle of the sample repository. -/
def userTargets : List String :=
  ["//services/user:user_proto", "//services/user:types_proto"]

/-- A repository in which one build manifest has two proto_library declarations
that list the same source file. -/
def duplicateWorld : World :=
  { repoRoot := "/repo"
    entries :=
      [ dirEntry ["dup"],
        fileEntry ["dup", "BUILD.bazel"]
          ("proto_library(name = \"first_proto\", srcs = [\"x.proto\"])\n" ++
           "proto_library(name = \"second_proto\", srcs = [\"x.proto\"])\n"),
        fileEntry ["dup", "x.proto"] "syntax = \"proto3\";\n" ] }

/-- A proto_library declaration written on one line, name first, with one
source file. -/
def protoLibraryDecl (name file : String) : String :=
  "proto_library(name = \"" ++ name ++ "\", srcs = [\"" ++ file ++ "\"])"

/-! ## Configuration files (bundle.go, lines 67-128) -/

/-- A YAML document after syntactic parsing: the tree that the decoder of the
library maps onto a Go struct. -/
inductive YamlNode where
  | null
  | scalar (value : String)
  | mapping (fields : List (String × YamlNode))
  | sequence (items : List YamlNode)

/-- The two services of the YAML library that `yaml.Unmarshal` relies on and
that are not part of this repository: the parser of the document text (`none`
for text that is not well-formed YAML) and the resolution of a scalar as a
boolean (`none` when the scalar is not a boolean). -/
structure YamlLib where
  parse : String → Option YamlNode
  resolveBool : String → Option Bool

/-- The node under a key of a struct-valued node; `none` inside when the key is
absent, and `none` outside when the node cannot be decoded into a struct. A
missing or null node is an empty struct. -/
def structFields : Option YamlNode → Option (List (String × YamlNode))
  | none => some []
  | some .null => some []
  | some (.mapping fields) => some fields
  | some _ => none

/-- Decoding into a Go `string` field: a missing or null node leaves the zero
value, a scalar gives its text, anything else is a type error. -/
def decodeString : Option YamlNode → Option String
  | none => some ""
  | some .null => some ""
  | some (.scalar value) => some value
  | some _ => none

/-- Decoding into a Go `bool` field: a missing or null node leaves `false`. -/
def decodeBool (lib : YamlLib) : Option YamlNode → Option Bool
  | none => some false
  | some .null => some false
  | some (.scalar value) => lib.resolveBool value
  | some _ => none

/-- Decoding into a Go `*bool` field: a missing or null node leaves the nil
pointer. -/
def decodeBoolPtr (lib : YamlLib) : Option YamlNode → Option (Option Bool)
  | none => some none
  | some .null => some none
  | some (.scalar value) => (lib.resolveBool value).map some
  | some _ => none

/-- Decoding into the Java block of `BundleConfig` (yaml tags `enabled`,
`group_id`, `artifact_id`); `none` is a decoding error. -/
def decodeBundleJava (lib : YamlLib) (node : Option YamlNode) : Option BundleJava :=
  match structFields node with
  | none => none
  | some fields =>
    match decodeBoolPtr lib (fields.lookup "enabled"), decodeString (fields.lookup "group_id"),
      decodeString (fields.lookup "artifact_id") with
    | some enabled, some groupId, some artifactId =>
      some { Enabled := enabled, GroupId := groupId, ArtifactId := artifactId }
    | _, _, _ => none

/-- Decoding into the Python block of `BundleConfig` (yaml tags `enabled`,
`package_name`). -/
def decodeBundlePython (lib : YamlLib) (node : Option YamlNode) : Option BundlePython :=
  match structFields node with
  | none => none
  | some fields =>
    match decodeBoolPtr lib (fields.lookup "enabled"),
      decodeString (fields.lookup "package_name") with
    | some enabled, some packageName => some { Enabled := enabled, PackageName := packageName }
    | _, _ => none

/-- Decoding into the Javascript block of `BundleConfig` (yaml tags `enabled`,
`package_name`). -/
def decodeBundleJavascript (lib : YamlLib) (node : Option YamlNode) :
    Option BundleJavascript :=
  match structFields node with
  | none => none
  | some fields =>
    match decodeBoolPtr lib (fields.lookup "enabled"),
      decodeString (fields.lookup "package_name") with
    | some enabled, some packageName => some { Enabled := enabled, PackageName := packageName }
    | _, _ => none

/-- Decoding into the `Languages` struct of `BundleConfig` (yaml tags `java`,
`python`, `javascript`). -/
def decodeBundleLanguages (lib : YamlLib) (node : Option YamlNode) : Option BundleLanguages :=
  match structFields node with
  | none => none
  | some fields =>
    match decodeBundleJava lib (fields.lookup "java"),
      decodeBundlePython lib (fields.lookup "python"),
      decodeBundleJavascript lib (fields.lookup "javascript") with
    | some java, some python, some javascript =>
      some { Java := java, Python := python, Javascript := javascript }
    | _, _, _ => none

/-- Decoding into the `Config` struct of `BundleConfig` (yaml tag `languages`). -/
def decodeBundleConfigSection (lib : YamlLib) (node : Option YamlNode) :
    Option BundleConfigSection :=
  match structFields node with
  | none => none
  | some fields =>
    match decodeBundleLanguages lib (fields.lookup "languages") with
    | some languages => some { Languages := languages }
    | none => none

/-- The metadata fields of `BundleConfig` (yaml tags `name`, `display_name`,
`description`, `bundle_prefix`, `version`), in this order. -/
def decodeBundleMetadata (fields : List (String × YamlNode)) :
    Option (String × String × String × String × String) :=
  match decodeString (fields.lookup "name"), decodeString (fields.lookup "display_name"),
    decodeString (fields.lookup "description") with
  | some name, some displayName, some description =>
    match decodeString (fields.lookup "bundle_prefix"),
      decodeString (fields.lookup "version") with
    | some bundlePre, some version => some (name, displayName, description, bundlePre, version)
    | _, _ => none
  | _, _, _ => none

/-- Decoding of a document into `BundleConfig`, field by field after the yaml
tags of the struct (bundle.go, lines 39-65): `name`, `display_name`,
`description`, `bundle_prefix`, `version` and `config`. A key without a field
is ignored, a field without a key keeps its zero value; `none` is a decoding
error. -/
def decodeBundleConfig (lib : YamlLib) (doc : YamlNode) : Option BundleConfig :=
  match structFields (some doc) with
  | none => none
  | some fields =>
    match decodeBundleMetadata fields, decodeBundleConfigSection lib (fields.lookup "config") with
    | some (name, displayName, description, bundlePre, version), some config =>
      some
        { Name := name, DisplayName := displayName, Description := description,
          BundlePrefix := bundlePre, Version := version, Config := config }
    | _, _ => none

/-- Decoding into the Java block of `LakeConfig` (yaml tags `enabled`,
`group_id`, `source_version`, `target_version`). -/
def decodeLakeJava (lib : YamlLib) (node : Option YamlNode) : Option LakeJavaDefaults :=
  match structFields node with
  | none => none
  | some fields =>
    match decodeBool lib (fields.lookup "enabled"), decodeString (fields.lookup "group_id") with
    | some enabled, some groupId =>
      match decodeString (fields.lookup "source_version"),
        decodeString (fields.lookup "target_version") with
      | some sourceVersion, some targetVersion =>
        some { Enabled := enabled, GroupId := groupId, SourceVersion := sourceVersion,
               TargetVersion := targetVersion }
      | _, _ => none
    | _, _ => none

/-- Decoding into the Python block of `LakeConfig` (yaml tags `enabled`,
`package_name`, `python_version`). -/
def decodeLakePython (lib : YamlLib) (node : Option YamlNode) : Option LakePythonDefaults :=
  match structFields node with
  | none => none
  | some fields =>
    match decodeBool lib (fields.lookup "enabled"), decodeString (fields.lookup "package_name"),
      decodeString (fields.lookup "python_version") with
    | some enabled, some packageName, some version =>
      some { Enabled := enabled, PackageName := packageName, Version := version }
    | _, _, _ => none

/-- Decoding into the Javascript block of `LakeConfig` (yaml tags `enabled`,
`package_name`). -/
def decodeLakeJavascript (lib : YamlLib) (node : Option YamlNode) :
    Option LakeJavascriptDefaults :=
  match structFields node with
  | none => none
  | some fields =>
    match decodeBool lib (fields.lookup "enabled"),
      decodeString (fields.lookup "package_name") with
    | some enabled, some packageName => some { Enabled := enabled, PackageName := packageName }
    | _, _ => none

/-- Decoding into the `LanguageDefaults` struct of `LakeConfig`. -/
def decodeLakeLanguageDefaults (lib : YamlLib) (node : Option YamlNode) :
    Option LakeLanguageDefaults :=
  match structFields node with
  | none => none
  | some fields =>
    match decodeLakeJava lib (fields.lookup "java"),
      decodeLakePython lib (fields.lookup "python"),
      decodeLakeJavascript lib (fields.lookup "javascript") with
    | some java, some python, some javascript =>
      some { Java := java, Python := python, Javascript := javascript }
    | _, _, _ => none

/-- Decoding into the `BuildDefaults` struct of `LakeConfig` (yaml tag
`base_version`). -/
def decodeLakeBuildDefaults (node : Option YamlNode) : Option LakeBuildDefaults :=
  match structFields node with
  | none => none
  | some fields =>
    match decodeString (fields.lookup "base_version") with
    | some baseVersion => some { BaseVersion := baseVersion }
    | none => none

/-- Decoding into the `Config` struct of `LakeConfig` (yaml tags
`language_defaults`, `build_defaults`). -/
def decodeLakeConfigSection (lib : YamlLib) (node : Option YamlNode) :
    Option LakeConfigSection :=
  match structFields node with
  | none => none
  | some fields =>
    match decodeLakeLanguageDefaults lib (fields.lookup "language_defaults"),
      decodeLakeBuildDefaults (fields.lookup "build_defaults") with
    | some languageDefaults, some buildDefaults =>
      some { LanguageDefaults := languageDefaults, BuildDefaults := buildDefaults }
    | _, _ => none

/-- Decoding of a document into `LakeConfig`, after the yaml tags of the struct
(bundle.go, lines 12-35): the only top-level field is `config`. -/
def decodeLakeConfig (lib : YamlLib) (doc : YamlNode) : Option LakeConfig :=
  match structFields (some doc) with
  | none => none
  | some fields =>
    match decodeLakeConfigSection lib (fields.lookup "config") with
    | some config => some { Config := config }
    | none => none

/-- The call `yaml.Unmarshal(data, &config)` for a `BundleConfig`; `none` is a
non-nil error. -/
def unmarshalBundleConfig (lib : YamlLib) (data : String) : Option BundleConfig :=
  (lib.parse data).bind (decodeBundleConfig lib)

/-- The call `yaml.Unmarshal(data, &config)` for a `LakeConfig`; `none` is a
non-nil error. -/
def unmarshalLakeConfig (lib : YamlLib) (data : String) : Option LakeConfig :=
  (lib.parse data).bind (decodeLakeConfig lib)

/-- The errors that the loaders return: the one of `os.ReadFile` and the one of
`yaml.Unmarshal`. -/
inductive LoadError where
  | readFailed
  | unmarshalFailed
  deriving DecidableEq, Repr

/-- What a directory above the repository root holds under the name
`lake.yaml`: nothing that `os.Stat` finds, a file that cannot be read, or a
file with a text. -/
inductive LakeFile where
  | absent
  | unreadable
  | readable (text : String)
  deriving DecidableEq, Repr

/-- The `lake.yaml` of a directory of the repository, as `os.Stat` and
`os.ReadFile` see it. -/
def lakeFileAt (w : World) (dir : Path) : LakeFile :=
  if w.stat (dir ++ ["lake.yaml"]) then
    match w.readFile (dir ++ ["lake.yaml"]) with
    | some text => .readable text
    | none => .unreadable
  else .absent

/-- The directories that the loop of LoadLakeConfig visits, as the `lake.yaml`
each of them holds: the start directory, its parents up to the repository
root, then the directories above the repository root up to the root of the
file system (`above`, nearest first). -/
def lakeSearchPath (w : World) (above : List LakeFile) (startDir : Path) : List LakeFile :=
  (startDir.inits.reverse.map (lakeFileAt w)) ++ above

/-- The loop of LoadLakeConfig (lines 72-96) over the directories still to be
visited: the first `lake.yaml` that `os.Stat` finds is read and unmarshalled
and its outcome is returned; when the root has been passed, the result is
`nil, nil`. The pair is the returned config and the returned error. -/
def loadLakeFrom (lib : YamlLib) : List LakeFile → Option LakeConfig × Option LoadError
  | [] => (none, none)
  | .absent :: rest => loadLakeFrom lib rest
  | .unreadable :: _ => (none, some .readFailed)
  | .readable data :: _ =>
    match unmarshalLakeConfig lib data with
    | some config => (some config, none)
    | none => (none, some .unmarshalFailed)

/-- `LoadLakeConfig(startDir)`, lines 67-99. -/
def LoadLakeConfig (lib : YamlLib) (w : World) (above : List LakeFile) (startDir : Path) :
    Option LakeConfig × Option LoadError :=
  loadLakeFrom lib (lakeSearchPath w above startDir)

/-- `LoadBundleConfig(dir)`, lines 101-128. The pair is the returned config and
the returned error. -/
def LoadBundleConfig (lib : YamlLib) (w : World) (dir : Path) :
    Option BundleConfig × Option LoadError :=
  let bundleFile := dir ++ ["bundle.yaml"]
  if w.isNotExist bundleFile then (none, none)
  else
    match w.readFile bundleFile with
    | none => (none, some .readFailed)
    | some data =>
      match unmarshalBundleConfig lib data with
      | none => (none, some .unmarshalFailed)
      | some config =>
        if config.Name == "" then (none, none)
        else (some config, none)

/-! ## The extension (protolake.go, lines 49-157) -/

/-- The struct `protolakeConfig`. -/
structure ProtolakeConfig where
  enabled : Bool
  deriving DecidableEq, Repr

/-- The part of gazelle's `config.Config` that the extension uses: the entry of
`c.Exts` under the name `protolake`, when there is one and it is a
`*protolakeConfig`. -/
structure GazelleConfig where
  Exts : Option ProtolakeConfig
  deriving DecidableEq, Repr

/-- A directive of a build file, `rule.Directive`. -/
structure Directive where
  Key : String
  Value : String
  deriving DecidableEq, Repr

/-- The part of a build file that Configure reads, `rule.File`. -/
structure BuildFile where
  Directives : List Directive
  deriving DecidableEq, Repr

/-- The body of the loop of Configure (lines 59-66) for one directive. -/
def applyDirective (c : GazelleConfig) (d : Directive) : GazelleConfig :=
  if d.Key == "protolake" then
    match c.Exts with
    | some _ => { c with Exts := some { enabled := d.Value == "true" } }
    | none => c
  else c

/-- `Configure(c, rel, f)`, lines 53-67: the config after the call; `f` is
`none` for a nil file. -/
def Configure (c : GazelleConfig) (f : Option BuildFile) : GazelleConfig :=
  match f with
  | none => c
  | some file => file.Directives.foldl applyDirective c

/-- `getProtolakeConfig(c)`, lines 69-76: the config of the extension and the
gazelle config after the call, in which a missing entry has been created. -/
def getProtolakeConfig (c : GazelleConfig) : ProtolakeConfig × GazelleConfig :=
  match c.Exts with
  | some pc => (pc, c)
  | none => ({ enabled := true }, { c with Exts := some { enabled := true } })

/-- The result of GenerateRules, `language.GenerateResult`: the generated rules
and, for each of them, its imports, which are always nil here. -/
structure GenerateResult where
  Gen : List Rule
  Imports : List (Option Unit)
  deriving DecidableEq, Repr

/-- The value `language.GenerateResult\x7b\x7d`. -/
def emptyResult : GenerateResult := { Gen := [], Imports := [] }

/-- `GenerateRules(args)`, lines 78-157, for the directory `dir` of the
repository (`args.Dir` is its absolute path, `args.Rel` its path below the
root). -/
def GenerateRules (lib : YamlLib) (w : World) (above : List LakeFile) (iteration : MapOrder)
    (c : GazelleConfig) (dir : Path) : GenerateResult :=
  let pc := (getProtolakeConfig c).1
  if !pc.enabled then emptyResult
  else if w.isNotExist (dir ++ ["bundle.yaml"]) then emptyResult
  else
    match LoadLakeConfig lib w above dir with
    | (_, some _) => emptyResult
    | (lakeConfig, none) =>
      match LoadBundleConfig lib w dir with
      | (_, some _) => emptyResult
      | (none, none) => emptyResult
      | (some bundleConfig, none) =>
        let mergedConfig := MergeConfigurations lakeConfig bundleConfig
        let protoTargets := discoverExistingProtoTargets w dir
        if protoTargets.length == 0 then emptyResult
        else
          let rules := generateBundleRulesIn w iteration mergedConfig protoTargets dir
          let gen := rules
          let imports := List.replicate gen.length (none : Option Unit)
          { Gen := gen, Imports := imports }

/-- A repository whose bundle `svc` holds two directories with the `bazel-`
marker in their names, each with a build manifest of its own. -/
def outputWorld : World :=
  { repoRoot := "/repo"
    entries :=
      [ dirEntry ["svc"],
        fileEntry ["svc", "BUILD.bazel"]
          "proto_library(name = \"api_proto\", srcs = [\"api.proto\"])\n",
        fileEntry ["svc", "api.proto"] "syntax = \"proto3\";\n",
        dirEntry ["svc", "bazel-bin"],
        fileEntry ["svc", "bazel-bin", "BUILD.bazel"]
          "proto_library(name = \"copy_proto\", srcs = [\"copy.proto\"])\n",
        dirEntry ["svc", "bazel-genfiles"],
        fileEntry ["svc", "bazel-genfiles", "BUILD.bazel"]
          "proto_library(name = \"gen_proto\", srcs = [\"gen.proto\"])\n",
        fileEntry ["svc", "bundle.yaml"] "name: \"svc\"\n" ] }

/-! ## Sample configuration files -/

/-- The document of the test ValidBundleYaml: the metadata stands under a
top-level `bundle` section. -/
def validBundleText : String :=
  "\nbundle:\n  name: \"user-service\"\n  owner: \"platform-team\"\n" ++
  "  proto_package: \"com.example.user\"\n" ++
  "  description: \"User service proto definitions\"\n  version: \"1.0.0\"\n" ++
  "config:\n  languages:\n    java:\n      enabled: true\n" ++
  "      group_id: \"com.example.proto\"\n      artifact_id: \"user-service-proto\"\n" ++
  "    python:\n      enabled: true\n      package_name: \"example_user_proto\"\n" ++
  "    javascript:\n      enabled: true\n" ++
  "      package_name: \"@example/user-service-proto\"\n"

/-- The tree of the document of the test ValidBundleYaml. -/
def validBundleTree : YamlNode :=
  .mapping
    [ ("bundle", .mapping
        [ ("name", .scalar "user-service"), ("owner", .scalar "platform-team"),
          ("proto_package", .scalar "com.example.user"),
          ("description", .scalar "User service proto definitions"),
          ("version", .scalar "1.0.0") ]),
      ("config", .mapping
        [ ("languages", .mapping
            [ ("java", .mapping
                [ ("enabled", .scalar "true"), ("group_id", .scalar "com.example.proto"),
                  ("artifact_id", .scalar "user-service-proto") ]),
              ("python", .mapping
                [ ("enabled", .scalar "true"),
                  ("package_name", .scalar "example_user_proto") ]),
              ("javascript", .mapping
                [ ("enabled", .scalar "true"),
                  ("package_name", .scalar "@example/user-service-proto") ]) ]) ]) ]

/-- The document of the test MinimalValid. -/
def minimalBundleText : String :=
  "\nbundle:\n  name: \"minimal-bundle\"\n  owner: \"test-team\"\n"

/-- The tree of the document of the test MinimalValid. -/
def minimalBundleTree : YamlNode :=
  .mapping
    [ ("bundle", .mapping
        [ ("name", .scalar "minimal-bundle"), ("owner", .scalar "test-team") ]) ]

/-- A bundle document with the name at the top level, the place the struct
tags give it. -/
def flatBundleText : String :=
  "name: \"user-service\"\nversion: \"1.0.0\"\nconfig:\n  languages:\n    java:\n" ++
  "      enabled: true\n      artifact_id: \"user-service-proto\"\n"

/-- The tree of the document with the name at the top level. -/
def flatBundleTree : YamlNode :=
  .mapping
    [ ("name", .scalar "user-service"), ("version", .scalar "1.0.0"),
      ("config", .mapping
        [ ("languages", .mapping
            [ ("java", .mapping
                [ ("enabled", .scalar "true"),
                  ("artifact_id", .scalar "user-service-proto") ]) ]) ]) ]

/-- The lake document of the test DirectoryTraversal. -/
def traversalLakeText : String :=
  "\nconfig:\n  language_defaults:\n    java:\n      enabled: true\n" ++
  "      group_id: \"com.traversal.proto\"\n"

/-- The tree of the lake document of the test DirectoryTraversal. -/
def traversalLakeTree : YamlNode :=
  .mapping
    [ ("config", .mapping
        [ ("language_defaults", .mapping
            [ ("java", .mapping
                [ ("enabled", .scalar "true"),
                  ("group_id", .scalar "com.traversal.proto") ]) ]) ]) ]

/-- The document of the tests InvalidYaml, cut to its last line: text that is
not well-formed. -/
def malformedText : String := "      invalid_yaml_structure: [\n"

/-- A YAML library that knows the sample documents: each of them parses to its
tree, the malformed text and every other text is rejected, and the scalars
`true` and `false` are the booleans. -/
def testYaml : YamlLib :=
  { parse := fun text =>
      if text == validBundleText then some validBundleTree
      else if text == minimalBundleText then some minimalBundleTree
      else if text == flatBundleText then some flatBundleTree
      else if text == traversalLakeText then some traversalLakeTree
      else none
    resolveBool := fun value =>
      if value == "true" then some true
      else if value == "false" then some false
      else none }

/-- A repository with a lake.yaml at its root and several candidate bundle
directories: `good` with a document the struct can hold, `tests` with the
document of the test ValidBundleYaml, `minimal` with that of MinimalValid,
`locked` with a bundle.yaml that cannot be read, `broken` with malformed text,
`plain` without a bundle.yaml, and the nested directory `sub/nested/dir`. -/
def configWorld : World :=
  { repoRoot := "/repo"
    entries :=
      [ dirEntry ["broken"],
        fileEntry ["broken", "bundle.yaml"] malformedText,
        dirEntry ["good"],
        fileEntry ["good", "BUILD.bazel"]
          "proto_library(name = \"user_proto\", srcs = [\"user.proto\"])\n",
        fileEntry ["good", "bundle.yaml"] flatBundleText,
        fileEntry ["good", "user.proto"] "syntax = \"proto3\";\n",
        fileEntry ["lake.yaml"] traversalLakeText,
        dirEntry ["locked"],
        { path := ["locked", "bundle.yaml"], isDir := false, content := none },
        dirEntry ["minimal"],
        fileEntry ["minimal", "bundle.yaml"] minimalBundleText,
        dirEntry ["plain"],
        dirEntry ["sub"],
        dirEntry ["sub", "nested"],
        dirEntry ["sub", "nested", "dir"],
        dirEntry ["tests"],
        fileEntry ["tests", "BUILD.bazel"]
          "proto_library(name = \"user_proto\", srcs = [\"user.proto\"])\n",
        fileEntry ["tests", "bundle.yaml"] validBundleText,
        fileEntry ["tests", "user.proto"] "syntax = \"proto3\";\n" ] }

/-- A repository whose directory `vault` may not be searched: `os.Stat` on the
bundle.yaml in it fails with "permission denied", which is not "does not
exist"; the directory `absent` is not there at all. -/
def deniedWorld : World :=
  { repoRoot := "/repo"
    entries := [ dirEntry ["vault"] ]
    statErrors := [["vault", "bundle.yaml"], ["vault", "BUILD.bazel"], ["vault", "BUILD"]] }

/-- The gazelle config in which the extension is registered and enabled. -/
def enabledConfig : GazelleConfig := { Exts := some { enabled := true } }

/-! ## Kinds and load statements (protolake.go, lines 260-321) -/

/-- The part of gazelle's `rule.KindInfo` that the extension fills in: the map
`NonEmptyAttrs` of type `map[string]bool`, as the list of its entries. -/
structure RuleKindInfo where
  NonEmptyAttrs : List (String × Bool)
  deriving DecidableEq, Repr

/-- `KindInfo()`, lines 265-299: the map from rule kind to its info, as the list
of its entries. -/
def KindInfo : List (String × RuleKindInfo) :=
  [ ("java_proto_bundle",
      { NonEmptyAttrs :=
          [ ("group_id", true), ("artifact_id", true), ("proto_deps", true),
            ("java_deps", true), ("java_grpc_deps", true) ] }),
    ("py_proto_bundle",
      { NonEmptyAttrs :=
          [ ("package_name", true), ("proto_deps", true), ("py_deps", true),
            ("py_grpc_deps", true) ] }),
    ("js_proto_bundle",
      { NonEmptyAttrs :=
          [ ("package_name", true), ("proto_deps", true), ("js_deps", true),
            ("js_grpc_web_deps", true) ] }),
    ("build_validation", { NonEmptyAttrs := [ ("targets", true) ] }) ]

/-- `Kinds()`, lines 260-263. -/
def Kinds : List (String × RuleKindInfo) := KindInfo

/-- A gazelle `rule.LoadInfo`: the module of a load statement and the symbols
loaded from it. -/
structure LoadInfo where
  Name : String
  Symbols : List String
  deriving DecidableEq, Repr

/-- `Loads()`, lines 301-321. -/
def Loads : List LoadInfo :=
  [ { Name := "@rules_proto_grpc_java//:defs.bzl", Symbols := ["java_grpc_library"] },
    { Name := "@rules_proto_grpc_python//:defs.bzl", Symbols := ["python_grpc_library"] },
    { Name := "@rules_proto_grpc_js//:defs.bzl",
      Symbols := ["js_grpc_library", "js_grpc_web_library"] },
    { Name := "//tools:proto_bundle.bzl",
      Symbols := ["build_validation", "java_proto_bundle", "py_proto_bundle",
        "js_proto_bundle"] } ]

/-- The symbols of all the load statements of `Loads()`. -/
def loadedSymbols : List String :=
  Loads.foldr (fun l acc => l.Symbols ++ acc) []

/-- The symbols that `Loads()` lists for the module `name`. -/
def symbolsOf (name : String) : List String :=
  (Loads.filter (fun l => l.Name == name)).foldr (fun l acc => l.Symbols ++ acc) []

/-- The rule kinds that Bazel provides without a load statement, as the
description lists them: genrule and alias. -/
def builtinKinds : List String := ["genrule", "alias"]

/-- An attribute value that is not empty: a string other than the empty one, a
list with at least one element. -/
def AttrValue.nonEmpty : AttrValue → Bool
  | .str s => s != ""
  | .strings l => !l.isEmpty
  | .platformStrings generic => !generic.isEmpty

/-- The attributes that `KindInfo()` marks in `NonEmptyAttrs` for a kind; none
for a kind that `KindInfo()` does not list. -/
def nonEmptyAttrsOf (kind : String) : List String :=
  match KindInfo.lookup kind with
  | some info => (info.NonEmptyAttrs.filter Prod.snd).map Prod.fst
  | none => []

/-- Whether a rule has every attribute that `KindInfo()` marks for its kind,
each with a value that is not empty. -/
def Rule.hasNonEmptyAttrs (r : Rule) : Bool :=
  (nonEmptyAttrsOf r.kind).all
    (fun key =>
      match r.Attr key with
      | some v => v.nonEmpty
      | none => false)

/-- Whether any of the three languages is enabled in the merged config. -/
def anyEnabled (config : MergedConfig) : Bool :=
  config.JavaConfig.Enabled || config.PythonConfig.Enabled || config.JavaScriptConfig.Enabled

/-- A repository whose directory `bare` holds a bundle.yaml with a name and a
build manifest that declares no proto_library, next to the directory `full`
with the same bundle.yaml and a proto_library. -/
def bareWorld : World :=
  { repoRoot := "/repo"
    entries :=
      [ dirEntry ["bare"],
        fileEntry ["bare", "BUILD.bazel"] "filegroup(name = \"docs\", srcs = [\"README.md\"])\n",
        fileEntry ["bare", "bundle.yaml"] flatBundleText,
        dirEntry ["bare", "docs"],
        fileEntry ["bare", "docs", "BUILD.bazel"] "exports_files([\"guide.md\"])\n",
        dirEntry ["full"],
        fileEntry ["full", "BUILD.bazel"]
          "proto_library(name = \"user_proto\", srcs = [\"user.proto\"])\n",
        fileEntry ["full", "bundle.yaml"] flatBundleText,
        fileEntry ["full", "user.proto"] "syntax = \"proto3\";\n",
        fileEntry ["lake.yaml"] traversalLakeText ] }

/-- The names of the fifteen rules that the generators can emit for a bundle
name, in the order of emission. -/
def allRuleNames (bundleName : String) : List String :=
  [ bundleName ++ "_all_protos",
    bundleName ++ "_java_grpc", bundleName ++ "_java_bundle",
    "publish_" ++ bundleName ++ "_to_maven", "publish_to_maven",
    bundleName ++ "_python_grpc", bundleName ++ "_py_bundle",
    "publish_" ++ bundleName ++ "_to_pypi", "publish_to_pypi",
    bundleName ++ "_js_grpc_node", bundleName ++ "_js_grpc_web", bundleName ++ "_js_bundle",
    "publish_" ++ bundleName ++ "_to_npm", "publish_to_npm",
    "all" ]

/-! ## Import statements -/

/-- The text of an import statement with a modifier between the keyword and the
quoted path, as in `import public "p";`. -/
def modifiedImport (modifier path : String) : String :=
  "import " ++ modifier ++ " \"" ++ path ++ "\";"

/-- The text of an import statement of the plain form, `import "p";`. -/
def plainImport (path : String) : String :=
  "import \"" ++ path ++ "\";"

/-- The text holds the path in the plain form: the keyword, one or more
whitespace characters, and the path between quotes right after them. -/
def PlainImportIn (content path : String) : Prop :=
  ∃ pre ws post : List Char, ws ≠ [] ∧ (∀ c ∈ ws, isSpace c = true) ∧
    content.data = pre ++ "import".data ++ ws ++ '\x22' :: path.data ++ '\x22' :: post

/-- No occurrence of the keyword starts within the text, whatever follows the
text: no non-empty end of the text begins with the keyword or is a beginning
of the keyword. -/
def keywordFree (keyword u : List Char) : Bool :=
  u.tails.all (fun s => s.isEmpty || (!keyword.isPrefixOf s && !s.isPrefixOf keyword))

/-- A piece of a proto file: text, a statement of the plain form, or a
statement with a modifier. -/
inductive ProtoPiece where
  | text (u : String)
  | plain (path : String)
  | modified (modifier path : String)
  deriving DecidableEq, Repr

/-- The text of a piece. -/
def ProtoPiece.render : ProtoPiece → String
  | .text u => u
  | .plain path => plainImport path
  | .modified modifier path => modifiedImport modifier path

/-- The text of a file made of the pieces, one after the other. -/
def renderPieces (pieces : List ProtoPiece) : String :=
  pieces.foldr (fun piece acc => piece.render ++ acc) ""

/-- A path without a quote and without whitespace in it. -/
def cleanPath (path : String) : Bool :=
  path.data.all (fun c => c != '\x22' && !isSpace c)

/-- The pieces for which the extraction is determined piece by piece: text in
which the keyword `import` does not occur, a plain statement whose path is not
empty and holds no quote, a statement with public or weak whose path is clean. -/
def ProtoPiece.wellFormed : ProtoPiece → Bool
  | .text u => keywordFree "import".data u.data
  | .plain path => path != "" && path.data.all (fun c => c != '\x22')
  | .modified modifier path => (modifier == "public" || modifier == "weak") && cleanPath path

/-- The paths of the plain statements among the pieces, in order. -/
def plainPaths : List ProtoPiece → List String
  | [] => []
  | .plain path :: rest => path :: plainPaths rest
  | _ :: rest => plainPaths rest

/-- A proto file that opens with its syntax and package lines and has one
statement of each form. -/
def sampleProtoPieces : List ProtoPiece :=
  [ .text "syntax = \"proto3\";\n\npackage acme.user;\n\n",
    .plain "common/money.proto", .text "\n",
    .modified "public" "common/types.proto", .text "\n",
    .modified "weak" "common/legacy.proto", .text "\n\nmessage User {}\n" ]

/-- An index with an owner for each of the three imported files. -/
def sampleProtoIndex : List (String × String) :=
  [ ("common/money.proto", "//common:money_proto"),
    ("common/types.proto", "//common:types_proto"),
    ("common/legacy.proto", "//common:legacy_proto") ]

/-- The head of a build manifest: a load statement and the declaration of a
file other than `x.proto`. -/
def manifestHead : String :=
  "load(\"@rules_proto//proto:defs.bzl\", \"proto_library\")\n\n" ++
  "proto_library(\n    name = \"other_proto\",\n    srcs = [\"other.proto\"],\n)\n\n"

/-- A declaration written over several lines that lists `x.proto` among its
sources. -/
def manifestFirst : String :=
  "proto_library(\n    name = \"first_proto\",\n    srcs = [\n        \"types.proto\",\n" ++
  "        \"x.proto\",\n    ],\n    deps = [\":other_proto\"],\n)\n\n"

/-- A later declaration that lists `x.proto` as well. -/
def manifestSecond : String :=
  "proto_library(\n    name = \"second_proto\",\n    srcs = [\"x.proto\"],\n)\n"

/-- A repository whose package `pkg` has the manifest made of the three parts. -/
def manifestWorld : World :=
  { repoRoot := "/repo"
    entries :=
      [ dirEntry ["pkg"],
        fileEntry ["pkg", "BUILD.bazel"] (manifestHead ++ manifestFirst ++ manifestSecond),
        fileEntry ["pkg", "other.proto"] "syntax = \"proto3\";\n",
        fileEntry ["pkg", "types.proto"] "syntax = \"proto3\";\n",
        fileEntry ["pkg", "x.proto"] "syntax = \"proto3\";\n" ] }

end Protolake

namespace Protolake

/-! ## Facts about os.Stat and os.ReadFile -/

/-- The tests `err == nil` and `os.IsNotExist(err)` exclude each other. -/
theorem World.isNotExist_of_stat (w : World) (p : Path) (h : w.stat p = true) :
    w.isNotExist p = false := by
  unfold World.stat at h
  unfold World.isNotExist
  cases hr : w.statResult p
  · rfl
  · rw [hr] at h
    cases h
  · rfl

/-- A path that is reported as missing is not found. -/
theorem World.stat_of_isNotExist (w : World) (p : Path) (h : w.isNotExist p = true) :
    w.stat p = false := by
  cases hs : w.stat p
  · rfl
  · rw [World.isNotExist_of_stat w p hs] at h
    cases h

/-- A path without an entry cannot be read. -/
theorem World.readFile_of_not_stat (w : World) (p : Path) (h : w.stat p = false) :
    w.readFile p = none := by
  unfold World.stat World.statResult at h
  unfold World.readFile
  by_cases hany : (w.entries.any (fun e => e.path == p)) = true
  · rw [if_pos hany] at h
    cases h
  · have hfind : w.entries.find? (fun e => e.path == p) = none := by
      rw [List.find?_eq_none]
      intro e he hp
      exact hany (List.any_eq_true.2 ⟨e, he, hp⟩)
    rw [hfind]
    rfl

/-- A file that can be read is found by `os.Stat`. -/
theorem World.stat_of_readFile (w : World) (p : Path) (data : String)
    (h : w.readFile p = some data) : w.stat p = true := by
  cases hs : w.stat p
  · rw [World.readFile_of_not_stat w p hs] at h
    cases h
  · rfl

/-! ## Theorems about MergeConfigurations -/

/-- C1: for every lake config (present or absent) and every bundle config, a
language whose enabled field is explicitly set in the bundle (to true or to
false) has exactly that value as its merged enabled flag, for Java, Python and
JavaScript alike, whatever the lake default is. -/
theorem merge_explicit_enabled_wins (lakeConfig : Option LakeConfig)
    (bundleConfig : BundleConfig) :
    (∀ b : Bool, bundleConfig.Config.Languages.Java.Enabled = some b →
      (MergeConfigurations lakeConfig bundleConfig).JavaConfig.Enabled = b) ∧
    (∀ b : Bool, bundleConfig.Config.Languages.Python.Enabled = some b →
      (MergeConfigurations lakeConfig bundleConfig).PythonConfig.Enabled = b) ∧
    (∀ b : Bool, bundleConfig.Config.Languages.Javascript.Enabled = some b →
      (MergeConfigurations lakeConfig bundleConfig).JavaScriptConfig.Enabled = b) := by
  refine ⟨?_, ?_, ?_⟩ <;> intro b hb
  · simp only [MergeConfigurations, overrideJava, hb]
    split <;> split <;> rfl
  · simp only [MergeConfigurations, overridePython, hb]
    split <;> rfl
  · simp only [MergeConfigurations, overrideJavaScript, hb]
    split <;> rfl

/-- Witness of C1: the lake default enables Java, the bundle sets Java to false,
and the merged Java flag is false. -/
theorem merge_explicit_enabled_wins_witness :
    acmeLake.Config.LanguageDefaults.Java.Enabled = true ∧
    overridingBundle.Config.Languages.Java.Enabled = some false ∧
    (MergeConfigurations (some acmeLake) overridingBundle).JavaConfig.Enabled = false :=
  ⟨rfl, rfl, (merge_explicit_enabled_wins (some acmeLake) overridingBundle).1 false rfl⟩

/-- C2: a language whose enabled field is unset in the bundle inherits the lake
default: with a lake config the merged flag is the lake flag of that language,
without a lake config it is false. The last conjunct is the scenario of the
spec: the lake enables Python with package `acme_proto`, the bundle does not
mention Python, and the merged Python config is enabled with that package. -/
theorem merge_unset_enabled_inherits (bundleConfig : BundleConfig) :
    (bundleConfig.Config.Languages.Java.Enabled = none →
      (∀ lc : LakeConfig, (MergeConfigurations (some lc) bundleConfig).JavaConfig.Enabled
          = lc.Config.LanguageDefaults.Java.Enabled) ∧
      (MergeConfigurations none bundleConfig).JavaConfig.Enabled = false) ∧
    (bundleConfig.Config.Languages.Python.Enabled = none →
      (∀ lc : LakeConfig, (MergeConfigurations (some lc) bundleConfig).PythonConfig.Enabled
          = lc.Config.LanguageDefaults.Python.Enabled) ∧
      (MergeConfigurations none bundleConfig).PythonConfig.Enabled = false) ∧
    (bundleConfig.Config.Languages.Javascript.Enabled = none →
      (∀ lc : LakeConfig, (MergeConfigurations (some lc) bundleConfig).JavaScriptConfig.Enabled
          = lc.Config.LanguageDefaults.Javascript.Enabled) ∧
      (MergeConfigurations none bundleConfig).JavaScriptConfig.Enabled = false) ∧
    (MergeConfigurations (some acmeLake) plainBundle).PythonConfig
      = { Enabled := true, PackageName := "acme_proto" } := by
  refine ⟨?_, ?_, ?_, rfl⟩ <;> intro hb
  · refine ⟨fun lc => ?_, ?_⟩ <;>
      simp only [MergeConfigurations, overrideJava, applyLakeDefaults, mergedInit, hb] <;>
      split <;> split <;> rfl
  · refine ⟨fun lc => ?_, ?_⟩ <;>
      simp only [MergeConfigurations, overridePython, applyLakeDefaults, mergedInit, hb] <;>
      split <;> rfl
  · refine ⟨fun lc => ?_, ?_⟩ <;>
      simp only [MergeConfigurations, overrideJavaScript, applyLakeDefaults, mergedInit, hb] <;>
      split <;> rfl

/-- Witness of C2: the bundle that sets nothing inherits the Python flag of the
lake defaults, and gets false when there is no lake config. -/
theorem merge_unset_enabled_inherits_witness :
    plainBundle.Config.Languages.Python.Enabled = none ∧
    (MergeConfigurations (some acmeLake) plainBundle).PythonConfig.Enabled = true ∧
    (MergeConfigurations none plainBundle).PythonConfig.Enabled = false :=
  ⟨rfl, ((merge_unset_enabled_inherits plainBundle).2.1 rfl).1 acmeLake,
    ((merge_unset_enabled_inherits plainBundle).2.1 rfl).2⟩

/-- C3: for the Java group id, the Python package name and the JavaScript
package name: a non-empty bundle value is the merged value (with or without a
lake config), and an empty bundle value leaves the lake default in place, so it
never erases a default that is present. -/
theorem merge_string_fields (bundleConfig : BundleConfig) :
    (bundleConfig.Config.Languages.Java.GroupId ≠ "" →
      ∀ lakeConfig : Option LakeConfig,
        (MergeConfigurations lakeConfig bundleConfig).JavaConfig.GroupId
          = bundleConfig.Config.Languages.Java.GroupId) ∧
    (bundleConfig.Config.Languages.Java.GroupId = "" →
      ∀ lc : LakeConfig,
        (MergeConfigurations (some lc) bundleConfig).JavaConfig.GroupId
          = lc.Config.LanguageDefaults.Java.GroupId) ∧
    (bundleConfig.Config.Languages.Python.PackageName ≠ "" →
      ∀ lakeConfig : Option LakeConfig,
        (MergeConfigurations lakeConfig bundleConfig).PythonConfig.PackageName
          = bundleConfig.Config.Languages.Python.PackageName) ∧
    (bundleConfig.Config.Languages.Python.PackageName = "" →
      ∀ lc : LakeConfig,
        (MergeConfigurations (some lc) bundleConfig).PythonConfig.PackageName
          = lc.Config.LanguageDefaults.Python.PackageName) ∧
    (bundleConfig.Config.Languages.Javascript.PackageName ≠ "" →
      ∀ lakeConfig : Option LakeConfig,
        (MergeConfigurations lakeConfig bundleConfig).JavaScriptConfig.PackageName
          = bundleConfig.Config.Languages.Javascript.PackageName) ∧
    (bundleConfig.Config.Languages.Javascript.PackageName = "" →
      ∀ lc : LakeConfig,
        (MergeConfigurations (some lc) bundleConfig).JavaScriptConfig.PackageName
          = lc.Config.LanguageDefaults.Javascript.PackageName) := by
  refine ⟨?_, ?_, ?_, ?_, ?_, ?_⟩ <;> intro hs lk
  · simp only [MergeConfigurations, overrideJava, bne_iff_ne, ne_eq, hs, not_false_eq_true,
      if_true]
    split <;> rfl
  · simp only [MergeConfigurations, overrideJava, applyLakeDefaults, bne_iff_ne, ne_eq, hs,
      not_true_eq_false, if_false]
    split <;> split <;> rfl
  · simp only [MergeConfigurations, overridePython, bne_iff_ne, ne_eq, hs, not_false_eq_true,
      if_true]
  · simp only [MergeConfigurations, overridePython, applyLakeDefaults, bne_iff_ne, ne_eq, hs,
      not_true_eq_false, if_false]
    split <;> rfl
  · simp only [MergeConfigurations, overrideJavaScript, bne_iff_ne, ne_eq, hs,
      not_false_eq_true, if_true]
  · simp only [MergeConfigurations, overrideJavaScript, applyLakeDefaults, bne_iff_ne, ne_eq,
      hs, not_true_eq_false, if_false]
    split <;> rfl

/-- Witness of C3: an overriding group id replaces the default, an empty one
keeps it. -/
theorem merge_string_fields_witness :
    (MergeConfigurations (some acmeLake) overridingBundle).JavaConfig.GroupId
      = "com.override.proto" ∧
    (MergeConfigurations (some acmeLake) plainBundle).JavaConfig.GroupId
      = "com.acme.proto" :=
  ⟨(merge_string_fields overridingBundle).1 (by decide) (some acmeLake),
    (merge_string_fields plainBundle).2.1 rfl acmeLake⟩

/-- C4: without a lake config the merge starts from all-false and empty: the
result is the one obtained from the lake config whose flags are all false and
whose strings are all empty; each merged enabled flag is the explicit value of
the bundle or false, and each merged string is the string of the bundle. -/
theorem merge_without_lake (bundleConfig : BundleConfig) :
    MergeConfigurations none bundleConfig = MergeConfigurations (some emptyLake) bundleConfig ∧
    (MergeConfigurations none bundleConfig).JavaConfig
      = { Enabled := bundleConfig.Config.Languages.Java.Enabled.getD false
          GroupId := bundleConfig.Config.Languages.Java.GroupId
          ArtifactId := bundleConfig.Config.Languages.Java.ArtifactId } ∧
    (MergeConfigurations none bundleConfig).PythonConfig
      = { Enabled := bundleConfig.Config.Languages.Python.Enabled.getD false
          PackageName := bundleConfig.Config.Languages.Python.PackageName } ∧
    (MergeConfigurations none bundleConfig).JavaScriptConfig
      = { Enabled := bundleConfig.Config.Languages.Javascript.Enabled.getD false
          PackageName := bundleConfig.Config.Languages.Javascript.PackageName } := by
  refine ⟨rfl, ?_, ?_, ?_⟩
  · simp only [MergeConfigurations, overrideJava, applyLakeDefaults, mergedInit, bne_iff_ne,
      ne_eq, ite_not]
    cases bundleConfig.Config.Languages.Java.Enabled <;>
      split <;> split <;> simp_all
  · simp only [MergeConfigurations, overridePython, applyLakeDefaults, mergedInit, bne_iff_ne,
      ne_eq, ite_not]
    cases bundleConfig.Config.Languages.Python.Enabled <;> split <;> simp_all
  · simp only [MergeConfigurations, overrideJavaScript, applyLakeDefaults, mergedInit,
      bne_iff_ne, ne_eq, ite_not]
    cases bundleConfig.Config.Languages.Javascript.Enabled <;> split <;> simp_all

/-- Witness of C4: the scenario bundle merged without lake defaults keeps its
own Java settings. -/
theorem merge_without_lake_witness :
    (MergeConfigurations none javaBundle).JavaConfig
      = { Enabled := true, GroupId := "com.acme.proto", ArtifactId := "user-service-proto" } :=
  (merge_without_lake javaBundle).2.1

/-! ## The shape of the list returned by generateBundleRules -/

/-- The list returned by generateBundleRules is the aggregate rule, then the
rules of each generated language, then the validation rule when the list of
test targets is not empty. -/
theorem generateBundleRules_eq (cfg : MergedConfig) (T D : List String) :
    generateBundleRules cfg T D =
      [aggregateRule cfg T]
      ++ (if javaGenerated cfg then generateJavaBundleRules cfg cfg.BundleName D else [])
      ++ (if pythonGenerated cfg then generatePythonBundleRules cfg cfg.BundleName D else [])
      ++ (if javaScriptGenerated cfg then
            generateJavaScriptBundleRules cfg cfg.BundleName D else [])
      ++ (if validationTargets cfg = [] then [] else [validationRule cfg]) := by
  rcases cfg with ⟨b, o, pp, d, v, ⟨je, jg, ja⟩, ⟨pe, pn⟩, ⟨se, sn⟩⟩
  by_cases hg : jg = "" <;> by_cases ha : ja = "" <;> by_cases hp : pn = "" <;>
    by_cases hs : sn = "" <;> cases je <;> cases pe <;> cases se <;>
    simp [generateBundleRules, javaGenerated, pythonGenerated, javaScriptGenerated,
      validationRule, validationTargets, aggregateRule, NewRule, Rule.SetAttr, hg, ha, hp, hs]

/-- The kinds of the rules of the Java generator. -/
theorem java_rule_kinds (cfg : MergedConfig) (b : String) (D : List String) :
    (generateJavaBundleRules cfg b D).map Rule.kind
      = ["java_grpc_library", "java_proto_bundle", "genrule", "alias"] := rfl

/-- The kinds of the rules of the Python generator. -/
theorem python_rule_kinds (cfg : MergedConfig) (b : String) (D : List String) :
    (generatePythonBundleRules cfg b D).map Rule.kind
      = ["python_grpc_library", "py_proto_bundle", "genrule", "alias"] := rfl

/-- The kinds of the rules of the JavaScript generator. -/
theorem javascript_rule_kinds (cfg : MergedConfig) (b : String) (D : List String) :
    (generateJavaScriptBundleRules cfg b D).map Rule.kind
      = ["js_grpc_library", "js_grpc_web_library", "js_proto_bundle", "genrule", "alias"] := rfl

/-- No rule before the validation rule has kind build_validation. -/
theorem language_part_not_validation (cfg : MergedConfig) (T D : List String) :
    ∀ r ∈ [aggregateRule cfg T]
      ++ (if javaGenerated cfg then generateJavaBundleRules cfg cfg.BundleName D else [])
      ++ (if pythonGenerated cfg then generatePythonBundleRules cfg cfg.BundleName D else [])
      ++ (if javaScriptGenerated cfg then
            generateJavaScriptBundleRules cfg cfg.BundleName D else []),
      r.kind ≠ "build_validation" := by
  intro r hr
  have hk : r.kind ∈ ["proto_library"]
      ++ (if javaGenerated cfg then
            (generateJavaBundleRules cfg cfg.BundleName D).map Rule.kind else [])
      ++ (if pythonGenerated cfg then
            (generatePythonBundleRules cfg cfg.BundleName D).map Rule.kind else [])
      ++ (if javaScriptGenerated cfg then
            (generateJavaScriptBundleRules cfg cfg.BundleName D).map Rule.kind else []) := by
    have := List.mem_map_of_mem Rule.kind hr
    simpa [List.map_append, apply_ite (List.map Rule.kind), aggregateRule] using this
  rw [java_rule_kinds, python_rule_kinds, javascript_rule_kinds] at hk
  intro hbv
  rw [hbv] at hk
  revert hk
  cases javaGenerated cfg <;> cases pythonGenerated cfg <;> cases javaScriptGenerated cfg <;>
    decide

/-- The list of test targets is empty exactly when no language is enabled. -/
theorem validationTargets_eq_nil_iff (cfg : MergedConfig) :
    validationTargets cfg = [] ↔
      cfg.JavaConfig.Enabled = false ∧ cfg.PythonConfig.Enabled = false ∧
        cfg.JavaScriptConfig.Enabled = false := by
  unfold validationTargets
  cases cfg.JavaConfig.Enabled <;> cases cfg.PythonConfig.Enabled <;>
    cases cfg.JavaScriptConfig.Enabled <;> simp

/-- C7: generateBundleRules emits a rule of kind build_validation if and only if
at least one of the three languages has merged enabled = true; a rule of that
kind has name `all` and is the last rule of the returned list; when no language
is enabled the returned list is the aggregate proto_library rule alone. -/
theorem validation_rule_iff (cfg : MergedConfig) (T D : List String) :
    ((∃ r ∈ generateBundleRules cfg T D, r.kind = "build_validation") ↔
      (cfg.JavaConfig.Enabled = true ∨ cfg.PythonConfig.Enabled = true ∨
        cfg.JavaScriptConfig.Enabled = true)) ∧
    (∀ r ∈ generateBundleRules cfg T D, r.kind = "build_validation" →
      r.name = "all" ∧ (generateBundleRules cfg T D).getLast? = some r) ∧
    (cfg.JavaConfig.Enabled = false → cfg.PythonConfig.Enabled = false →
      cfg.JavaScriptConfig.Enabled = false →
      generateBundleRules cfg T D =
        [{ kind := "proto_library", name := cfg.BundleName ++ "_all_protos"
           attrs := [("deps", .platformStrings T),
                     ("visibility", .strings ["//visibility:public"])] }]) := by
  have hpre := language_part_not_validation cfg T D
  have hnil := validationTargets_eq_nil_iff cfg
  rw [generateBundleRules_eq]
  refine ⟨?_, ?_, ?_⟩
  · constructor
    · rintro ⟨r, hr, hk⟩
      rw [List.mem_append] at hr
      rcases hr with hr | hr
      · exact absurd hk (hpre r hr)
      · by_contra hne
        have : validationTargets cfg = [] := by
          rw [hnil]; simpa using hne
        simp [this] at hr
    · intro h
      have : validationTargets cfg ≠ [] := by
        rw [Ne, hnil]; rcases h with h | h | h <;> simp [h]
      exact ⟨validationRule cfg, by simp [this], rfl⟩
  · intro r hr hk
    rw [List.mem_append] at hr
    rcases hr with hr | hr
    · exact absurd hk (hpre r hr)
    · by_cases hv : validationTargets cfg = []
      · simp [hv] at hr
      · simp only [hv, if_false, List.mem_singleton] at hr
        subst hr
        refine ⟨rfl, ?_⟩
        rw [if_neg hv]
        exact List.getLast?_concat _
  · intro hj hp hs
    have hv : validationTargets cfg = [] := hnil.2 ⟨hj, hp, hs⟩
    simp [hv, javaGenerated, pythonGenerated, javaScriptGenerated, hj, hp, hs, aggregateRule]

/-- Witness of C7: with Python alone enabled a validation rule is emitted. -/
theorem validation_rule_iff_witness :
    overridingMerged.PythonConfig.Enabled = true ∧
    ∃ r ∈ generateBundleRules overridingMerged [":user_proto"] [":user_proto"],
      r.kind = "build_validation" :=
  ⟨rfl, (validation_rule_iff overridingMerged [":user_proto"] [":user_proto"]).1.2
    (Or.inr (Or.inl rfl))⟩

/-- C6, evaluated where it fails: the lake defaults enable Java with a group id,
the bundle gives no artifact id, so no Java bundle rule is emitted, yet the
targets of the final validation rule name the label of a Java bundle rule. -/
theorem validation_targets_dangling :
    acmeMerged.JavaConfig
      = { Enabled := true, GroupId := "com.acme.proto", ArtifactId := "" } ∧
    (generateBundleRules acmeMerged [":user_proto"] [":user_proto"]).getLast?
      = some { kind := "build_validation", name := "all"
               attrs := [("targets", .strings [":user-service_java_bundle",
                 ":user-service_py_bundle", ":user-service_js_bundle"])] } ∧
    (∀ r ∈ generateBundleRules acmeMerged [":user_proto"] [":user_proto"],
      r.kind ≠ "java_proto_bundle" ∧ r.name ≠ "user-service_java_bundle") := by
  decide

/-- C9: the rule list returned by generateBundleRules does not depend on the
release version: two merged configs that differ only in their Version and
Description fields give, for the same direct targets and the same resolved
dependency list, identical rule records (same kinds, names, attributes, order). -/
theorem rules_independent_of_version (c1 c2 : MergedConfig) (T D : List String)
    (hname : c1.BundleName = c2.BundleName) (howner : c1.BundleOwner = c2.BundleOwner)
    (hpkg : c1.ProtoPackage = c2.ProtoPackage) (hjava : c1.JavaConfig = c2.JavaConfig)
    (hpython : c1.PythonConfig = c2.PythonConfig)
    (hjs : c1.JavaScriptConfig = c2.JavaScriptConfig) :
    generateBundleRules c1 T D = generateBundleRules c2 T D := by
  rcases c1 with ⟨b1, o1, p1, d1, v1, j1, y1, s1⟩
  rcases c2 with ⟨b2, o2, p2, d2, v2, j2, y2, s2⟩
  simp only at hname howner hpkg hjava hpython hjs
  subst hname howner hpkg hjava hpython hjs
  rfl

/-- Witness of C9: the scenario config and its later release differ in Version
and give the same rules. -/
theorem rules_independent_of_version_witness :
    javaOnlyMerged.Version ≠ javaOnlyMergedNext.Version ∧
    generateBundleRules javaOnlyMerged [":user_proto"] [":user_proto"]
      = generateBundleRules javaOnlyMergedNext [":user_proto"] [":user_proto"] :=
  ⟨by decide,
    rules_independent_of_version javaOnlyMerged javaOnlyMergedNext [":user_proto"]
      [":user_proto"] rfl rfl rfl rfl rfl rfl⟩

/-- Membership in the list returned by generateBundleRules, part by part. -/
theorem mem_generateBundleRules_iff (cfg : MergedConfig) (T D : List String) (r : Rule) :
    r ∈ generateBundleRules cfg T D ↔
      r = aggregateRule cfg T ∨
      (javaGenerated cfg = true ∧ r ∈ generateJavaBundleRules cfg cfg.BundleName D) ∨
      (pythonGenerated cfg = true ∧ r ∈ generatePythonBundleRules cfg cfg.BundleName D) ∨
      (javaScriptGenerated cfg = true ∧
        r ∈ generateJavaScriptBundleRules cfg cfg.BundleName D) ∨
      (validationTargets cfg ≠ [] ∧ r = validationRule cfg) := by
  rw [generateBundleRules_eq]
  cases javaGenerated cfg <;> cases pythonGenerated cfg <;> cases javaScriptGenerated cfg <;>
    by_cases hv : validationTargets cfg = [] <;> simp [hv, or_assoc]

/-- C8: no bundle rule emitted by generateBundleRules (kind java_proto_bundle,
py_proto_bundle or js_proto_bundle) has an attribute named version; the
attributes of such a rule are exactly its dependency edges, its static
identifiers (group_id and artifact_id, or package_name) and visibility. -/
theorem bundle_rules_static_only (cfg : MergedConfig) (T D : List String) (r : Rule)
    (hr : r ∈ generateBundleRules cfg T D) :
    (r.kind = "java_proto_bundle" →
      r.AttrKeys = ["proto_deps", "java_deps", "java_grpc_deps", "group_id", "artifact_id",
        "visibility"]) ∧
    (r.kind = "py_proto_bundle" →
      r.AttrKeys = ["proto_deps", "py_deps", "py_grpc_deps", "package_name", "visibility"]) ∧
    (r.kind = "js_proto_bundle" →
      r.AttrKeys = ["proto_deps", "js_deps", "js_grpc_web_deps", "package_name",
        "visibility"]) ∧
    (r.kind ∈ ["java_proto_bundle", "py_proto_bundle", "js_proto_bundle"] →
      "version" ∉ r.AttrKeys ∧ r.Attr "version" = none) := by
  rw [mem_generateBundleRules_iff] at hr
  rcases hr with rfl | ⟨-, hr⟩ | ⟨-, hr⟩ | ⟨-, hr⟩ | ⟨-, rfl⟩
  · simp [aggregateRule]
  · simp only [generateJavaBundleRules, NewRule, Rule.SetAttr] at hr
    simp at hr
    rcases hr with rfl | rfl | rfl | rfl <;> simp [Rule.AttrKeys, Rule.Attr]
  · simp only [generatePythonBundleRules, NewRule, Rule.SetAttr] at hr
    simp at hr
    rcases hr with rfl | rfl | rfl | rfl <;> simp [Rule.AttrKeys, Rule.Attr]
  · simp only [generateJavaScriptBundleRules, NewRule, Rule.SetAttr] at hr
    simp at hr
    rcases hr with rfl | rfl | rfl | rfl | rfl <;> simp [Rule.AttrKeys, Rule.Attr]
  · simp [validationRule]

/-- Witness of C8: the Java bundle rule of the scenario is emitted and has no
version attribute. -/
theorem bundle_rules_static_only_witness :
    scenarioJavaBundleRule ∈ generateBundleRules javaOnlyMerged [":user_proto"] [":user_proto"]
    ∧ "version" ∉ scenarioJavaBundleRule.AttrKeys
    ∧ scenarioJavaBundleRule.Attr "version" = none :=
  ⟨by decide,
    (bundle_rules_static_only javaOnlyMerged [":user_proto"] [":user_proto"]
      scenarioJavaBundleRule (by decide)).2.2.2 (by decide)⟩

/-- A string that is written as prefix, `sub`, suffix contains `sub`. -/
theorem contains_of_eq {s sub : String} (pre post : String) (h : s = pre ++ sub ++ post) :
    Contains s sub := by
  refine ⟨pre.data, post.data, ?_⟩
  rw [h, String.data_append, String.data_append]

/-- The command text of the Maven publish rule has the required parts. -/
theorem java_cmd_ok (cfg : MergedConfig) (b : String) :
    JavaCmdOk cfg ("$(location //tools:maven_publisher) " ++
      "--jar $(location :" ++ b ++ "_java_bundle) " ++
      "--group-id " ++ cfg.JavaConfig.GroupId ++ " " ++
      "--artifact-id " ++ cfg.JavaConfig.ArtifactId ++ " " ++
      "--version \"$\x7bVERSION:-1.0.0\x7d\" " ++
      "--repo \"$\x7bMAVEN_REPO:-file://~/.m2/repository\x7d\" " ++
      "> $@") := by
  have hv : "--version \"$\x7bVERSION:-1.0.0\x7d\" "
      = "--version \"" ++ "$\x7bVERSION:-1.0.0\x7d" ++ "\" " := by decide
  have hm : "--repo \"$\x7bMAVEN_REPO:-file://~/.m2/repository\x7d\" "
      = "--repo \"" ++ "$\x7bMAVEN_REPO:-file://~/.m2/repository\x7d" ++ "\" " := by decide
  refine ⟨?_, ?_, ?_, ?_⟩
  · exact contains_of_eq
      ("$(location //tools:maven_publisher) " ++ "--jar $(location :" ++ b ++ "_java_bundle) ")
      (" " ++ "--artifact-id " ++ cfg.JavaConfig.ArtifactId ++ " " ++
        "--version \"$\x7bVERSION:-1.0.0\x7d\" " ++
        "--repo \"$\x7bMAVEN_REPO:-file://~/.m2/repository\x7d\" " ++ "> $@")
      (by simp only [String.append_assoc])
  · exact contains_of_eq
      ("$(location //tools:maven_publisher) " ++ "--jar $(location :" ++ b ++ "_java_bundle) "
        ++ "--group-id " ++ cfg.JavaConfig.GroupId ++ " ")
      (" " ++ "--version \"$\x7bVERSION:-1.0.0\x7d\" " ++
        "--repo \"$\x7bMAVEN_REPO:-file://~/.m2/repository\x7d\" " ++ "> $@")
      (by simp only [String.append_assoc])
  · exact contains_of_eq
      ("$(location //tools:maven_publisher) " ++ "--jar $(location :" ++ b ++ "_java_bundle) "
        ++ "--group-id " ++ cfg.JavaConfig.GroupId ++ " "
        ++ "--artifact-id " ++ cfg.JavaConfig.ArtifactId ++ " " ++ "--version \"")
      ("\" " ++ "--repo \"$\x7bMAVEN_REPO:-file://~/.m2/repository\x7d\" " ++ "> $@")
      (by rw [hv]; simp only [String.append_assoc])
  · exact contains_of_eq
      ("$(location //tools:maven_publisher) " ++ "--jar $(location :" ++ b ++ "_java_bundle) "
        ++ "--group-id " ++ cfg.JavaConfig.GroupId ++ " "
        ++ "--artifact-id " ++ cfg.JavaConfig.ArtifactId ++ " "
        ++ "--version \"$\x7bVERSION:-1.0.0\x7d\" " ++ "--repo \"")
      ("\" " ++ "> $@")
      (by rw [hm]; simp only [String.append_assoc])

/-- The command text of the PyPI publish rule has the required parts. -/
theorem python_cmd_ok (cfg : MergedConfig) (b : String) :
    PythonCmdOk cfg ("$(location //tools:pypi_publisher) " ++
      "--wheel $(location :" ++ b ++ "_py_bundle) " ++
      "--package-name " ++ cfg.PythonConfig.PackageName ++ " " ++
      "--version \"$\x7bVERSION:-1.0.0\x7d\" " ++
      "--repo \"$\x7bPYPI_REPO:-file://~/.pypi\x7d\" " ++
      "> $@") := by
  have hv : "--version \"$\x7bVERSION:-1.0.0\x7d\" "
      = "--version \"" ++ "$\x7bVERSION:-1.0.0\x7d" ++ "\" " := by decide
  have hm : "--repo \"$\x7bPYPI_REPO:-file://~/.pypi\x7d\" "
      = "--repo \"" ++ "$\x7bPYPI_REPO:-file://~/.pypi\x7d" ++ "\" " := by decide
  refine ⟨?_, ?_, ?_⟩
  · exact contains_of_eq
      ("$(location //tools:pypi_publisher) " ++ "--wheel $(location :" ++ b ++ "_py_bundle) ")
      (" " ++ "--version \"$\x7bVERSION:-1.0.0\x7d\" " ++
        "--repo \"$\x7bPYPI_REPO:-file://~/.pypi\x7d\" " ++ "> $@")
      (by simp only [String.append_assoc])
  · exact contains_of_eq
      ("$(location //tools:pypi_publisher) " ++ "--wheel $(location :" ++ b ++ "_py_bundle) "
        ++ "--package-name " ++ cfg.PythonConfig.PackageName ++ " " ++ "--version \"")
      ("\" " ++ "--repo \"$\x7bPYPI_REPO:-file://~/.pypi\x7d\" " ++ "> $@")
      (by rw [hv]; simp only [String.append_assoc])
  · exact contains_of_eq
      ("$(location //tools:pypi_publisher) " ++ "--wheel $(location :" ++ b ++ "_py_bundle) "
        ++ "--package-name " ++ cfg.PythonConfig.PackageName ++ " "
        ++ "--version \"$\x7bVERSION:-1.0.0\x7d\" " ++ "--repo \"")
      ("\" " ++ "> $@")
      (by rw [hm]; simp only [String.append_assoc])

/-- The command text of the npm publish rule has the required parts. -/
theorem javascript_cmd_ok (cfg : MergedConfig) (b : String) :
    JavaScriptCmdOk cfg ("$(location //tools:npm_publisher) " ++
      "--package $(location :" ++ b ++ "_js_bundle) " ++
      "--package-name " ++ cfg.JavaScriptConfig.PackageName ++ " " ++
      "--version \"$\x7bVERSION:-1.0.0\x7d\" " ++
      "--registry \"$\x7bNPM_REGISTRY:-file://~/.npm\x7d\" " ++
      "> $@") := by
  have hv : "--version \"$\x7bVERSION:-1.0.0\x7d\" "
      = "--version \"" ++ "$\x7bVERSION:-1.0.0\x7d" ++ "\" " := by decide
  have hm : "--registry \"$\x7bNPM_REGISTRY:-file://~/.npm\x7d\" "
      = "--registry \"" ++ "$\x7bNPM_REGISTRY:-file://~/.npm\x7d" ++ "\" " := by decide
  refine ⟨?_, ?_, ?_⟩
  · exact contains_of_eq
      ("$(location //tools:npm_publisher) " ++ "--package $(location :" ++ b ++ "_js_bundle) ")
      (" " ++ "--version \"$\x7bVERSION:-1.0.0\x7d\" " ++
        "--registry \"$\x7bNPM_REGISTRY:-file://~/.npm\x7d\" " ++ "> $@")
      (by simp only [String.append_assoc])
  · exact contains_of_eq
      ("$(location //tools:npm_publisher) " ++ "--package $(location :" ++ b ++ "_js_bundle) "
        ++ "--package-name " ++ cfg.JavaScriptConfig.PackageName ++ " " ++ "--version \"")
      ("\" " ++ "--registry \"$\x7bNPM_REGISTRY:-file://~/.npm\x7d\" " ++ "> $@")
      (by rw [hv]; simp only [String.append_assoc])
  · exact contains_of_eq
      ("$(location //tools:npm_publisher) " ++ "--package $(location :" ++ b ++ "_js_bundle) "
        ++ "--package-name " ++ cfg.JavaScriptConfig.PackageName ++ " "
        ++ "--version \"$\x7bVERSION:-1.0.0\x7d\" " ++ "--registry \"")
      ("\" " ++ "> $@")
      (by rw [hm]; simp only [String.append_assoc])

/-- C10: for every bundle name and every non-empty identity of an enabled
language a publish genrule is emitted whose cmd attribute contains the static
identifiers verbatim and defers version and destination to the environment with
literal fallbacks (Java: group id, artifact id, VERSION and MAVEN_REPO
placeholders; Python: package name, VERSION and PYPI_REPO; JavaScript: package
name, VERSION and NPM_REGISTRY); and every emitted genrule is one of these three
publish rules, with the command parts of its language. -/
theorem publish_commands (cfg : MergedConfig) (T D : List String) :
    (cfg.JavaConfig.Enabled = true → cfg.JavaConfig.GroupId ≠ "" →
      cfg.JavaConfig.ArtifactId ≠ "" →
      ∃ r ∈ generateBundleRules cfg T D,
        r.kind = "genrule" ∧ r.name = "publish_" ++ cfg.BundleName ++ "_to_maven" ∧
        ∃ cmd, r.Attr "cmd" = some (.str cmd) ∧ JavaCmdOk cfg cmd) ∧
    (cfg.PythonConfig.Enabled = true → cfg.PythonConfig.PackageName ≠ "" →
      ∃ r ∈ generateBundleRules cfg T D,
        r.kind = "genrule" ∧ r.name = "publish_" ++ cfg.BundleName ++ "_to_pypi" ∧
        ∃ cmd, r.Attr "cmd" = some (.str cmd) ∧ PythonCmdOk cfg cmd) ∧
    (cfg.JavaScriptConfig.Enabled = true → cfg.JavaScriptConfig.PackageName ≠ "" →
      ∃ r ∈ generateBundleRules cfg T D,
        r.kind = "genrule" ∧ r.name = "publish_" ++ cfg.BundleName ++ "_to_npm" ∧
        ∃ cmd, r.Attr "cmd" = some (.str cmd) ∧ JavaScriptCmdOk cfg cmd) ∧
    (∀ r ∈ generateBundleRules cfg T D, r.kind = "genrule" →
      ∃ cmd, r.Attr "cmd" = some (.str cmd) ∧
        ((r.name = "publish_" ++ cfg.BundleName ++ "_to_maven" ∧ JavaCmdOk cfg cmd) ∨
         (r.name = "publish_" ++ cfg.BundleName ++ "_to_pypi" ∧ PythonCmdOk cfg cmd) ∨
         (r.name = "publish_" ++ cfg.BundleName ++ "_to_npm" ∧ JavaScriptCmdOk cfg cmd))) := by
  refine ⟨?_, ?_, ?_, ?_⟩
  · intro he hg ha
    refine ⟨(generateJavaBundleRules cfg cfg.BundleName D).get ⟨2, by show (2 : Nat) < 4; decide⟩, ?_, rfl, rfl,
      _, rfl, java_cmd_ok cfg cfg.BundleName⟩
    rw [mem_generateBundleRules_iff]
    refine Or.inr (Or.inl ⟨by simp [javaGenerated, he, hg, ha], List.get_mem _ _ _⟩)
  · intro he hp
    refine ⟨(generatePythonBundleRules cfg cfg.BundleName D).get ⟨2, by show (2 : Nat) < 4; decide⟩, ?_, rfl, rfl,
      _, rfl, python_cmd_ok cfg cfg.BundleName⟩
    rw [mem_generateBundleRules_iff]
    refine Or.inr (Or.inr (Or.inl ⟨by simp [pythonGenerated, he, hp], List.get_mem _ _ _⟩))
  · intro he hp
    refine ⟨(generateJavaScriptBundleRules cfg cfg.BundleName D).get ⟨3, by show (3 : Nat) < 5; decide⟩, ?_, rfl,
      rfl, _, rfl, javascript_cmd_ok cfg cfg.BundleName⟩
    rw [mem_generateBundleRules_iff]
    refine Or.inr (Or.inr (Or.inr (Or.inl
      ⟨by simp [javaScriptGenerated, he, hp], List.get_mem _ _ _⟩)))
  · intro r hr hk
    rw [mem_generateBundleRules_iff] at hr
    rcases hr with rfl | ⟨-, hr⟩ | ⟨-, hr⟩ | ⟨-, hr⟩ | ⟨-, rfl⟩
    · simp [aggregateRule, validationRule] at hk
    · simp only [generateJavaBundleRules, NewRule, Rule.SetAttr] at hr
      simp at hr
      rcases hr with rfl | rfl | rfl | rfl
      · simp [aggregateRule, validationRule] at hk
      · simp [aggregateRule, validationRule] at hk
      · exact ⟨_, rfl, Or.inl ⟨rfl, java_cmd_ok cfg cfg.BundleName⟩⟩
      · simp [aggregateRule, validationRule] at hk
    · simp only [generatePythonBundleRules, NewRule, Rule.SetAttr] at hr
      simp at hr
      rcases hr with rfl | rfl | rfl | rfl
      · simp [aggregateRule, validationRule] at hk
      · simp [aggregateRule, validationRule] at hk
      · exact ⟨_, rfl, Or.inr (Or.inl ⟨rfl, python_cmd_ok cfg cfg.BundleName⟩)⟩
      · simp [aggregateRule, validationRule] at hk
    · simp only [generateJavaScriptBundleRules, NewRule, Rule.SetAttr] at hr
      simp at hr
      rcases hr with rfl | rfl | rfl | rfl | rfl
      · simp [aggregateRule, validationRule] at hk
      · simp [aggregateRule, validationRule] at hk
      · simp [aggregateRule, validationRule] at hk
      · exact ⟨_, rfl, Or.inr (Or.inr ⟨rfl, javascript_cmd_ok cfg cfg.BundleName⟩)⟩
      · simp [aggregateRule, validationRule] at hk
    · simp [aggregateRule, validationRule] at hk

/-- Witness of C10: the scenario config has a Maven publish rule with the
required command parts. -/
theorem publish_commands_witness :
    ∃ r ∈ generateBundleRules javaOnlyMerged [":user_proto"] [":user_proto"],
      r.kind = "genrule" ∧ r.name = "publish_" ++ "user-service" ++ "_to_maven" ∧
      ∃ cmd, r.Attr "cmd" = some (.str cmd) ∧ JavaCmdOk javaOnlyMerged cmd :=
  (publish_commands javaOnlyMerged [":user_proto"] [":user_proto"]).1 rfl (by decide)
    (by decide)

/-! ## Languages that are enabled but not identified -/

/-- Two publish names with different endings are different. -/
theorem publish_name_ne (b s t : String) (h : s ≠ t) :
    "publish_" ++ b ++ s ≠ "publish_" ++ b ++ t := by
  intro heq
  apply h
  have hd := congrArg String.data heq
  simp only [String.data_append, List.append_cancel_left_eq] at hd
  exact String.ext hd

/-- Every rule of the Java generator is a Java rule and of no other language. -/
theorem java_rules_classified (cfg : MergedConfig) (b : String) (D : List String) :
    ∀ r ∈ generateJavaBundleRules cfg b D,
      isJavaRule b r = true ∧ isPythonRule b r = false ∧ isJavaScriptRule b r = false := by
  intro r hr
  have h1 := publish_name_ne b "_to_maven" "_to_pypi" (by decide)
  have h2 := publish_name_ne b "_to_maven" "_to_npm" (by decide)
  simp only [generateJavaBundleRules, NewRule, Rule.SetAttr] at hr
  simp at hr
  rcases hr with rfl | rfl | rfl | rfl <;>
    simp [isJavaRule, isPythonRule, isJavaScriptRule, h1, h2]

/-- Every rule of the Python generator is a Python rule and of no other language. -/
theorem python_rules_classified (cfg : MergedConfig) (b : String) (D : List String) :
    ∀ r ∈ generatePythonBundleRules cfg b D,
      isJavaRule b r = false ∧ isPythonRule b r = true ∧ isJavaScriptRule b r = false := by
  intro r hr
  have h1 := publish_name_ne b "_to_pypi" "_to_maven" (by decide)
  have h2 := publish_name_ne b "_to_pypi" "_to_npm" (by decide)
  simp only [generatePythonBundleRules, NewRule, Rule.SetAttr] at hr
  simp at hr
  rcases hr with rfl | rfl | rfl | rfl <;>
    simp [isJavaRule, isPythonRule, isJavaScriptRule, h1, h2]

/-- Every rule of the JavaScript generator is a JavaScript rule and of no other
language. -/
theorem javascript_rules_classified (cfg : MergedConfig) (b : String) (D : List String) :
    ∀ r ∈ generateJavaScriptBundleRules cfg b D,
      isJavaRule b r = false ∧ isPythonRule b r = false ∧ isJavaScriptRule b r = true := by
  intro r hr
  have h1 := publish_name_ne b "_to_npm" "_to_maven" (by decide)
  have h2 := publish_name_ne b "_to_npm" "_to_pypi" (by decide)
  simp only [generateJavaScriptBundleRules, NewRule, Rule.SetAttr] at hr
  simp at hr
  rcases hr with rfl | rfl | rfl | rfl | rfl <;>
    simp [isJavaRule, isPythonRule, isJavaScriptRule, h1, h2]

/-- The aggregate rule and the validation rule belong to no language. -/
theorem aggregate_validation_classified (cfg : MergedConfig) (T : List String) (b : String) :
    (isJavaRule b (aggregateRule cfg T) = false ∧ isPythonRule b (aggregateRule cfg T) = false
      ∧ isJavaScriptRule b (aggregateRule cfg T) = false) ∧
    (isJavaRule b (validationRule cfg) = false ∧ isPythonRule b (validationRule cfg) = false
      ∧ isJavaScriptRule b (validationRule cfg) = false) := by
  simp [isJavaRule, isPythonRule, isJavaScriptRule, aggregateRule, validationRule]

/-- A filter that rejects the validation rule empties the validation part. -/
theorem filter_validation_part (cfg : MergedConfig) (f : Rule → Bool)
    (hf : f (validationRule cfg) = false) :
    (if validationTargets cfg = [] then [] else [validationRule cfg]).filter f = [] := by
  split <;> simp [hf]

/-- C5: when a language has enabled = true but an empty required identity field
(Java: group id or artifact id; Python: package name; JavaScript: package name),
generateBundleRules emits no stub, bundle, publish or alias rule of that
language, and the rules of the other two languages in its result are exactly
those in the result for the same config with that language disabled. -/
theorem enabled_without_identity_skipped (cfg : MergedConfig) (T D : List String) :
    (cfg.JavaConfig.Enabled = true →
      (cfg.JavaConfig.GroupId = "" ∨ cfg.JavaConfig.ArtifactId = "") →
      (∀ r ∈ generateBundleRules cfg T D, isJavaRule cfg.BundleName r = false) ∧
      (generateBundleRules cfg T D).filter
          (fun r => isPythonRule cfg.BundleName r || isJavaScriptRule cfg.BundleName r)
        = (generateBundleRules (disableJava cfg) T D).filter
          (fun r => isPythonRule cfg.BundleName r || isJavaScriptRule cfg.BundleName r)) ∧
    (cfg.PythonConfig.Enabled = true → cfg.PythonConfig.PackageName = "" →
      (∀ r ∈ generateBundleRules cfg T D, isPythonRule cfg.BundleName r = false) ∧
      (generateBundleRules cfg T D).filter
          (fun r => isJavaRule cfg.BundleName r || isJavaScriptRule cfg.BundleName r)
        = (generateBundleRules (disablePython cfg) T D).filter
          (fun r => isJavaRule cfg.BundleName r || isJavaScriptRule cfg.BundleName r)) ∧
    (cfg.JavaScriptConfig.Enabled = true → cfg.JavaScriptConfig.PackageName = "" →
      (∀ r ∈ generateBundleRules cfg T D, isJavaScriptRule cfg.BundleName r = false) ∧
      (generateBundleRules cfg T D).filter
          (fun r => isJavaRule cfg.BundleName r || isPythonRule cfg.BundleName r)
        = (generateBundleRules (disableJavaScript cfg) T D).filter
          (fun r => isJavaRule cfg.BundleName r || isPythonRule cfg.BundleName r)) := by
  have hav := aggregate_validation_classified cfg T cfg.BundleName
  refine ⟨?_, ?_, ?_⟩
  · intro he hid
    have hgen : javaGenerated cfg = false := by
      rcases hid with h | h <;> simp [javaGenerated, h]
    refine ⟨?_, ?_⟩
    · intro r hr
      rw [mem_generateBundleRules_iff] at hr
      rcases hr with rfl | ⟨hj, -⟩ | ⟨-, hr⟩ | ⟨-, hr⟩ | ⟨-, rfl⟩
      · exact hav.1.1
      · rw [hgen] at hj; cases hj
      · exact (python_rules_classified cfg _ D r hr).1
      · exact (javascript_rules_classified cfg _ D r hr).1
      · exact hav.2.1
    · have hgen2 : javaGenerated (disableJava cfg) = false := rfl
      have hv2 := aggregate_validation_classified (disableJava cfg) T cfg.BundleName
      rw [generateBundleRules_eq, generateBundleRules_eq, List.filter_append,
        List.filter_append _ (if validationTargets (disableJava cfg) = [] then [] else _),
        filter_validation_part cfg _ (by simp [hav.2.2.1, hav.2.2.2]),
        filter_validation_part (disableJava cfg) _ (by simp [hv2.2.2.1, hv2.2.2.2]),
        hgen, hgen2]
      rfl
  · intro he hid
    have hgen : pythonGenerated cfg = false := by simp [pythonGenerated, hid]
    refine ⟨?_, ?_⟩
    · intro r hr
      rw [mem_generateBundleRules_iff] at hr
      rcases hr with rfl | ⟨-, hr⟩ | ⟨hj, -⟩ | ⟨-, hr⟩ | ⟨-, rfl⟩
      · exact hav.1.2.1
      · exact (java_rules_classified cfg _ D r hr).2.1
      · rw [hgen] at hj; cases hj
      · exact (javascript_rules_classified cfg _ D r hr).2.1
      · exact hav.2.2.1
    · have hgen2 : pythonGenerated (disablePython cfg) = false := rfl
      have hv2 := aggregate_validation_classified (disablePython cfg) T cfg.BundleName
      rw [generateBundleRules_eq, generateBundleRules_eq, List.filter_append,
        List.filter_append _ (if validationTargets (disablePython cfg) = [] then [] else _),
        filter_validation_part cfg _ (by simp [hav.2.1, hav.2.2.2]),
        filter_validation_part (disablePython cfg) _ (by simp [hv2.2.1, hv2.2.2.2]),
        hgen, hgen2]
      rfl
  · intro he hid
    have hgen : javaScriptGenerated cfg = false := by simp [javaScriptGenerated, hid]
    refine ⟨?_, ?_⟩
    · intro r hr
      rw [mem_generateBundleRules_iff] at hr
      rcases hr with rfl | ⟨-, hr⟩ | ⟨-, hr⟩ | ⟨hj, -⟩ | ⟨-, rfl⟩
      · exact hav.1.2.2
      · exact (java_rules_classified cfg _ D r hr).2.2
      · exact (python_rules_classified cfg _ D r hr).2.2
      · rw [hgen] at hj; cases hj
      · exact hav.2.2.2
    · have hgen2 : javaScriptGenerated (disableJavaScript cfg) = false := rfl
      have hv2 := aggregate_validation_classified (disableJavaScript cfg) T cfg.BundleName
      rw [generateBundleRules_eq, generateBundleRules_eq, List.filter_append,
        List.filter_append _
          (if validationTargets (disableJavaScript cfg) = [] then [] else _),
        filter_validation_part cfg _ (by simp [hav.2.1, hav.2.2.1]),
        filter_validation_part (disableJavaScript cfg) _ (by simp [hv2.2.1, hv2.2.2.1]),
        hgen, hgen2]
      rfl

/-- Witness of C5: Java is enabled without an artifact id; no Java rule is
emitted and the nine rules of Python and JavaScript are. -/
theorem enabled_without_identity_skipped_witness :
    acmeMerged.JavaConfig.Enabled = true ∧ acmeMerged.JavaConfig.ArtifactId = "" ∧
    (∀ r ∈ generateBundleRules acmeMerged [":user_proto"] [":user_proto"],
      isJavaRule "user-service" r = false) ∧
    ((generateBundleRules acmeMerged [":user_proto"] [":user_proto"]).filter
        (fun r => isPythonRule "user-service" r || isJavaScriptRule "user-service" r)).length
      = 9 :=
  ⟨rfl, rfl,
    ((enabled_without_identity_skipped acmeMerged [":user_proto"] [":user_proto"]).1 rfl
      (Or.inr rfl)).1,
    by decide⟩

/-! ## The end-to-end Java scenario -/

/-- C11: for every bundle name N, non-empty group G and artifact A, with Java
enabled, Python and JavaScript disabled, direct targets T and a dependency list
equal to T, generateBundleRules returns exactly six rules in this order: the
aggregate proto_library N_all_protos with deps T, java_grpc_library N_java_grpc
with protos T, java_proto_bundle N_java_bundle with group_id G, artifact_id A
and no version attribute, genrule publish_N_to_maven, alias publish_to_maven,
and build_validation all with targets `:N_java_bundle`. -/
theorem java_scenario_rules (cfg : MergedConfig) (T : List String)
    (hjava : cfg.JavaConfig.Enabled = true) (hgroup : cfg.JavaConfig.GroupId ≠ "")
    (hartifact : cfg.JavaConfig.ArtifactId ≠ "") (hpython : cfg.PythonConfig.Enabled = false)
    (hjs : cfg.JavaScriptConfig.Enabled = false) :
    generateBundleRules cfg T T =
      [ { kind := "proto_library", name := cfg.BundleName ++ "_all_protos"
          attrs := [("deps", .platformStrings T),
                    ("visibility", .strings ["//visibility:public"])] },
        { kind := "java_grpc_library", name := cfg.BundleName ++ "_java_grpc"
          attrs := [("protos", .platformStrings T),
                    ("visibility", .strings ["//visibility:public"])] },
        { kind := "java_proto_bundle", name := cfg.BundleName ++ "_java_bundle"
          attrs := [("proto_deps", .platformStrings [":" ++ cfg.BundleName ++ "_all_protos"]),
                    ("java_deps", .platformStrings [":" ++ cfg.BundleName ++ "_java_grpc"]),
                    ("java_grpc_deps",
                      .platformStrings [":" ++ cfg.BundleName ++ "_java_grpc"]),
                    ("group_id", .str cfg.JavaConfig.GroupId),
                    ("artifact_id", .str cfg.JavaConfig.ArtifactId),
                    ("visibility", .strings ["//visibility:public"])] },
        { kind := "genrule", name := "publish_" ++ cfg.BundleName ++ "_to_maven"
          attrs := [("srcs", .platformStrings [":" ++ cfg.BundleName ++ "_java_bundle"]),
                    ("outs", .platformStrings ["publish_maven.log"]),
                    ("cmd", .str ("$(location //tools:maven_publisher) " ++
                      "--jar $(location :" ++ cfg.BundleName ++ "_java_bundle) " ++
                      "--group-id " ++ cfg.JavaConfig.GroupId ++ " " ++
                      "--artifact-id " ++ cfg.JavaConfig.ArtifactId ++ " " ++
                      "--version \"$\x7bVERSION:-1.0.0\x7d\" " ++
                      "--repo \"$\x7bMAVEN_REPO:-file://~/.m2/repository\x7d\" " ++
                      "> $@")),
                    ("tools", .platformStrings ["//tools:maven_publisher"])] },
        { kind := "alias", name := "publish_to_maven"
          attrs := [("actual", .str (":publish_" ++ cfg.BundleName ++ "_to_maven")),
                    ("visibility", .strings ["//visibility:public"])] },
        { kind := "build_validation", name := "all"
          attrs := [("targets", .strings [":" ++ cfg.BundleName ++ "_java_bundle"])] } ] := by
  rw [generateBundleRules_eq]
  have h1 : javaGenerated cfg = true := by simp [javaGenerated, hjava, hgroup, hartifact]
  have h2 : pythonGenerated cfg = false := by simp [pythonGenerated, hpython]
  have h3 : javaScriptGenerated cfg = false := by simp [javaScriptGenerated, hjs]
  have h4 : validationTargets cfg = [":" ++ cfg.BundleName ++ "_java_bundle"] := by
    simp [validationTargets, hjava, hpython, hjs]
  simp only [h1, h2, h3, h4, validationRule]
  rfl

/-- Witness of C11: the scenario of the spec, N = user-service, G =
com.acme.proto, A = user-service-proto, T = `:user_proto`. -/
theorem java_scenario_rules_witness :
    (generateBundleRules javaOnlyMerged [":user_proto"] [":user_proto"]).map
        (fun r => (r.kind, r.name))
      = [("proto_library", "user-service_all_protos"),
         ("java_grpc_library", "user-service_java_grpc"),
         ("java_proto_bundle", "user-service_java_bundle"),
         ("genrule", "publish_user-service_to_maven"),
         ("alias", "publish_to_maven"),
         ("build_validation", "all")] ∧
    (generateBundleRules javaOnlyMerged [":user_proto"] [":user_proto"]).getLast?
      = some { kind := "build_validation", name := "all"
               attrs := [("targets", .strings [":user-service_java_bundle"])] } := by
  rw [java_scenario_rules javaOnlyMerged [":user_proto"] rfl (by decide) (by decide) rfl rfl]
  exact ⟨rfl, rfl⟩

/-! ## Dependency collection -/

set_option maxRecDepth 100000

/-- Membership after `allDeps[target] = true`. -/
theorem mem_addTarget (allDeps : List String) (target t : String) :
    t ∈ addTarget allDeps target ↔ t ∈ allDeps ∨ t = target := by
  unfold addTarget
  by_cases h : allDeps.contains target = true
  · rw [if_pos h]
    constructor
    · exact Or.inl
    · rintro (h1 | h1)
      · exact h1
      · subst h1; simpa using h
  · rw [if_neg h]; simp

/-- The key set stays free of duplicates. -/
theorem nodup_addTarget (allDeps : List String) (target : String) (h : allDeps.Nodup) :
    (addTarget allDeps target).Nodup := by
  unfold addTarget
  by_cases hc : allDeps.contains target = true
  · rw [if_pos hc]; exact h
  · rw [if_neg hc]
    have hn : target ∉ allDeps := by simpa using hc
    exact List.Nodup.append h (List.nodup_singleton _) (by simpa using hn)

/-- Membership after the direct targets have been added. -/
theorem mem_foldl_addTarget (T : List String) (acc : List String) (t : String) :
    t ∈ T.foldl addTarget acc ↔ t ∈ acc ∨ t ∈ T := by
  induction T generalizing acc with
  | nil => simp
  | cons x xs ih =>
    rw [List.foldl_cons, ih, mem_addTarget]
    simp only [List.mem_cons]
    tauto

/-- Adding the direct targets keeps the key set free of duplicates. -/
theorem nodup_foldl_addTarget (T : List String) (acc : List String) (h : acc.Nodup) :
    (T.foldl addTarget acc).Nodup := by
  induction T generalizing acc with
  | nil => exact h
  | cons x xs ih => exact ih _ (nodup_addTarget acc x h)

/-- Membership after the loop over the import paths of one file. -/
theorem mem_collectImportPaths (index : List (String × String)) (paths : List String)
    (allDeps : List String) (t : String) :
    t ∈ collectImportPaths index paths allDeps ↔
      t ∈ allDeps ∨
      ∃ p ∈ paths, startsWith p "google/" = false ∧ index.lookup p = some t := by
  induction paths generalizing allDeps with
  | nil => simp [collectImportPaths]
  | cons p ps ih =>
    unfold collectImportPaths
    by_cases hg : startsWith p "google/" = true
    · rw [if_pos hg, ih]
      constructor
      · rintro (h | ⟨q, hq, h1, h2⟩)
        · exact Or.inl h
        · exact Or.inr ⟨q, List.mem_cons_of_mem _ hq, h1, h2⟩
      · rintro (h | ⟨q, hq, h1, h2⟩)
        · exact Or.inl h
        · rcases List.mem_cons.1 hq with rfl | hq
          · rw [hg] at h1; cases h1
          · exact Or.inr ⟨q, hq, h1, h2⟩
    · rw [if_neg hg]
      have hg' : startsWith p "google/" = false := by simpa using hg
      cases hl : index.lookup p with
      | none =>
        simp only
        rw [ih]
        constructor
        · rintro (h | ⟨q, hq, h1, h2⟩)
          · exact Or.inl h
          · exact Or.inr ⟨q, List.mem_cons_of_mem _ hq, h1, h2⟩
        · rintro (h | ⟨q, hq, h1, h2⟩)
          · exact Or.inl h
          · rcases List.mem_cons.1 hq with rfl | hq
            · rw [hl] at h2; cases h2
            · exact Or.inr ⟨q, hq, h1, h2⟩
      | some target =>
        simp only
        rw [ih, mem_addTarget]
        constructor
        · rintro ((h | h) | ⟨q, hq, h1, h2⟩)
          · exact Or.inl h
          · exact Or.inr ⟨p, List.mem_cons_self _ _, hg', by rw [hl, h]⟩
          · exact Or.inr ⟨q, List.mem_cons_of_mem _ hq, h1, h2⟩
        · rintro (h | ⟨q, hq, h1, h2⟩)
          · exact Or.inl (Or.inl h)
          · rcases List.mem_cons.1 hq with rfl | hq
            · rw [hl] at h2
              exact Or.inl (Or.inr (Option.some.inj h2).symm)
            · exact Or.inr ⟨q, hq, h1, h2⟩

/-- The loop over the import paths keeps the key set free of duplicates. -/
theorem nodup_collectImportPaths (index : List (String × String)) (paths : List String)
    (allDeps : List String) (h : allDeps.Nodup) :
    (collectImportPaths index paths allDeps).Nodup := by
  induction paths generalizing allDeps with
  | nil => simpa [collectImportPaths] using h
  | cons p ps ih =>
    unfold collectImportPaths
    split
    · exact ih _ h
    · split
      · exact ih _ (nodup_addTarget _ _ h)
      · exact ih _ h

/-- Membership after one call of collectImportsFromProtoFile. -/
theorem mem_collectImportsFromProtoFile (f : FsEntry) (index : List (String × String))
    (allDeps : List String) (t : String) :
    t ∈ collectImportsFromProtoFile f index allDeps ↔
      t ∈ allDeps ∨
      ∃ content, f.content = some content ∧
        ∃ p ∈ extractImports content,
          startsWith p "google/" = false ∧ index.lookup p = some t := by
  unfold collectImportsFromProtoFile
  cases hc : f.content with
  | none => simp
  | some content => simp [mem_collectImportPaths]

/-- One call of collectImportsFromProtoFile keeps the key set free of duplicates. -/
theorem nodup_collectImportsFromProtoFile (f : FsEntry) (index : List (String × String))
    (allDeps : List String) (h : allDeps.Nodup) :
    (collectImportsFromProtoFile f index allDeps).Nodup := by
  unfold collectImportsFromProtoFile
  cases f.content with
  | none => exact h
  | some content => exact nodup_collectImportPaths _ _ _ h

/-- Membership after the loop over the proto files of the bundle. -/
theorem mem_foldl_collectImports (files : List FsEntry) (index : List (String × String))
    (allDeps : List String) (t : String) :
    t ∈ files.foldl (fun deps f => collectImportsFromProtoFile f index deps) allDeps ↔
      t ∈ allDeps ∨
      ∃ f ∈ files, ∃ content, f.content = some content ∧
        ∃ p ∈ extractImports content,
          startsWith p "google/" = false ∧ index.lookup p = some t := by
  induction files generalizing allDeps with
  | nil => simp
  | cons f fs ih =>
    rw [List.foldl_cons, ih, mem_collectImportsFromProtoFile]
    constructor
    · rintro ((h | ⟨c, hc, h⟩) | ⟨g, hg, h⟩)
      · exact Or.inl h
      · exact Or.inr ⟨f, List.mem_cons_self _ _, c, hc, h⟩
      · exact Or.inr ⟨g, List.mem_cons_of_mem _ hg, h⟩
    · rintro (h | ⟨g, hg, h⟩)
      · exact Or.inl (Or.inl h)
      · rcases List.mem_cons.1 hg with rfl | hg
        · exact Or.inl (Or.inr h)
        · exact Or.inr ⟨g, hg, h⟩

/-- The loop over the proto files keeps the key set free of duplicates. -/
theorem nodup_foldl_collectImports (files : List FsEntry) (index : List (String × String))
    (allDeps : List String) (h : allDeps.Nodup) :
    (files.foldl (fun deps f => collectImportsFromProtoFile f index deps) allDeps).Nodup := by
  induction files generalizing allDeps with
  | nil => exact h
  | cons f fs ih => exact ih _ (nodup_collectImportsFromProtoFile f index allDeps h)

/-- Membership in the result of collectBundleTransitiveDependencies. -/
theorem mem_collectBundleTransitiveDependencies (w : World) (iteration : MapOrder)
    (bundleDir : Path) (directTargets : List String) (t : String) :
    t ∈ collectBundleTransitiveDependencies w iteration bundleDir directTargets ↔
      t ∈ directTargets ∨
      ∃ f ∈ collectBundleProtoFiles w bundleDir, ∃ content, f.content = some content ∧
        ∃ p ∈ extractImports content,
          startsWith p "google/" = false ∧ (buildImportIndex w).lookup p = some t := by
  unfold collectBundleTransitiveDependencies
  simp only
  rw [(iteration.isPerm _).mem_iff, mem_foldl_collectImports, mem_foldl_addTarget]
  simp

/-- The result of collectBundleTransitiveDependencies has no duplicates. -/
theorem nodup_collectBundleTransitiveDependencies (w : World) (iteration : MapOrder)
    (bundleDir : Path) (directTargets : List String) :
    (collectBundleTransitiveDependencies w iteration bundleDir directTargets).Nodup := by
  unfold collectBundleTransitiveDependencies
  simp only
  rw [(iteration.isPerm _).nodup_iff]
  exact nodup_foldl_collectImports _ _ _ (nodup_foldl_addTarget _ _ List.nodup_nil)

/-- C14: for every list of direct targets, every repository (hence every import
index and every set of bundle proto files) and every map iteration order, the
targets returned by collectBundleTransitiveDependencies are exactly the direct
targets together with index[p] for every import path p extracted from a
readable bundle proto file such that p does not start with `google/` and p is a
key of the index; an import path that is not in the index adds nothing (the
function is total, so it does not fail either). -/
theorem collected_targets_exact (w : World) (iteration : MapOrder) (bundleDir : Path)
    (directTargets : List String) :
    (∀ t : String,
      t ∈ collectBundleTransitiveDependencies w iteration bundleDir directTargets ↔
        t ∈ directTargets ∨
        ∃ f ∈ collectBundleProtoFiles w bundleDir, ∃ content, f.content = some content ∧
          ∃ p ∈ extractImports content,
            startsWith p "google/" = false ∧ (buildImportIndex w).lookup p = some t) ∧
    (∀ (index : List (String × String)) (p : String) (rest allDeps : List String),
      index.lookup p = none →
        collectImportPaths index (p :: rest) allDeps
          = collectImportPaths index rest allDeps) := by
  constructor
  · intro t
    exact mem_collectBundleTransitiveDependencies w iteration bundleDir directTargets t
  · intro index p rest allDeps hnone
    rw [collectImportPaths]
    split
    · rfl
    · rw [hnone]

/-- Witness of C14: in the sample repository the bundle file imports
`common/money.proto`, so the target that owns it is collected, while the import
that nobody owns and the imports under `google/` add nothing. -/
theorem collected_targets_exact_witness :
    "//common:money_proto" ∈ collectBundleTransitiveDependencies sampleWorld insertionOrder
      ["services", "user"] ["//services/user:user_proto"] :=
  ((collected_targets_exact sampleWorld insertionOrder ["services", "user"]
      ["//services/user:user_proto"]).1 "//common:money_proto").2
    (Or.inr ⟨fileEntry ["services", "user", "user.proto"] userProtoText, by decide,
      userProtoText, rfl, "common/money.proto", by decide, by decide, by decide⟩)

/-- The loop over the import paths ignores the paths under `google/`. -/
theorem collectImportPaths_filter (index : List (String × String)) (paths : List String)
    (allDeps : List String) :
    collectImportPaths index paths allDeps
      = collectImportPaths index (paths.filter (fun p => !startsWith p "google/")) allDeps := by
  induction paths generalizing allDeps with
  | nil => rfl
  | cons p ps ih =>
    by_cases hg : startsWith p "google/" = true
    · rw [collectImportPaths, if_pos hg, List.filter_cons_of_neg (by simp [hg])]
      exact ih _
    · have hg' : startsWith p "google/" = false := by simpa using hg
      rw [List.filter_cons_of_pos (by simp [hg']), collectImportPaths, if_neg hg,
        collectImportPaths, if_neg hg]
      cases index.lookup p with
      | none => exact ih _
      | some target => exact ih _

/-- Erasing a path under `google/` does not change the other paths. -/
theorem filter_eraseIdx_google (paths : List String) (i : Nat) (hi : i < paths.length)
    (hg : startsWith (paths.get ⟨i, hi⟩) "google/" = true) :
    (paths.eraseIdx i).filter (fun p => !startsWith p "google/")
      = paths.filter (fun p => !startsWith p "google/") := by
  induction paths generalizing i with
  | nil => rfl
  | cons p ps ih =>
    cases i with
    | zero =>
      have hp : startsWith p "google/" = true := hg
      rw [List.eraseIdx_cons_zero, List.filter_cons_of_neg (by simp [hp])]
    | succ j =>
      have hj : j < ps.length := Nat.lt_of_succ_lt_succ hi
      rw [List.eraseIdx_cons_succ, List.filter_cons, List.filter_cons, ih j hj hg]

/-- C13: well-known imports are never resolved. For every index (also one that
has an entry for a path under `google/`), every key set and every proto file
text: when the i-th extracted path starts with `google/`, a text that has the
same imports with that one removed yields the same key set from
collectImportsFromProtoFile; and every key that the call adds is owned by a
path that does not start with `google/`. -/
theorem well_known_imports_skipped (index : List (String × String)) (allDeps : List String)
    (f g : FsEntry) (content trimmed : String)
    (hf : f.content = some content) (hg : g.content = some trimmed)
    (i : Nat) (hi : i < (extractImports content).length)
    (hgoogle : startsWith ((extractImports content).get ⟨i, hi⟩) "google/" = true)
    (hremoved : extractImports trimmed = (extractImports content).eraseIdx i) :
    collectImportsFromProtoFile g index allDeps = collectImportsFromProtoFile f index allDeps ∧
    (∀ t ∈ collectImportsFromProtoFile f index allDeps,
      t ∈ allDeps ∨
      ∃ p ∈ extractImports content,
        startsWith p "google/" = false ∧ index.lookup p = some t) := by
  constructor
  · unfold collectImportsFromProtoFile
    rw [hf, hg]
    simp only
    rw [collectImportPaths_filter index (extractImports trimmed),
      collectImportPaths_filter index (extractImports content), hremoved,
      filter_eraseIdx_google _ i hi hgoogle]
  · intro t ht
    rw [mem_collectImportsFromProtoFile] at ht
    rcases ht with h | ⟨c, hc, h⟩
    · exact Or.inl h
    · rw [hf] at hc
      cases hc
      exact Or.inr h

/-- Witness of C13: the index of the sample repository owns
`google/api/annotations.proto`, the second import of the user proto file; the
file without that import gives the same key set. -/
theorem well_known_imports_skipped_witness :
    (buildImportIndex sampleWorld).lookup "google/api/annotations.proto"
      = some "//google/api:annotations_proto" ∧
    collectImportsFromProtoFile
        (fileEntry ["services", "user", "user.proto"] userProtoTextTrimmed)
        (buildImportIndex sampleWorld) userTargets
      = collectImportsFromProtoFile
        (fileEntry ["services", "user", "user.proto"] userProtoText)
        (buildImportIndex sampleWorld) userTargets :=
  ⟨by decide,
    (well_known_imports_skipped (buildImportIndex sampleWorld) userTargets
      (fileEntry ["services", "user", "user.proto"] userProtoText)
      (fileEntry ["services", "user", "user.proto"] userProtoTextTrimmed)
      userProtoText userProtoTextTrimmed rfl rfl 1 (by decide) (by decide) (by decide)).1⟩

/-- C12 as stated fails: in the sample repository the bundle file imports the
vendored `google/api/annotations.proto`, which lies outside the bundle, is a
key of the index and imports `google/api/http.proto`; all premises of the
one-hop property hold, and the target that owns the imported file is not in
the result, because imports under `google/` are skipped. -/
theorem one_hop_google_counterexample :
    ImportChain sampleWorld ["services", "user"] userTargets
      (fileEntry ["services", "user", "user.proto"] userProtoText)
      (fileEntry ["google", "api", "annotations.proto"]
        "syntax = \"proto3\";\nimport \"google/api/http.proto\";\n")
      (fileEntry ["google", "api", "http.proto"] "syntax = \"proto3\";\n")
      "//google/api:annotations_proto" "//google/api:http_proto" ∧
    "//google/api:annotations_proto" ∉
      collectBundleTransitiveDependencies sampleWorld insertionOrder ["services", "user"]
        userTargets :=
  ⟨⟨by decide, by decide, by decide, by decide, by decide, by decide, by decide, by decide,
    by decide, by decide, by decide, by decide⟩, by decide⟩

/-- C12, amended: for an import chain A → B → C as in the one-hop property in
which, in addition, the path of B does not start with `google/`, the result of
collectBundleTransitiveDependencies contains the target that owns B and does not
contain the target that owns C. -/
theorem one_hop_bound (w : World) (iteration : MapOrder) (bundleDir : Path)
    (directTargets : List String) (A B C : FsEntry) (tB tC : String)
    (chain : ImportChain w bundleDir directTargets A B C tB tC)
    (hplain : startsWith (relString B.path) "google/" = false) :
    tB ∈ collectBundleTransitiveDependencies w iteration bundleDir directTargets ∧
    tC ∉ collectBundleTransitiveDependencies w iteration bundleDir directTargets := by
  have hex := mem_collectBundleTransitiveDependencies w iteration bundleDir directTargets
  constructor
  · rw [hex]
    have hA := chain.aImportsB
    unfold importsOf at hA
    cases hc : A.content with
    | none => rw [hc] at hA; simp at hA
    | some content =>
      rw [hc] at hA
      exact Or.inr ⟨A, chain.aInBundle, content, hc, _, hA, hplain, chain.bOwned⟩
  · rw [hex]
    rintro (h | ⟨f, hf, content, hc, p, hp, -, hl⟩)
    · exact chain.cNotDirect h
    · refine chain.cNotImported f hf p ?_ hl
      unfold importsOf
      rw [hc]
      exact hp

/-- Witness of C12 amended: the chain user.proto → common/money.proto →
base/units.proto of the sample repository. -/
theorem one_hop_bound_witness :
    "//common:money_proto" ∈
      collectBundleTransitiveDependencies sampleWorld insertionOrder ["services", "user"]
        userTargets ∧
    "//base:units_proto" ∉
      collectBundleTransitiveDependencies sampleWorld insertionOrder ["services", "user"]
        userTargets :=
  one_hop_bound sampleWorld insertionOrder ["services", "user"] userTargets
    (fileEntry ["services", "user", "user.proto"] userProtoText)
    (fileEntry ["common", "money.proto"] "syntax = \"proto3\";\nimport \"base/units.proto\";\n")
    (fileEntry ["base", "units.proto"] "syntax = \"proto3\";\n")
    "//common:money_proto" "//base:units_proto"
    ⟨by decide, by decide, by decide, by decide, by decide, by decide, by decide, by decide,
      by decide, by decide, by decide, by decide⟩
    (by decide)

/-- A rule agrees with itself up to order. -/
theorem Rule.sameUpToOrder_refl (r : Rule) : r.SameUpToOrder r := by
  refine ⟨rfl, rfl, ?_⟩
  induction r.attrs with
  | nil => exact List.Forall₂.nil
  | cons a as ih =>
    refine List.Forall₂.cons ⟨rfl, ?_⟩ ih
    cases a.2 <;> simp [AttrValue.SameUpToOrder]

/-- A rule list agrees with itself up to order. -/
theorem sameUpToOrder_list_refl (rules : List Rule) :
    List.Forall₂ Rule.SameUpToOrder rules rules := by
  induction rules with
  | nil => exact List.Forall₂.nil
  | cons r rs ih => exact List.Forall₂.cons (Rule.sameUpToOrder_refl r) ih

/-- Two stub rules over dependency lists that are permutations of each other. -/
theorem stub_sameUpToOrder (kind name : String) (D1 D2 : List String) (h : D1.Perm D2) :
    Rule.SameUpToOrder
      { kind := kind, name := name
        attrs := [("protos", .platformStrings D1),
                  ("visibility", .strings ["//visibility:public"])] }
      { kind := kind, name := name
        attrs := [("protos", .platformStrings D2),
                  ("visibility", .strings ["//visibility:public"])] } :=
  ⟨rfl, rfl, List.Forall₂.cons ⟨rfl, h⟩ (List.Forall₂.cons ⟨rfl, rfl⟩ List.Forall₂.nil)⟩

/-- Dependency lists that are permutations of each other give rule lists that
agree up to the order of the platform string lists. -/
theorem generateBundleRules_sameUpToOrder (cfg : MergedConfig) (T D1 D2 : List String)
    (h : D1.Perm D2) :
    List.Forall₂ Rule.SameUpToOrder (generateBundleRules cfg T D1)
      (generateBundleRules cfg T D2) := by
  rw [generateBundleRules_eq, generateBundleRules_eq]
  have hj : List.Forall₂ Rule.SameUpToOrder
      (if javaGenerated cfg then generateJavaBundleRules cfg cfg.BundleName D1 else [])
      (if javaGenerated cfg then generateJavaBundleRules cfg cfg.BundleName D2 else []) := by
    split
    · exact List.Forall₂.cons (stub_sameUpToOrder _ _ D1 D2 h)
        (sameUpToOrder_list_refl (generateJavaBundleRules cfg cfg.BundleName D1).tail)
    · exact List.Forall₂.nil
  have hp : List.Forall₂ Rule.SameUpToOrder
      (if pythonGenerated cfg then generatePythonBundleRules cfg cfg.BundleName D1 else [])
      (if pythonGenerated cfg then generatePythonBundleRules cfg cfg.BundleName D2 else []) := by
    split
    · exact List.Forall₂.cons (stub_sameUpToOrder _ _ D1 D2 h)
        (sameUpToOrder_list_refl (generatePythonBundleRules cfg cfg.BundleName D1).tail)
    · exact List.Forall₂.nil
  have hs : List.Forall₂ Rule.SameUpToOrder
      (if javaScriptGenerated cfg then
        generateJavaScriptBundleRules cfg cfg.BundleName D1 else [])
      (if javaScriptGenerated cfg then
        generateJavaScriptBundleRules cfg cfg.BundleName D2 else []) := by
    split
    · exact List.Forall₂.cons (stub_sameUpToOrder _ _ D1 D2 h)
        (List.Forall₂.cons (stub_sameUpToOrder _ _ D1 D2 h)
          (sameUpToOrder_list_refl
            (generateJavaScriptBundleRules cfg cfg.BundleName D1).tail.tail))
    · exact List.Forall₂.nil
  exact List.rel_append (List.rel_append (List.rel_append (List.rel_append
    (sameUpToOrder_list_refl [aggregateRule cfg T]) hj) hp) hs)
    (sameUpToOrder_list_refl _)

/-- C15 as stated fails: in the sample repository two iteration orders of the
map of collected targets give different dependency lists, and so two runs of
the rule generation on the unchanged repository give different rule records. -/
theorem generation_order_counterexample :
    collectBundleTransitiveDependencies sampleWorld insertionOrder ["services", "user"]
        userTargets
      = ["//services/user:user_proto", "//services/user:types_proto", "//common:money_proto"] ∧
    collectBundleTransitiveDependencies sampleWorld reverseOrder ["services", "user"]
        userTargets
      = ["//common:money_proto", "//services/user:types_proto", "//services/user:user_proto"] ∧
    generateBundleRulesIn sampleWorld insertionOrder javaOnlyMerged userTargets
        ["services", "user"]
      ≠ generateBundleRulesIn sampleWorld reverseOrder javaOnlyMerged userTargets
        ["services", "user"] := by
  decide

/-- C15, amended: for the same direct targets and the same repository (hence the
same import index and the same bundle proto files), any two runs of
collectBundleTransitiveDependencies return duplicate-free lists with the same
elements, in an order that is the one of the map iteration and is not fixed;
two runs of the rule generation yield rule lists with the same kinds, names and
attribute names in the same order, whose attribute values agree up to the order
of the dependency lists; and when both runs iterate in the same order the rule
records are identical. -/
theorem generation_same_up_to_order (w : World) (first second : MapOrder) (bundleDir : Path)
    (directTargets : List String) (cfg : MergedConfig) :
    (collectBundleTransitiveDependencies w first bundleDir directTargets).Perm
      (collectBundleTransitiveDependencies w second bundleDir directTargets) ∧
    (collectBundleTransitiveDependencies w first bundleDir directTargets).Nodup ∧
    List.Forall₂ Rule.SameUpToOrder
      (generateBundleRulesIn w first cfg directTargets bundleDir)
      (generateBundleRulesIn w second cfg directTargets bundleDir) ∧
    (first.order = second.order →
      generateBundleRulesIn w first cfg directTargets bundleDir
        = generateBundleRulesIn w second cfg directTargets bundleDir) := by
  have hperm : (collectBundleTransitiveDependencies w first bundleDir directTargets).Perm
      (collectBundleTransitiveDependencies w second bundleDir directTargets) := by
    unfold collectBundleTransitiveDependencies
    exact (first.isPerm _).trans (second.isPerm _).symm
  refine ⟨hperm, nodup_collectBundleTransitiveDependencies w first bundleDir directTargets,
    generateBundleRules_sameUpToOrder cfg directTargets _ _ hperm, ?_⟩
  intro hsame
  unfold generateBundleRulesIn collectBundleTransitiveDependencies
  rw [hsame]

/-- Witness of C15 amended: the two runs of the counterexample return
permutations of the same list. -/
theorem generation_same_up_to_order_witness :
    (collectBundleTransitiveDependencies sampleWorld insertionOrder ["services", "user"]
        userTargets).Perm
      (collectBundleTransitiveDependencies sampleWorld reverseOrder ["services", "user"]
        userTargets) :=
  (generation_same_up_to_order sampleWorld insertionOrder reverseOrder
    ["services", "user"] userTargets javaOnlyMerged).1

/-! ## Import index and target discovery -/

/-- The assignments of buildImportIndex are those of the visited entries. -/
theorem mem_buildImportIndex (w : World) (kv : String × String) :
    kv ∈ buildImportIndex w ↔ ∃ e ∈ w.entries, indexEntry w e = some kv := by
  have hfold : ∀ (es : List FsEntry) (acc : List (String × String)),
      kv ∈ es.foldl (fun index e =>
          match indexEntry w e with
          | some kv => kv :: index
          | none => index) acc ↔
        kv ∈ acc ∨ ∃ e ∈ es, indexEntry w e = some kv := by
    intro es
    induction es with
    | nil => intro acc; simp
    | cons e es ih =>
      intro acc
      rw [List.foldl_cons, ih]
      cases he : indexEntry w e with
      | none => simp [he]
      | some x =>
        simp only [List.mem_cons, he, Option.some.injEq, exists_eq_or_imp]
        constructor
        · rintro ((h | h) | h)
          · exact Or.inr (Or.inl h.symm)
          · exact Or.inl h
          · exact Or.inr (Or.inr h)
        · rintro (h | h | h)
          · exact Or.inl (Or.inr h)
          · exact Or.inl (Or.inl h.symm)
          · exact Or.inr h
  unfold buildImportIndex World.walk
  rw [hfold]
  simp

/-- C20: build-output directories never contribute. An entry whose path
contains the marker `bazel-` makes no assignment to the import index; every
assignment in the map filled by buildImportIndex comes from an entry whose path
does not contain the marker; and no entry returned by collectBundleProtoFiles
has the marker in its path. -/
theorem build_output_never_contributes (w : World) :
    (∀ e : FsEntry, strContains (pathString w.repoRoot e.path) "bazel-" = true →
      indexEntry w e = none) ∧
    (∀ kv ∈ buildImportIndex w, ∃ e ∈ w.entries,
      strContains (pathString w.repoRoot e.path) "bazel-" = false ∧
        indexEntry w e = some kv) ∧
    (∀ (bundleDir : Path), ∀ e ∈ collectBundleProtoFiles w bundleDir,
      strContains (pathString w.repoRoot e.path) "bazel-" = false) := by
  have hskip : ∀ e : FsEntry, strContains (pathString w.repoRoot e.path) "bazel-" = true →
      indexEntry w e = none := by
    intro e h
    unfold indexEntry
    simp only [h]
    split <;> rfl
  refine ⟨hskip, ?_, ?_⟩
  · intro kv hkv
    obtain ⟨e, he, hidx⟩ := (mem_buildImportIndex w kv).1 hkv
    refine ⟨e, he, ?_, hidx⟩
    cases hc : strContains (pathString w.repoRoot e.path) "bazel-" with
    | false => rfl
    | true => rw [hskip e hc] at hidx; cases hidx
  · intro bundleDir e he
    unfold collectBundleProtoFiles at he
    have h2 := (List.mem_filter.1 he).2
    simp only [Bool.and_eq_true, Bool.not_eq_true'] at h2
    exact h2.2

/-- Witness of C20: the proto file under `bazel-bin` of the sample repository
has a build manifest that declares it, and still has no entry in the index and
is not a proto file of the bundle whose directory it mirrors. -/
theorem build_output_never_contributes_witness :
    indexEntry sampleWorld
        (fileEntry ["bazel-bin", "services", "user", "copy.proto"]
          "import \"base/units.proto\";\n") = none ∧
    (buildImportIndex sampleWorld).lookup "bazel-bin/services/user/copy.proto" = none ∧
    (collectBundleProtoFiles sampleWorld ["bazel-bin"]) = [] :=
  ⟨(build_output_never_contributes sampleWorld).1 _ (by decide), by decide, by decide⟩

/-- C16, evaluated where it fails: the proto file at the root of the sample
repository is declared by the root manifest; the index maps it to `//.:root_proto`
and not to the local form `:root_proto`, which discoverProtoTargetsInDirectory
produces for the same declaration; below the root the entry has the form
`//<package-path>:<name>`. -/
theorem import_index_root_label :
    findProtoTarget "proto_library(name = \"root_proto\", srcs = [\"root.proto\"])\n"
      "root.proto" = "root_proto" ∧
    (buildImportIndex sampleWorld).lookup "root.proto" = some "//.:root_proto" ∧
    discoverProtoTargetsInDirectory sampleWorld [] = [":root_proto"] ∧
    (buildImportIndex sampleWorld).lookup "common/money.proto"
      = some "//common:money_proto" := by
  decide

/-- C18, evaluated where it fails: the bundle directory `services/user` of the
sample repository is not the repository root; the targets declared in its own
build manifest are returned in the fully qualified form, not in the local form
`:user_proto`, `:types_proto`. -/
theorem own_targets_fully_qualified :
    discoverProtoTargetsInDirectory sampleWorld ["services", "user"]
      = ["//services/user:user_proto", "//services/user:types_proto"] ∧
    ":user_proto" ∉ discoverExistingProtoTargets sampleWorld ["services", "user"] := by
  decide

/-- C19, evaluated where it fails: the walk of the recursive pass visits the
build manifest of the bundle directory itself, so every target declared there
is returned twice by discoverExistingProtoTargets. -/
theorem own_targets_listed_twice :
    discoverProtoTargetsRecursively sampleWorld ["services", "user"]
      = ["//services/user:user_proto", "//services/user:types_proto"] ∧
    discoverExistingProtoTargets sampleWorld ["services", "user"]
      = ["//services/user:user_proto", "//services/user:types_proto",
         "//services/user:user_proto", "//services/user:types_proto"] ∧
    (discoverExistingProtoTargets sampleWorld ["services", "user"]).count
      "//services/user:user_proto" = 2 := by
  decide

/-- C17 as stated fails: the manifest of `dup` declares `first_proto` and then
`second_proto`, both listing `x.proto`; the index entry of the file names the
earlier declaration, not the later one. -/
theorem duplicate_sources_counterexample :
    findAllProtoLibraries
        ("proto_library(name = \"first_proto\", srcs = [\"x.proto\"])\n" ++
         "proto_library(name = \"second_proto\", srcs = [\"x.proto\"])\n").data 0
      = ["first_proto", "second_proto"] ∧
    (buildImportIndex duplicateWorld).lookup "dup/x.proto" = some "//dup:first_proto" ∧
    (buildImportIndex duplicateWorld).lookup "dup/x.proto" ≠ some "//dup:second_proto" := by
  decide

/-- A literal at the head of a text is matched and passed over. -/
theorem expectLit_append (lit rest : List Char) : expectLit lit (lit ++ rest) = some rest := by
  induction lit with
  | nil => cases rest <;> rfl
  | cons l ls ih => simp [expectLit, ih]

/-- The class `[^"]+` runs to the first quote. -/
theorem takeWhile_notQuote (n rest : List Char) (hq : '\x22' ∉ n) :
    (n ++ '\x22' :: rest).takeWhile (fun c => c != '\x22') = n ∧
    (n ++ '\x22' :: rest).dropWhile (fun c => c != '\x22') = '\x22' :: rest := by
  induction n with
  | nil => simp [List.takeWhile, List.dropWhile]
  | cons c cs ih =>
    have hc : c ≠ '\x22' := fun h => hq (by simp [h])
    have hcs : '\x22' ∉ cs := fun h => hq (List.mem_cons_of_mem _ h)
    have hb : (c != '\x22') = true := by simpa using hc
    simp [List.takeWhile, List.dropWhile, hb, ih hcs]

/-- A quoted non-empty name without a quote in it is captured whole. -/
theorem matchQuoted_name (n rest : List Char) (hne : n ≠ []) (hq : '\x22' ∉ n) :
    matchQuoted ('\x22' :: (n ++ '\x22' :: rest)) = some (n, rest) := by
  unfold matchQuoted
  simp only [(takeWhile_notQuote n rest hq).1, (takeWhile_notQuote n rest hq).2]
  cases n with
  | nil => exact absurd rfl hne
  | cons c cs => rfl

/-- A literal that matches stands at the head of the text. -/
theorem expectLit_eq_some (lit s r : List Char) (h : expectLit lit s = some r) :
    s = lit ++ r := by
  induction lit generalizing s with
  | nil =>
    cases s <;> simp [expectLit] at h <;> simp [h]
  | cons l ls ih =>
    cases s with
    | nil => simp [expectLit] at h
    | cons c cs =>
      simp only [expectLit] at h
      split at h
      · rename_i hlc
        have hlc2 : l = c := by simpa using hlc
        rw [hlc2, ih cs h]
        rfl
      · cases h

/-- What a match of the quoted part looks like. -/
theorem matchQuoted_eq_some (s cap rest : List Char) (h : matchQuoted s = some (cap, rest)) :
    s = '\x22' :: cap ++ '\x22' :: rest ∧ cap ≠ [] ∧ '\x22' ∉ cap := by
  unfold matchQuoted at h
  split at h
  · rename_i r
    simp only at h
    split at h
    · cases h
    · rename_i hne
      split at h
      · rename_i rest2 hdrop
        simp only [Option.some.injEq, Prod.mk.injEq] at h
        obtain ⟨hcap, hrest⟩ := h
        subst hrest
        have hsplit := List.takeWhile_append_dropWhile (fun c => c != '\x22') r
        rw [hdrop, hcap] at hsplit
        refine ⟨by rw [← hsplit]; rfl, ?_, ?_⟩
        · intro hnil
          apply hne
          rw [hcap, hnil]
          rfl
        · intro hmem
          rw [← hcap] at hmem
          have := List.mem_takeWhile_imp hmem
          simp at this
      · cases h
  · cases h

/-- The pattern of findProtoTarget matches a one-line declaration of the file at
the head of the text and captures its name. -/
theorem matchProtoTargetAt_decl (name file rest : List Char) (hne : name ≠ [])
    (hq : '\x22' ∉ name) :
    matchProtoTargetAt file
        ("proto_library(name = \"".data ++ name ++ "\", srcs = [\"".data ++ file
          ++ "\"])".data ++ rest)
      = some name := by
  have h1 : "proto_library(name = \"".data ++ name ++ "\", srcs = [\"".data ++ file
        ++ "\"])".data ++ rest
      = "proto_library(".data ++ ("name".data ++ (' ' :: ("=".data ++ (' ' :: ('\x22' ::
          (name ++ '\x22' :: (',' :: ' ' :: ("srcs".data ++ (' ' :: ("=".data ++ (' ' ::
            ("[".data ++ ((('\x22' :: file) ++ ['\x22']) ++ (']' :: ')' :: rest)))))))))))))) := by
    simp [List.append_assoc]
  rw [h1]
  unfold matchProtoTargetAt
  rw [expectLit_append]
  simp only
  have h2 : ∀ X : List Char, List.dropWhile isSpace ("name".data ++ X) = "name".data ++ X :=
    fun X => rfl
  rw [h2, expectLit_append]
  simp only
  have h3 : ∀ X : List Char, List.dropWhile isSpace (' ' :: ("=".data ++ X)) = "=".data ++ X :=
    fun X => rfl
  rw [h3, expectLit_append]
  simp only
  have h4 : ∀ X : List Char, List.dropWhile isSpace (' ' :: '\x22' :: X) = '\x22' :: X :=
    fun X => rfl
  rw [h4, matchQuoted_name name _ hne hq]
  simp only
  have h5 : ∀ X : List Char,
      existsAfterRun ')' (matchSrcsTail file) (',' :: ' ' :: ("srcs".data ++ X))
        = (matchSrcsTail file ("srcs".data ++ X)
            || (('s' : Char) != ')' && existsAfterRun ')' (matchSrcsTail file)
                ("rcs".data ++ X))) := fun X => rfl
  have h6 : ∀ X : List Char,
      matchSrcsTail file ("srcs".data ++ (' ' :: ("=".data ++ (' ' :: ("[".data ++ X)))))
        = existsAfterRun ']' (fun t => (('\x22' :: file) ++ ['\x22']).isPrefixOf t) X := by
    intro X
    unfold matchSrcsTail
    rw [expectLit_append]
    simp only
    rw [h3, expectLit_append]
    simp only
    have h7 : ∀ Y : List Char, List.dropWhile isSpace (' ' :: ("[".data ++ Y)) = "[".data ++ Y :=
      fun Y => rfl
    rw [h7, expectLit_append]
  have h8 : existsAfterRun ']' (fun t => (('\x22' :: file) ++ ['\x22']).isPrefixOf t)
      ((('\x22' :: file) ++ ['\x22']) ++ (']' :: ')' :: rest)) = true := by
    have hp : (('\x22' :: file) ++ ['\x22']).isPrefixOf
        ((('\x22' :: file) ++ ['\x22']) ++ (']' :: ')' :: rest)) = true := by
      rw [List.isPrefixOf_iff_prefix]
      exact List.prefix_append _ _
    simp only [List.cons_append] at hp ⊢
    unfold existsAfterRun
    simp [hp]
  rw [h5, h6, h8]
  rfl

/-- A match at the head of the text is the leftmost match. -/
theorem findProtoTargetIn_head (file text cap : List Char)
    (h : matchProtoTargetAt file text = some cap) :
    findProtoTargetIn file text = some cap := by
  cases text with
  | nil => simpa [findProtoTargetIn] using h
  | cons c cs => simp [findProtoTargetIn, h]

/-- The function findProtoTarget returns the name of a one-line declaration of
the file that opens the manifest, whatever follows it. -/
theorem findProtoTarget_decl (name file rest : String) (hne : name ≠ "")
    (hq : '\x22' ∉ name.data) :
    findProtoTarget (protoLibraryDecl name file ++ rest) file = name := by
  have hdata : (protoLibraryDecl name file ++ rest).data
      = "proto_library(name = \"".data ++ name.data ++ "\", srcs = [\"".data ++ file.data
          ++ "\"])".data ++ rest.data := by
    simp [protoLibraryDecl, String.data_append]
  have hne' : name.data ≠ [] := by
    intro h
    apply hne
    exact String.ext h
  unfold findProtoTarget
  rw [hdata, findProtoTargetIn_head _ _ _
    (matchProtoTargetAt_decl name.data file.data rest.data hne' hq)]

/-- A name captured by the pattern of findProtoTarget is not empty. -/
theorem matchProtoTargetAt_ne_nil (file s cap : List Char)
    (h : matchProtoTargetAt file s = some cap) : cap ≠ [] := by
  unfold matchProtoTargetAt at h
  split at h
  · cases h
  · split at h
    · cases h
    · split at h
      · cases h
      · split at h
        · cases h
        · rename_i cap2 r4 hq
          split at h
          · simp only [Option.some.injEq] at h
            rw [← h]
            exact (matchQuoted_eq_some _ _ _ hq).2.1
          · cases h

/-- The search for the leftmost match passes over the places at which the
pattern does not match. -/
theorem findProtoTargetIn_skip (file before text : List Char)
    (hbefore : ∀ s ∈ before.tails, s ≠ [] → matchProtoTargetAt file (s ++ text) = none) :
    findProtoTargetIn file (before ++ text) = findProtoTargetIn file text := by
  induction before with
  | nil => rfl
  | cons c cs ih =>
    have h0 := hbefore (c :: cs) (by simp) (by simp)
    rw [List.cons_append] at h0 ⊢
    rw [findProtoTargetIn, h0]
    exact ih (fun s hs hne => hbefore s (by simp [hs]) hne)

/-- C17, amended: when two proto_library declarations of the same build
manifest both list the same source file in their srcs and both are matched by
the pattern of findProtoTarget, the import index entry built for that file
names the earlier of the two: the leftmost place at which the pattern matches
decides (first match wins, not last-writer-wins). The declarations may have
any layout that the pattern matches, and the manifest may hold any text before
the first of them (at no place of which the pattern matches), between them and
after them; the later declaration is found only in the manifest cut to begin
at it. The manifest is the BUILD.bazel of the directory, or its BUILD file
when there is no BUILD.bazel. -/
theorem first_declaration_wins (w : World) (e : FsEntry) (content : String)
    (before middle rest : List Char) (first second : String)
    (hproto : endsWith (pathString w.repoRoot e.path) ".proto" = true)
    (hsource : strContains (pathString w.repoRoot e.path) "bazel-" = false)
    (hread : w.readFile (dirOf e.path ++ ["BUILD.bazel"]) = some content ∨
      (w.isNotExist (dirOf e.path ++ ["BUILD.bazel"]) = true ∧
        w.readFile (dirOf e.path ++ ["BUILD"]) = some content))
    (hsplit : content.data = before ++ (middle ++ rest))
    (hbefore : ∀ s ∈ before.tails, s ≠ [] →
      matchProtoTargetAt (baseName e.path).data (s ++ (middle ++ rest)) = none)
    (hfirst : matchProtoTargetAt (baseName e.path).data (middle ++ rest) = some first.data)
    (hlater : middle ≠ [])
    (hsecond : matchProtoTargetAt (baseName e.path).data rest = some second.data) :
    findProtoTarget content (baseName e.path) = first ∧
    indexEntry w e
      = some (relString e.path, "//" ++ relString (dirOf e.path) ++ ":" ++ first) ∧
    (second ≠ first →
      indexEntry w e
        ≠ some (relString e.path, "//" ++ relString (dirOf e.path) ++ ":" ++ second)) ∧
    before.length < (before ++ middle).length ∧
    findProtoTarget (String.mk rest) (baseName e.path) = second := by
  have htarget : findProtoTarget content (baseName e.path) = first := by
    unfold findProtoTarget
    rw [hsplit, findProtoTargetIn_skip _ _ _ hbefore, findProtoTargetIn_head _ _ _ hfirst]
  have hne : first ≠ "" := by
    intro h
    apply matchProtoTargetAt_ne_nil _ _ _ hfirst
    rw [h]
  have hentry : indexEntry w e
      = some (relString e.path, "//" ++ relString (dirOf e.path) ++ ":" ++ first) := by
    unfold indexEntry
    rcases hread with hread | ⟨hmissing, hread⟩
    · have hfound := World.isNotExist_of_stat w _ (World.stat_of_readFile w _ _ hread)
      simp only [hproto, hsource, hfound, hread, htarget, Bool.not_true, Bool.false_eq_true,
        if_false, if_true]
      simp [hne]
    · have hfound := World.isNotExist_of_stat w _ (World.stat_of_readFile w _ _ hread)
      simp only [hproto, hsource, hmissing, hfound, hread, htarget, Bool.not_true,
        Bool.false_eq_true, if_false, if_true]
      simp [hne]
  refine ⟨htarget, hentry, ?_, ?_, ?_⟩
  · intro hdiff heq
    rw [hentry] at heq
    simp only [Option.some.injEq, Prod.mk.injEq, true_and] at heq
    have hd := congrArg String.data heq
    simp only [String.data_append, List.append_cancel_left_eq] at hd
    exact hdiff (String.ext hd).symm
  · rw [List.length_append]
    exact Nat.lt_add_of_pos_right (List.length_pos.2 hlater)
  · unfold findProtoTarget
    rw [findProtoTargetIn_head _ _ _ hsecond]

/-- Witness of C17 amended: a manifest that opens with a load statement and a
declaration of another file, followed by two declarations written over several
lines that both list `x.proto`; the index entry names the first of the two. -/
theorem first_declaration_wins_witness :
    manifestWorld.readFile ["pkg", "BUILD.bazel"]
      = some (manifestHead ++ manifestFirst ++ manifestSecond) ∧
    indexEntry manifestWorld (fileEntry ["pkg", "x.proto"] "syntax = \"proto3\";\n")
      = some ("pkg/x.proto", "//pkg:first_proto") ∧
    indexEntry manifestWorld (fileEntry ["pkg", "x.proto"] "syntax = \"proto3\";\n")
      ≠ some ("pkg/x.proto", "//pkg:second_proto") :=
  ⟨by decide,
    (first_declaration_wins manifestWorld
      (fileEntry ["pkg", "x.proto"] "syntax = \"proto3\";\n")
      (manifestHead ++ manifestFirst ++ manifestSecond)
      manifestHead.data manifestFirst.data manifestSecond.data "first_proto" "second_proto"
      (by decide) (by decide) (Or.inl (by decide)) (by decide) (by decide) (by decide)
      (by decide) (by decide)).2.1,
    (first_declaration_wins manifestWorld
      (fileEntry ["pkg", "x.proto"] "syntax = \"proto3\";\n")
      (manifestHead ++ manifestFirst ++ manifestSecond)
      manifestHead.data manifestFirst.data manifestSecond.data "first_proto" "second_proto"
      (by decide) (by decide) (Or.inl (by decide)) (by decide) (by decide) (by decide)
      (by decide) (by decide)).2.2.1 (by decide)⟩

/-! ## The aggregate rule and the publish aliases -/

/-- C22: for every merged config, whatever languages are enabled, the first rule
returned by generateBundleRules is the aggregate library: kind proto_library,
name `<bundleName>_all_protos`, deps equal to the given direct targets in the
given order, and public visibility; the dependency list obtained by import
resolution does not enter it. -/
theorem aggregate_rule_first (cfg : MergedConfig) (T D : List String) :
    (generateBundleRules cfg T D).head?
      = some { kind := "proto_library", name := cfg.BundleName ++ "_all_protos"
               attrs := [("deps", .platformStrings T),
                         ("visibility", .strings ["//visibility:public"])] } := by
  rw [generateBundleRules_eq]
  rfl

/-- C23: for each language whose rules are generated, generateBundleRules emits
an alias rule with the fixed name publish_to_maven (Java), publish_to_pypi
(Python) or publish_to_npm (JavaScript) whose actual attribute is a colon
followed by the name of a genrule of the same list, and the srcs of that genrule
is the label of a bundle rule of that language in the same list. -/
theorem publish_alias_chain (cfg : MergedConfig) (T D : List String) :
    (javaGenerated cfg = true →
      ∃ al ∈ generateBundleRules cfg T D, ∃ pub ∈ generateBundleRules cfg T D,
        ∃ bun ∈ generateBundleRules cfg T D,
          al.kind = "alias" ∧ al.name = "publish_to_maven" ∧
          al.Attr "actual" = some (.str (":" ++ pub.name)) ∧
          pub.kind = "genrule" ∧ pub.Attr "srcs" = some (.platformStrings [":" ++ bun.name]) ∧
          bun.kind = "java_proto_bundle") ∧
    (pythonGenerated cfg = true →
      ∃ al ∈ generateBundleRules cfg T D, ∃ pub ∈ generateBundleRules cfg T D,
        ∃ bun ∈ generateBundleRules cfg T D,
          al.kind = "alias" ∧ al.name = "publish_to_pypi" ∧
          al.Attr "actual" = some (.str (":" ++ pub.name)) ∧
          pub.kind = "genrule" ∧ pub.Attr "srcs" = some (.platformStrings [":" ++ bun.name]) ∧
          bun.kind = "py_proto_bundle") ∧
    (javaScriptGenerated cfg = true →
      ∃ al ∈ generateBundleRules cfg T D, ∃ pub ∈ generateBundleRules cfg T D,
        ∃ bun ∈ generateBundleRules cfg T D,
          al.kind = "alias" ∧ al.name = "publish_to_npm" ∧
          al.Attr "actual" = some (.str (":" ++ pub.name)) ∧
          pub.kind = "genrule" ∧ pub.Attr "srcs" = some (.platformStrings [":" ++ bun.name]) ∧
          bun.kind = "js_proto_bundle") := by
  have hsplit : ∀ s : String, ":publish_" ++ s = ":" ++ ("publish_" ++ s) := by
    intro s
    rw [← String.append_assoc]
    rfl
  refine ⟨?_, ?_, ?_⟩
  · intro hgen
    have hmem : ∀ r ∈ generateJavaBundleRules cfg cfg.BundleName D,
        r ∈ generateBundleRules cfg T D := fun r hr =>
      (mem_generateBundleRules_iff cfg T D r).2 (Or.inr (Or.inl ⟨hgen, hr⟩))
    refine ⟨(generateJavaBundleRules cfg cfg.BundleName D).get ⟨3, by show (3 : Nat) < 4; decide⟩,
      hmem _ (List.get_mem _ _ _),
      (generateJavaBundleRules cfg cfg.BundleName D).get ⟨2, by show (2 : Nat) < 4; decide⟩,
      hmem _ (List.get_mem _ _ _),
      (generateJavaBundleRules cfg cfg.BundleName D).get ⟨1, by show (1 : Nat) < 4; decide⟩,
      hmem _ (List.get_mem _ _ _), rfl, rfl, ?_, rfl, rfl, rfl⟩
    show some (AttrValue.str (":publish_" ++ cfg.BundleName ++ "_to_maven"))
      = some (AttrValue.str (":" ++ ("publish_" ++ cfg.BundleName ++ "_to_maven")))
    rw [String.append_assoc, hsplit, String.append_assoc "publish_"]
  · intro hgen
    have hmem : ∀ r ∈ generatePythonBundleRules cfg cfg.BundleName D,
        r ∈ generateBundleRules cfg T D := fun r hr =>
      (mem_generateBundleRules_iff cfg T D r).2 (Or.inr (Or.inr (Or.inl ⟨hgen, hr⟩)))
    refine ⟨(generatePythonBundleRules cfg cfg.BundleName D).get
        ⟨3, by show (3 : Nat) < 4; decide⟩,
      hmem _ (List.get_mem _ _ _),
      (generatePythonBundleRules cfg cfg.BundleName D).get ⟨2, by show (2 : Nat) < 4; decide⟩,
      hmem _ (List.get_mem _ _ _),
      (generatePythonBundleRules cfg cfg.BundleName D).get ⟨1, by show (1 : Nat) < 4; decide⟩,
      hmem _ (List.get_mem _ _ _), rfl, rfl, ?_, rfl, rfl, rfl⟩
    show some (AttrValue.str (":publish_" ++ cfg.BundleName ++ "_to_pypi"))
      = some (AttrValue.str (":" ++ ("publish_" ++ cfg.BundleName ++ "_to_pypi")))
    rw [String.append_assoc, hsplit, String.append_assoc "publish_"]
  · intro hgen
    have hmem : ∀ r ∈ generateJavaScriptBundleRules cfg cfg.BundleName D,
        r ∈ generateBundleRules cfg T D := fun r hr =>
      (mem_generateBundleRules_iff cfg T D r).2
        (Or.inr (Or.inr (Or.inr (Or.inl ⟨hgen, hr⟩))))
    refine ⟨(generateJavaScriptBundleRules cfg cfg.BundleName D).get
        ⟨4, by show (4 : Nat) < 5; decide⟩,
      hmem _ (List.get_mem _ _ _),
      (generateJavaScriptBundleRules cfg cfg.BundleName D).get
        ⟨3, by show (3 : Nat) < 5; decide⟩,
      hmem _ (List.get_mem _ _ _),
      (generateJavaScriptBundleRules cfg cfg.BundleName D).get
        ⟨2, by show (2 : Nat) < 5; decide⟩,
      hmem _ (List.get_mem _ _ _), rfl, rfl, ?_, rfl, rfl, rfl⟩
    show some (AttrValue.str (":publish_" ++ cfg.BundleName ++ "_to_npm"))
      = some (AttrValue.str (":" ++ ("publish_" ++ cfg.BundleName ++ "_to_npm")))
    rw [String.append_assoc, hsplit, String.append_assoc "publish_"]

/-- Witness of C23: the scenario config generates Java, and its alias
publish_to_maven points at the genrule over the Java bundle rule. -/
theorem publish_alias_chain_witness :
    ∃ al ∈ generateBundleRules javaOnlyMerged [":user_proto"] [":user_proto"],
      ∃ pub ∈ generateBundleRules javaOnlyMerged [":user_proto"] [":user_proto"],
        ∃ bun ∈ generateBundleRules javaOnlyMerged [":user_proto"] [":user_proto"],
          al.kind = "alias" ∧ al.name = "publish_to_maven" ∧
          al.Attr "actual" = some (.str (":" ++ pub.name)) ∧
          pub.kind = "genrule" ∧ pub.Attr "srcs" = some (.platformStrings [":" ++ bun.name]) ∧
          bun.kind = "java_proto_bundle" :=
  (publish_alias_chain javaOnlyMerged [":user_proto"] [":user_proto"]).1 (by decide)

/-! ## Target discovery and build-output directories -/

/-- C21, evaluated where the code fails it: the bundle `svc` holds the
directories `bazel-bin` and `bazel-genfiles`, both with the marker in their
names and a manifest of their own. The names at which the walk stops are
bazel-bin, bazel-out, bazel-testlogs and bazel-svc (bazel-repo for a bundle at
the root `/repo`), so the target declared under `bazel-bin` is not returned
and the one declared under `bazel-genfiles` is, although the two sibling walks
(buildImportIndex, collectBundleProtoFiles) leave out every path that contains
the marker. -/
theorem discovery_walks_genfiles :
    skippedDirNames outputWorld ["svc"]
      = ["bazel-bin", "bazel-out", "bazel-testlogs", "bazel-svc"] ∧
    skippedDirNames outputWorld []
      = ["bazel-bin", "bazel-out", "bazel-testlogs", "bazel-repo"] ∧
    discoverProtoTargetsInDirectory outputWorld ["svc", "bazel-genfiles"]
      = ["//svc/bazel-genfiles:gen_proto"] ∧
    "//svc/bazel-genfiles:gen_proto" ∈ discoverProtoTargetsRecursively outputWorld ["svc"] ∧
    "//svc/bazel-bin:copy_proto" ∉ discoverProtoTargetsRecursively outputWorld ["svc"] ∧
    strContains (pathString outputWorld.repoRoot ["svc", "bazel-genfiles", "BUILD.bazel"])
      "bazel-" = true := by
  decide

/-! ## Loading the configuration files -/

/-- The search passes over the directories that have no `lake.yaml`. -/
theorem loadLakeFrom_skip (lib : YamlLib) (skipped rest : List LakeFile)
    (hskipped : ∀ x ∈ skipped, x = LakeFile.absent) :
    loadLakeFrom lib (skipped ++ rest) = loadLakeFrom lib rest := by
  induction skipped with
  | nil => rfl
  | cons x xs ih =>
    have hx : x = LakeFile.absent := hskipped x (List.mem_cons_self _ _)
    subst hx
    rw [List.cons_append, loadLakeFrom]
    exact ih (fun y hy => hskipped y (List.mem_cons_of_mem _ hy))

/-- The search from a directory looks at the directory itself and goes on with
the search from its parent. -/
theorem lakeSearchPath_child (w : World) (above : List LakeFile) (dir : Path)
    (child : String) :
    lakeSearchPath w above (dir ++ [child])
      = lakeFileAt w (dir ++ [child]) :: lakeSearchPath w above dir := by
  unfold lakeSearchPath
  rw [List.inits_append]
  simp [List.inits]

/-- The loader of the lake config never returns a config together with an
error. -/
theorem loadLakeFrom_exclusive (lib : YamlLib) (files : List LakeFile) :
    (loadLakeFrom lib files).1 = none ∨ (loadLakeFrom lib files).2 = none := by
  induction files with
  | nil => exact Or.inl rfl
  | cons f fs ih =>
    cases f with
    | absent => exact ih
    | unreadable => exact Or.inl rfl
    | readable data =>
      rw [loadLakeFrom]
      cases unmarshalLakeConfig lib data with
      | none => exact Or.inl rfl
      | some config => exact Or.inr rfl

/-- The four outcomes of LoadBundleConfig, by the state of bundle.yaml. -/
theorem loadBundleConfig_cases (lib : YamlLib) (w : World) (dir : Path) :
    (w.isNotExist (dir ++ ["bundle.yaml"]) = true ∧
      LoadBundleConfig lib w dir = (none, none)) ∨
    (w.isNotExist (dir ++ ["bundle.yaml"]) = false ∧
      w.readFile (dir ++ ["bundle.yaml"]) = none ∧
      LoadBundleConfig lib w dir = (none, some LoadError.readFailed)) ∨
    (∃ data, w.isNotExist (dir ++ ["bundle.yaml"]) = false ∧
      w.readFile (dir ++ ["bundle.yaml"]) = some data ∧
      unmarshalBundleConfig lib data = none ∧
      LoadBundleConfig lib w dir = (none, some LoadError.unmarshalFailed)) ∨
    (∃ data config, w.isNotExist (dir ++ ["bundle.yaml"]) = false ∧
      w.readFile (dir ++ ["bundle.yaml"]) = some data ∧
      unmarshalBundleConfig lib data = some config ∧ config.Name = "" ∧
      LoadBundleConfig lib w dir = (none, none)) ∨
    (∃ data config, w.isNotExist (dir ++ ["bundle.yaml"]) = false ∧
      w.readFile (dir ++ ["bundle.yaml"]) = some data ∧
      unmarshalBundleConfig lib data = some config ∧ config.Name ≠ "" ∧
      LoadBundleConfig lib w dir = (some config, none)) := by
  cases hstat : w.isNotExist (dir ++ ["bundle.yaml"]) with
  | true => exact Or.inl ⟨rfl, by simp [LoadBundleConfig, hstat]⟩
  | false =>
    cases hread : w.readFile (dir ++ ["bundle.yaml"]) with
    | none => exact Or.inr (Or.inl ⟨rfl, rfl, by simp [LoadBundleConfig, hstat, hread]⟩)
    | some data =>
      cases hun : unmarshalBundleConfig lib data with
      | none =>
        exact Or.inr (Or.inr (Or.inl
          ⟨data, rfl, rfl, hun, by simp [LoadBundleConfig, hstat, hread, hun]⟩))
      | some config =>
        by_cases hname : config.Name = ""
        · exact Or.inr (Or.inr (Or.inr (Or.inl
            ⟨data, config, rfl, rfl, hun, hname,
              by simp [LoadBundleConfig, hstat, hread, hun, hname]⟩)))
        · exact Or.inr (Or.inr (Or.inr (Or.inr
            ⟨data, config, rfl, rfl, hun, hname,
              by simp [LoadBundleConfig, hstat, hread, hun, hname]⟩)))

/-- A document without the key `name` at its top level decodes to a config with
the empty name. -/
theorem decodeBundleConfig_missing_name (lib : YamlLib) (fields : List (String × YamlNode))
    (config : BundleConfig) (hmissing : fields.lookup "name" = none)
    (hdecode : decodeBundleConfig lib (.mapping fields) = some config) :
    config.Name = "" := by
  unfold decodeBundleConfig at hdecode
  simp only [structFields] at hdecode
  split at hdecode
  · rename_i name displayName description bundlePre version section_ hmeta hsection
    simp only [Option.some.injEq] at hdecode
    rw [← hdecode]
    show name = ""
    unfold decodeBundleMetadata at hmeta
    rw [hmissing] at hmeta
    split at hmeta
    · rename_i n1 d1 e1 h1 h2 h3
      split at hmeta
      · simp only [Option.some.injEq, Prod.mk.injEq] at hmeta
        have hn : n1 = "" := by
          have h1' : some "" = some n1 := h1
          exact (Option.some.inj h1').symm
        rw [← hmeta.1, hn]
      · cases hmeta
    · cases hmeta
  · cases hdecode

/-- C25: LoadBundleConfig returns no config and no error when the directory has
no bundle.yaml, and when bundle.yaml is unmarshalled to a config whose name is
empty, which is the case of a document without the key `name`; a config that it
returns has a non-empty name. -/
theorem load_bundle_config_none (lib : YamlLib) (w : World) (dir : Path) :
    (w.isNotExist (dir ++ ["bundle.yaml"]) = true →
      LoadBundleConfig lib w dir = (none, none)) ∧
    (∀ data config, w.stat (dir ++ ["bundle.yaml"]) = true →
      w.readFile (dir ++ ["bundle.yaml"]) = some data →
      unmarshalBundleConfig lib data = some config → config.Name = "" →
      LoadBundleConfig lib w dir = (none, none)) ∧
    (∀ data fields config, w.stat (dir ++ ["bundle.yaml"]) = true →
      w.readFile (dir ++ ["bundle.yaml"]) = some data →
      lib.parse data = some (.mapping fields) → fields.lookup "name" = none →
      decodeBundleConfig lib (.mapping fields) = some config →
      LoadBundleConfig lib w dir = (none, none)) ∧
    (∀ config, (LoadBundleConfig lib w dir).1 = some config → config.Name ≠ "") := by
  have hempty : ∀ data config, w.stat (dir ++ ["bundle.yaml"]) = true →
      w.readFile (dir ++ ["bundle.yaml"]) = some data →
      unmarshalBundleConfig lib data = some config → config.Name = "" →
      LoadBundleConfig lib w dir = (none, none) := by
    intro data config hstat hread hun hname
    simp [LoadBundleConfig, World.isNotExist_of_stat w _ hstat, hread, hun, hname]
  refine ⟨?_, hempty, ?_, ?_⟩
  · intro hstat
    simp [LoadBundleConfig, hstat]
  · intro data fields config hstat hread hparse hmissing hdecode
    refine hempty data config hstat hread ?_
      (decodeBundleConfig_missing_name lib fields config hmissing hdecode)
    unfold unmarshalBundleConfig
    rw [hparse]
    exact hdecode
  · intro config hsome
    rcases loadBundleConfig_cases lib w dir with
      ⟨-, h⟩ | ⟨-, -, h⟩ | ⟨_, -, -, -, h⟩ | ⟨_, _, -, -, -, -, h⟩ | ⟨_, c, -, -, -, hname, h⟩
    all_goals rw [h] at hsome
    all_goals first
      | (cases hsome; done)
      | (cases hsome; exact hname)

/-- Witness of C25: the directory without a bundle.yaml, and the directory whose
bundle.yaml has no name at its top level. -/
theorem load_bundle_config_none_witness :
    LoadBundleConfig testYaml configWorld ["plain"] = (none, none) ∧
    LoadBundleConfig testYaml configWorld ["minimal"] = (none, none) :=
  ⟨(load_bundle_config_none testYaml configWorld ["plain"]).1 (by decide),
    (load_bundle_config_none testYaml configWorld ["minimal"]).2.2.1 minimalBundleText
      [("bundle", .mapping
        [("name", .scalar "minimal-bundle"), ("owner", .scalar "test-team")])]
      { Name := "", DisplayName := "", Description := "", BundlePrefix := "", Version := ""
        Config :=
        { Languages :=
          { Java := { Enabled := none, GroupId := "", ArtifactId := "" }
            Python := { Enabled := none, PackageName := "" }
            Javascript := { Enabled := none, PackageName := "" } } } }
      (by decide) (by decide) rfl rfl (by decide)⟩

/-- C26, evaluated where it fails: the documents of the tests ValidBundleYaml and
MinimalValid give the name under a top-level `bundle` section; the struct has
its `name` at the top level, so the decoded name is empty and LoadBundleConfig
returns no config, while the same name given at the top level is loaded. -/
theorem nested_bundle_section_not_loaded :
    configWorld.readFile ["tests", "bundle.yaml"] = some validBundleText ∧
    (unmarshalBundleConfig testYaml validBundleText).map BundleConfig.Name = some "" ∧
    LoadBundleConfig testYaml configWorld ["tests"] = (none, none) ∧
    LoadBundleConfig testYaml configWorld ["minimal"] = (none, none) ∧
    (LoadBundleConfig testYaml configWorld ["good"]).1.map BundleConfig.Name
      = some "user-service" := by
  decide

/-- C27: LoadLakeConfig searches upward. The search looks at the start directory
and then goes on from its parent; when the nearest directory that holds a
lake.yaml is reached and its text unmarshals to a config, that config is
returned without an error; when no directory up to the root of the file system
holds a lake.yaml, neither a config nor an error is returned. -/
theorem load_lake_config_nearest (lib : YamlLib) (w : World) (above : List LakeFile)
    (startDir : Path) :
    (∀ (dir : Path) (child : String),
      lakeSearchPath w above (dir ++ [child])
        = lakeFileAt w (dir ++ [child]) :: lakeSearchPath w above dir) ∧
    lakeSearchPath w above [] = lakeFileAt w [] :: above ∧
    (∀ (nearer further : List LakeFile) (data : String) (config : LakeConfig),
      lakeSearchPath w above startDir = nearer ++ LakeFile.readable data :: further →
      (∀ x ∈ nearer, x = LakeFile.absent) →
      unmarshalLakeConfig lib data = some config →
      LoadLakeConfig lib w above startDir = (some config, none)) ∧
    ((∀ x ∈ lakeSearchPath w above startDir, x = LakeFile.absent) →
      LoadLakeConfig lib w above startDir = (none, none)) := by
  refine ⟨fun dir child => lakeSearchPath_child w above dir child, rfl, ?_, ?_⟩
  · intro nearer further data config hpath hnearer hun
    unfold LoadLakeConfig
    rw [hpath, loadLakeFrom_skip lib nearer _ hnearer, loadLakeFrom, hun]
  · intro hall
    unfold LoadLakeConfig
    have h := loadLakeFrom_skip lib (lakeSearchPath w above startDir) [] hall
    rw [List.append_nil] at h
    rw [h]
    rfl

/-- Witness of C27: the test DirectoryTraversal, a search from `sub/nested/dir`
that finds the lake.yaml of the repository root, and a search in a tree without
any lake.yaml. -/
theorem load_lake_config_nearest_witness :
    (LoadLakeConfig testYaml configWorld [LakeFile.absent] ["sub", "nested", "dir"]).1.map
        (fun config => config.Config.LanguageDefaults.Java.GroupId)
      = some "com.traversal.proto" ∧
    LoadLakeConfig testYaml outputWorld [LakeFile.absent, LakeFile.absent] ["svc"]
      = (none, none) :=
  ⟨by
      rw [(load_lake_config_nearest testYaml configWorld [LakeFile.absent]
        ["sub", "nested", "dir"]).2.2.1 [LakeFile.absent, LakeFile.absent, LakeFile.absent]
        [LakeFile.absent] traversalLakeText
        { Config :=
          { LanguageDefaults :=
            { Java := { Enabled := true, GroupId := "com.traversal.proto",
                        SourceVersion := "", TargetVersion := "" }
              Python := { Enabled := false, PackageName := "", Version := "" }
              Javascript := { Enabled := false, PackageName := "" } }
            BuildDefaults := { BaseVersion := "" } } }
        (by decide) (by decide) (by decide)]
      rfl,
    (load_lake_config_nearest testYaml outputWorld [LakeFile.absent, LakeFile.absent]
      ["svc"]).2.2.2 (by decide)⟩

/-- C28: both loaders fail with a nil config on a file that is present but
unusable. LoadLakeConfig returns no config and an error when the nearest
lake.yaml cannot be read or its text cannot be unmarshalled; LoadBundleConfig
does so when bundle.yaml is present and cannot be read or unmarshalled; and
neither of them ever returns a config together with an error. -/
theorem loaders_fail_with_nil_config (lib : YamlLib) (w : World) (above : List LakeFile)
    (dir : Path) :
    (∀ (nearer further : List LakeFile),
      lakeSearchPath w above dir = nearer ++ LakeFile.unreadable :: further →
      (∀ x ∈ nearer, x = LakeFile.absent) →
      LoadLakeConfig lib w above dir = (none, some LoadError.readFailed)) ∧
    (∀ (nearer further : List LakeFile) (data : String),
      lakeSearchPath w above dir = nearer ++ LakeFile.readable data :: further →
      (∀ x ∈ nearer, x = LakeFile.absent) →
      unmarshalLakeConfig lib data = none →
      LoadLakeConfig lib w above dir = (none, some LoadError.unmarshalFailed)) ∧
    (w.stat (dir ++ ["bundle.yaml"]) = true → w.readFile (dir ++ ["bundle.yaml"]) = none →
      LoadBundleConfig lib w dir = (none, some LoadError.readFailed)) ∧
    (∀ data, w.stat (dir ++ ["bundle.yaml"]) = true →
      w.readFile (dir ++ ["bundle.yaml"]) = some data →
      unmarshalBundleConfig lib data = none →
      LoadBundleConfig lib w dir = (none, some LoadError.unmarshalFailed)) ∧
    ((LoadLakeConfig lib w above dir).1 = none ∨ (LoadLakeConfig lib w above dir).2 = none) ∧
    ((LoadBundleConfig lib w dir).1 = none ∨ (LoadBundleConfig lib w dir).2 = none) := by
  refine ⟨?_, ?_, ?_, ?_, loadLakeFrom_exclusive lib _, ?_⟩
  · intro nearer further hpath hnearer
    unfold LoadLakeConfig
    rw [hpath, loadLakeFrom_skip lib nearer _ hnearer, loadLakeFrom]
  · intro nearer further data hpath hnearer hun
    unfold LoadLakeConfig
    rw [hpath, loadLakeFrom_skip lib nearer _ hnearer, loadLakeFrom, hun]
  · intro hstat hread
    simp [LoadBundleConfig, World.isNotExist_of_stat w _ hstat, hread]
  · intro data hstat hread hun
    simp [LoadBundleConfig, World.isNotExist_of_stat w _ hstat, hread, hun]
  · rcases loadBundleConfig_cases lib w dir with
      ⟨-, h⟩ | ⟨-, -, h⟩ | ⟨_, -, -, -, h⟩ | ⟨_, _, -, -, -, -, h⟩ | ⟨_, _, -, -, -, -, h⟩
    all_goals rw [h]
    all_goals first
      | exact Or.inl rfl
      | exact Or.inr rfl

/-- Witness of C28: the bundle.yaml that cannot be read and the one with
malformed text, and a lake.yaml above the repository root that cannot be read. -/
theorem loaders_fail_with_nil_config_witness :
    LoadBundleConfig testYaml configWorld ["locked"] = (none, some LoadError.readFailed) ∧
    LoadBundleConfig testYaml configWorld ["broken"]
      = (none, some LoadError.unmarshalFailed) ∧
    LoadLakeConfig testYaml outputWorld [LakeFile.unreadable] ["svc"]
      = (none, some LoadError.readFailed) :=
  ⟨(loaders_fail_with_nil_config testYaml configWorld [] ["locked"]).2.2.1
      (by decide) (by decide),
    (loaders_fail_with_nil_config testYaml configWorld [] ["broken"]).2.2.2.1 malformedText
      (by decide) (by decide) (by decide),
    (loaders_fail_with_nil_config testYaml outputWorld [LakeFile.unreadable] ["svc"]).1
      [LakeFile.absent, LakeFile.absent] [] (by decide) (by decide)⟩

/-- C29 as stated fails: the bundle.yaml of `locked` is present and cannot be
read; LoadBundleConfig returns an error although there is no text that fails
to parse. -/
theorem unreadable_bundle_counterexample :
    configWorld.stat ["locked", "bundle.yaml"] = true ∧
    (LoadBundleConfig testYaml configWorld ["locked"]).2 = some LoadError.readFailed ∧
    ¬ ∃ data, configWorld.readFile ["locked", "bundle.yaml"] = some data ∧
        unmarshalBundleConfig testYaml data = none := by
  refine ⟨by decide, by decide, ?_⟩
  rintro ⟨data, hread, -⟩
  have hnone : configWorld.readFile ["locked", "bundle.yaml"] = none := by decide
  rw [hnone] at hread
  cases hread

/-- C29, amended: for every state of the directory, LoadBundleConfig returns an
error if and only if `os.Stat` does not report bundle.yaml as missing and the
file either cannot be read or has a text that cannot be unmarshalled. The
error is the one of `os.ReadFile` in the first case, which includes the
directory at which `os.Stat` itself fails with an error other than "does not
exist", and the one of `yaml.Unmarshal` in the second; a bundle.yaml that is
reported as missing gives no error. -/
theorem load_bundle_config_error_iff (lib : YamlLib) (w : World) (dir : Path) :
    ((LoadBundleConfig lib w dir).2 ≠ none ↔
      w.isNotExist (dir ++ ["bundle.yaml"]) = false ∧
      (w.readFile (dir ++ ["bundle.yaml"]) = none ∨
        ∃ data, w.readFile (dir ++ ["bundle.yaml"]) = some data ∧
          unmarshalBundleConfig lib data = none)) ∧
    (w.isNotExist (dir ++ ["bundle.yaml"]) = false →
      w.readFile (dir ++ ["bundle.yaml"]) = none →
      LoadBundleConfig lib w dir = (none, some LoadError.readFailed)) ∧
    (w.statResult (dir ++ ["bundle.yaml"]) = StatResult.failed →
      LoadBundleConfig lib w dir = (none, some LoadError.readFailed)) ∧
    (∀ data, w.readFile (dir ++ ["bundle.yaml"]) = some data →
      unmarshalBundleConfig lib data = none →
      LoadBundleConfig lib w dir = (none, some LoadError.unmarshalFailed)) ∧
    (w.isNotExist (dir ++ ["bundle.yaml"]) = true →
      LoadBundleConfig lib w dir = (none, none)) := by
  have hread : w.isNotExist (dir ++ ["bundle.yaml"]) = false →
      w.readFile (dir ++ ["bundle.yaml"]) = none →
      LoadBundleConfig lib w dir = (none, some LoadError.readFailed) := by
    intro hs hr
    simp [LoadBundleConfig, hs, hr]
  refine ⟨?_, hread, ?_, ?_, ?_⟩
  · rcases loadBundleConfig_cases lib w dir with
      ⟨hs, h⟩ | ⟨hs, hr, h⟩ | ⟨data, hs, hr, hu, h⟩ | ⟨data, c, hs, hr, hu, -, h⟩ |
        ⟨data, c, hs, hr, hu, -, h⟩
    · rw [h, hs]; simp
    · rw [h, hs, hr]; simp
    · rw [h, hs, hr]; simp [hu]
    · rw [h, hs, hr]; simp [hu]
    · rw [h, hs, hr]; simp [hu]
  · intro hfailed
    have hstat : w.stat (dir ++ ["bundle.yaml"]) = false := by
      unfold World.stat
      rw [hfailed]
      rfl
    have hne : w.isNotExist (dir ++ ["bundle.yaml"]) = false := by
      unfold World.isNotExist
      rw [hfailed]
      rfl
    exact hread hne (World.readFile_of_not_stat w _ hstat)
  · intro data hr hu
    have hs := World.isNotExist_of_stat w _ (World.stat_of_readFile w _ data hr)
    simp [LoadBundleConfig, hs, hr, hu]
  · intro hs
    simp [LoadBundleConfig, hs]

/-- Witness of C29 amended: the unreadable bundle.yaml gives an error, and so
does the bundle.yaml of a directory that may not be searched, at which
`os.Stat` fails with an error other than "does not exist". -/
theorem load_bundle_config_error_iff_witness :
    (LoadBundleConfig testYaml configWorld ["locked"]).2 ≠ none ∧
    deniedWorld.statResult ["vault", "bundle.yaml"] = StatResult.failed ∧
    LoadBundleConfig testYaml deniedWorld ["vault"] = (none, some LoadError.readFailed) ∧
    LoadBundleConfig testYaml deniedWorld ["absent"] = (none, none) :=
  ⟨(load_bundle_config_error_iff testYaml configWorld ["locked"]).1.2
      ⟨by decide, Or.inl (by decide)⟩,
    by decide,
    (load_bundle_config_error_iff testYaml deniedWorld ["vault"]).2.2.1 (by decide),
    (load_bundle_config_error_iff testYaml deniedWorld ["absent"]).2.2.2.2 (by decide)⟩

/-! ## The extension: GenerateRules and Configure -/

/-- When LoadBundleConfig returns no config, GenerateRules returns the empty
result. -/
theorem generateRules_of_no_bundle (lib : YamlLib) (w : World) (above : List LakeFile)
    (iteration : MapOrder) (c : GazelleConfig) (dir : Path)
    (h : (LoadBundleConfig lib w dir).1 = none) :
    GenerateRules lib w above iteration c dir = emptyResult := by
  unfold GenerateRules
  simp only
  split
  · rfl
  · split
    · rfl
    · split
      · rfl
      · split
        · rfl
        · rfl
        · rename_i hb
          rw [hb] at h
          cases h

/-- C24: GenerateRules returns the empty result, with no rules and no imports,
whenever the extension is disabled for the run, the directory has no
bundle.yaml, LoadLakeConfig or LoadBundleConfig returns an error, or the
bundle.yaml unmarshals to a config whose name is missing or empty. -/
theorem generate_rules_empty (lib : YamlLib) (w : World) (above : List LakeFile)
    (iteration : MapOrder) (c : GazelleConfig) (dir : Path) :
    emptyResult = { Gen := [], Imports := [] } ∧
    ((getProtolakeConfig c).1.enabled = false →
      GenerateRules lib w above iteration c dir = emptyResult) ∧
    (w.stat (dir ++ ["bundle.yaml"]) = false →
      GenerateRules lib w above iteration c dir = emptyResult) ∧
    ((LoadLakeConfig lib w above dir).2 ≠ none →
      GenerateRules lib w above iteration c dir = emptyResult) ∧
    ((LoadBundleConfig lib w dir).2 ≠ none →
      GenerateRules lib w above iteration c dir = emptyResult) ∧
    (∀ data config, w.readFile (dir ++ ["bundle.yaml"]) = some data →
      unmarshalBundleConfig lib data = some config → config.Name = "" →
      GenerateRules lib w above iteration c dir = emptyResult) := by
  refine ⟨rfl, ?_, ?_, ?_, ?_, ?_⟩
  · intro hdis
    unfold GenerateRules
    simp [hdis]
  · intro hstat
    apply generateRules_of_no_bundle
    cases hne : w.isNotExist (dir ++ ["bundle.yaml"]) with
    | true => simp [LoadBundleConfig, hne]
    | false => simp [LoadBundleConfig, hne, World.readFile_of_not_stat w _ hstat]
  · intro herr
    unfold GenerateRules
    simp only
    split
    · rfl
    · split
      · rfl
      · split
        · rfl
        · rename_i hl
          rw [hl] at herr
          exact absurd rfl herr
  · intro herr
    apply generateRules_of_no_bundle
    rcases loadBundleConfig_cases lib w dir with
      ⟨-, h⟩ | ⟨-, -, h⟩ | ⟨_, -, -, -, h⟩ | ⟨_, _, -, -, -, -, h⟩ | ⟨_, _, -, -, -, -, h⟩
    all_goals first
      | (rw [h]; done)
      | (rw [h] at herr; exact absurd rfl herr)
  · intro data config hread hun hname
    apply generateRules_of_no_bundle
    rcases loadBundleConfig_cases lib w dir with
      ⟨-, h⟩ | ⟨-, -, h⟩ | ⟨_, -, -, -, h⟩ | ⟨_, _, -, -, -, -, h⟩ | ⟨d, c2, -, hr, hu, hn, h⟩
    · rw [h]
    · rw [h]
    · rw [h]
    · rw [h]
    · rw [hread] at hr
      cases hr
      rw [hun] at hu
      cases hu
      exact absurd hname hn

/-- Witness of C24: in the sample repository the directory without a
bundle.yaml, the one with a bundle.yaml that cannot be read and the one whose
document has no name at its top level all give the empty result, and so does
every directory when the extension is disabled. -/
theorem generate_rules_empty_witness :
    GenerateRules testYaml configWorld [] insertionOrder enabledConfig ["plain"]
      = emptyResult ∧
    GenerateRules testYaml configWorld [] insertionOrder enabledConfig ["locked"]
      = emptyResult ∧
    GenerateRules testYaml configWorld [] insertionOrder enabledConfig ["minimal"]
      = emptyResult ∧
    GenerateRules testYaml configWorld [] insertionOrder
      { Exts := some { enabled := false } } ["good"] = emptyResult ∧
    (GenerateRules testYaml configWorld [] insertionOrder enabledConfig ["good"]).Gen.length
      = 6 :=
  ⟨(generate_rules_empty testYaml configWorld [] insertionOrder enabledConfig ["plain"]).2.2.1
      (by decide),
    (generate_rules_empty testYaml configWorld [] insertionOrder enabledConfig
      ["locked"]).2.2.2.2.1 (by decide),
    (generate_rules_empty testYaml configWorld [] insertionOrder enabledConfig
      ["minimal"]).2.2.2.2.2 minimalBundleText
      { Name := "", DisplayName := "", Description := "", BundlePrefix := "", Version := ""
        Config :=
        { Languages :=
          { Java := { Enabled := none, GroupId := "", ArtifactId := "" }
            Python := { Enabled := none, PackageName := "" }
            Javascript := { Enabled := none, PackageName := "" } } } }
      (by decide) (by decide) rfl,
    (generate_rules_empty testYaml configWorld [] insertionOrder
      { Exts := some { enabled := false } } ["good"]).2.1 rfl,
    by decide⟩

/-- The flag after the loop of Configure over a list of directives. -/
theorem foldl_applyDirective (pc : ProtolakeConfig) (directives : List Directive) :
    directives.foldl applyDirective { Exts := some pc }
      = { Exts := some
            { enabled :=
                match (directives.filter (fun d => d.Key == "protolake")).getLast? with
                | some d => d.Value == "true"
                | none => pc.enabled } } := by
  induction directives generalizing pc with
  | nil => rfl
  | cons d ds ih =>
    rw [List.foldl_cons]
    by_cases hk : (d.Key == "protolake") = true
    · have hstep : applyDirective { Exts := some pc } d
          = { Exts := some { enabled := d.Value == "true" } } := by
        simp [applyDirective, hk]
      have hf : List.filter (fun d => d.Key == "protolake") (d :: ds)
          = d :: List.filter (fun d => d.Key == "protolake") ds := by
        simp [List.filter_cons, hk]
      rw [hstep, ih, hf]
      cases hl : List.filter (fun d => d.Key == "protolake") ds with
      | nil => rfl
      | cons x xs =>
        rw [List.getLast?_cons_cons, List.getLast?_eq_getLast _ (List.cons_ne_nil x xs)]
    · have hstep : applyDirective { Exts := some pc } d = { Exts := some pc } := by
        simp [applyDirective, hk]
      have hf : List.filter (fun d => d.Key == "protolake") (d :: ds)
          = List.filter (fun d => d.Key == "protolake") ds := by
        simp [List.filter_cons, hk]
      rw [hstep, ih, hf]

/-- C30: Configure applies the protolake directive. For the registered config
of the extension and every build file, the enabled flag after Configure equals
(value == "true") for the last directive with key `protolake` of the file, and
is unchanged when the file has no such directive; with a nil file the config is
unchanged; and when no config of the extension is registered, Configure changes
nothing. -/
theorem configure_applies_directive (pc : ProtolakeConfig) (f : BuildFile) :
    Configure { Exts := some pc } (some f)
      = { Exts := some
            { enabled :=
                match (f.Directives.filter (fun d => d.Key == "protolake")).getLast? with
                | some d => d.Value == "true"
                | none => pc.enabled } } ∧
    ((∀ d ∈ f.Directives, d.Key ≠ "protolake") →
      Configure { Exts := some pc } (some f) = { Exts := some pc }) ∧
    (∀ c : GazelleConfig, Configure c none = c) ∧
    Configure { Exts := none } (some f) = { Exts := none } := by
  have hmain := foldl_applyDirective pc f.Directives
  refine ⟨hmain, ?_, fun c => rfl, ?_⟩
  · intro hno
    show List.foldl applyDirective { Exts := some pc } f.Directives = _
    rw [hmain]
    have hfilter : f.Directives.filter (fun d => d.Key == "protolake") = [] := by
      rw [List.filter_eq_nil_iff]
      intro d hd
      simpa using hno d hd
    rw [hfilter]
    rfl
  · show List.foldl applyDirective { Exts := none } f.Directives = _
    induction f.Directives with
    | nil => rfl
    | cons d ds ih =>
      rw [List.foldl_cons]
      have hstep : applyDirective { Exts := none } d = { Exts := none } := by
        unfold applyDirective
        split <;> rfl
      rw [hstep]
      exact ih

/-- Witness of C30: the test TestConfigure: the value `false` disables, then the
value `true` enables again; and of two directives the last one decides. -/
theorem configure_applies_directive_witness :
    Configure enabledConfig (some { Directives := [{ Key := "protolake", Value := "false" }] })
      = { Exts := some { enabled := false } } ∧
    Configure { Exts := some { enabled := false } }
        (some { Directives := [{ Key := "protolake", Value := "true" }] })
      = { Exts := some { enabled := true } } ∧
    Configure enabledConfig
        (some { Directives := [{ Key := "protolake", Value := "true" },
                               { Key := "other", Value := "x" },
                               { Key := "protolake", Value := "false" }] })
      = { Exts := some { enabled := false } } :=
  ⟨(configure_applies_directive { enabled := true }
      { Directives := [{ Key := "protolake", Value := "false" }] }).1,
    (configure_applies_directive { enabled := false }
      { Directives := [{ Key := "protolake", Value := "true" }] }).1,
    (configure_applies_directive { enabled := true }
      { Directives := [{ Key := "protolake", Value := "true" },
                       { Key := "other", Value := "x" },
                       { Key := "protolake", Value := "false" }] }).1⟩

/-! ## Kinds, load statements and required attributes -/

/-- The kinds of the rules returned by generateBundleRules, in order. -/
theorem generateBundleRules_kinds (cfg : MergedConfig) (T D : List String) :
    (generateBundleRules cfg T D).map Rule.kind =
      ["proto_library"]
      ++ (if javaGenerated cfg then
            ["java_grpc_library", "java_proto_bundle", "genrule", "alias"] else [])
      ++ (if pythonGenerated cfg then
            ["python_grpc_library", "py_proto_bundle", "genrule", "alias"] else [])
      ++ (if javaScriptGenerated cfg then
            ["js_grpc_library", "js_grpc_web_library", "js_proto_bundle", "genrule", "alias"]
          else [])
      ++ (if validationTargets cfg = [] then [] else ["build_validation"]) := by
  rw [generateBundleRules_eq]
  simp only [List.map_append, apply_ite (List.map Rule.kind), java_rule_kinds,
    python_rule_kinds, javascript_rule_kinds, List.map_nil, List.map_cons, aggregateRule,
    validationRule]

/-- C31, evaluated where it fails: in the Java scenario the first rule returned
by generateBundleRules has kind proto_library, which is neither genrule nor
alias nor a symbol of any load statement of Loads(). -/
theorem aggregate_kind_counterexample :
    (generateBundleRules javaOnlyMerged [":user_proto"] [":user_proto"]).map Rule.kind
      = ["proto_library", "java_grpc_library", "java_proto_bundle", "genrule", "alias",
          "build_validation"] ∧
    "proto_library" ∉ builtinKinds ∧ "proto_library" ∉ loadedSymbols ∧
    (∀ l ∈ Loads, "proto_library" ∉ l.Symbols) ∧
    ¬ (∀ r ∈ generateBundleRules javaOnlyMerged [":user_proto"] [":user_proto"],
        r.kind ∈ builtinKinds ∨ r.kind ∈ loadedSymbols) := by
  decide

/-- C31, amended: for every merged config and target lists, the kind of every
rule returned by generateBundleRules is proto_library (the aggregate rule, and
no other rule, has this kind, and Loads() lists no symbol for it), a Bazel
builtin (genrule, alias) or a symbol of one of the load statements of Loads();
and every kind of KindInfo() is a symbol of the entry of Loads() for the module
`//tools:proto_bundle.bzl`. -/
theorem emitted_kinds_declared (cfg : MergedConfig) (T D : List String) :
    (∀ r ∈ generateBundleRules cfg T D,
      (r.kind = "proto_library" ∧ r = aggregateRule cfg T) ∨
      (r ≠ aggregateRule cfg T ∧ (r.kind ∈ builtinKinds ∨ r.kind ∈ loadedSymbols))) ∧
    (∀ e ∈ KindInfo, e.1 ∈ symbolsOf "//tools:proto_bundle.bzl") ∧
    (∀ e ∈ Kinds, e.1 ∈ symbolsOf "//tools:proto_bundle.bzl") := by
  refine ⟨?_, by decide, by decide⟩
  intro r hr
  rw [mem_generateBundleRules_iff] at hr
  have hlang : ∀ (l : List Rule), r ∈ l →
      (∀ k ∈ l.map Rule.kind, k ≠ "proto_library" ∧ (k ∈ builtinKinds ∨ k ∈ loadedSymbols)) →
      r ≠ aggregateRule cfg T ∧ (r.kind ∈ builtinKinds ∨ r.kind ∈ loadedSymbols) := by
    intro l hl hk
    have h := hk r.kind (List.mem_map_of_mem Rule.kind hl)
    refine ⟨?_, h.2⟩
    intro heq
    apply h.1
    rw [heq]
    rfl
  rcases hr with rfl | ⟨-, hr⟩ | ⟨-, hr⟩ | ⟨-, hr⟩ | ⟨-, rfl⟩
  · exact Or.inl ⟨rfl, rfl⟩
  · exact Or.inr (hlang _ hr (by rw [java_rule_kinds]; decide))
  · exact Or.inr (hlang _ hr (by rw [python_rule_kinds]; decide))
  · exact Or.inr (hlang _ hr (by rw [javascript_rule_kinds]; decide))
  · refine Or.inr ⟨?_, Or.inr (by show "build_validation" ∈ loadedSymbols; decide)⟩
    intro heq
    have := congrArg Rule.kind heq
    simp [validationRule, aggregateRule] at this

/-- Witness of C31, amended: the Java bundle rule of the scenario is emitted, is
not the aggregate rule, and its kind is a symbol of a load statement. -/
theorem emitted_kinds_declared_witness :
    scenarioJavaBundleRule ∈ generateBundleRules javaOnlyMerged [":user_proto"] [":user_proto"]
    ∧ ((scenarioJavaBundleRule.kind = "proto_library" ∧
          scenarioJavaBundleRule = aggregateRule javaOnlyMerged [":user_proto"]) ∨
       (scenarioJavaBundleRule ≠ aggregateRule javaOnlyMerged [":user_proto"] ∧
          (scenarioJavaBundleRule.kind ∈ builtinKinds ∨
            scenarioJavaBundleRule.kind ∈ loadedSymbols))) :=
  ⟨by decide,
    (emitted_kinds_declared javaOnlyMerged [":user_proto"] [":user_proto"]).1
      scenarioJavaBundleRule (by decide)⟩

/-! ## Order, count and names of the generated rules -/

/-- The kinds and names of the rules of the Java generator. -/
theorem java_rule_heads (cfg : MergedConfig) (b : String) (D : List String) :
    (generateJavaBundleRules cfg b D).map (fun r => (r.kind, r.name))
      = [("java_grpc_library", b ++ "_java_grpc"), ("java_proto_bundle", b ++ "_java_bundle"),
          ("genrule", "publish_" ++ b ++ "_to_maven"), ("alias", "publish_to_maven")] := rfl

/-- The kinds and names of the rules of the Python generator. -/
theorem python_rule_heads (cfg : MergedConfig) (b : String) (D : List String) :
    (generatePythonBundleRules cfg b D).map (fun r => (r.kind, r.name))
      = [("python_grpc_library", b ++ "_python_grpc"), ("py_proto_bundle", b ++ "_py_bundle"),
          ("genrule", "publish_" ++ b ++ "_to_pypi"), ("alias", "publish_to_pypi")] := rfl

/-- The kinds and names of the rules of the JavaScript generator. -/
theorem javascript_rule_heads (cfg : MergedConfig) (b : String) (D : List String) :
    (generateJavaScriptBundleRules cfg b D).map (fun r => (r.kind, r.name))
      = [("js_grpc_library", b ++ "_js_grpc_node"), ("js_grpc_web_library", b ++ "_js_grpc_web"),
          ("js_proto_bundle", b ++ "_js_bundle"), ("genrule", "publish_" ++ b ++ "_to_npm"),
          ("alias", "publish_to_npm")] := rfl

/-- The list of test targets is empty exactly when no language is enabled, in
terms of the flag anyEnabled. -/
theorem validationTargets_eq_nil_iff_anyEnabled (cfg : MergedConfig) :
    validationTargets cfg = [] ↔ anyEnabled cfg = false := by
  rw [validationTargets_eq_nil_iff]
  unfold anyEnabled
  cases cfg.JavaConfig.Enabled <;> cases cfg.PythonConfig.Enabled <;>
    cases cfg.JavaScriptConfig.Enabled <;> simp

/-- C32: for every merged config, generateBundleRules returns the aggregate rule
first, then the rules of each generated language in the fixed order Java,
Python, JavaScript (within a language: stub rule or rules, bundle rule, publish
genrule, alias), then the validation rule if some language is enabled; the
length of the list is 1 + 4·[Java generated] + 4·[Python generated] +
5·[JavaScript generated] + [some language enabled], where a language is
generated iff it is enabled and its identity fields are non-empty. -/
theorem rule_order_and_count (cfg : MergedConfig) (T D : List String) :
    generateBundleRules cfg T D =
      [aggregateRule cfg T]
      ++ (if javaGenerated cfg then generateJavaBundleRules cfg cfg.BundleName D else [])
      ++ (if pythonGenerated cfg then generatePythonBundleRules cfg cfg.BundleName D else [])
      ++ (if javaScriptGenerated cfg then
            generateJavaScriptBundleRules cfg cfg.BundleName D else [])
      ++ (if anyEnabled cfg then [validationRule cfg] else []) ∧
    (generateBundleRules cfg T D).map (fun r => (r.kind, r.name)) =
      [("proto_library", cfg.BundleName ++ "_all_protos")]
      ++ (if javaGenerated cfg then
            [("java_grpc_library", cfg.BundleName ++ "_java_grpc"),
             ("java_proto_bundle", cfg.BundleName ++ "_java_bundle"),
             ("genrule", "publish_" ++ cfg.BundleName ++ "_to_maven"),
             ("alias", "publish_to_maven")] else [])
      ++ (if pythonGenerated cfg then
            [("python_grpc_library", cfg.BundleName ++ "_python_grpc"),
             ("py_proto_bundle", cfg.BundleName ++ "_py_bundle"),
             ("genrule", "publish_" ++ cfg.BundleName ++ "_to_pypi"),
             ("alias", "publish_to_pypi")] else [])
      ++ (if javaScriptGenerated cfg then
            [("js_grpc_library", cfg.BundleName ++ "_js_grpc_node"),
             ("js_grpc_web_library", cfg.BundleName ++ "_js_grpc_web"),
             ("js_proto_bundle", cfg.BundleName ++ "_js_bundle"),
             ("genrule", "publish_" ++ cfg.BundleName ++ "_to_npm"),
             ("alias", "publish_to_npm")] else [])
      ++ (if anyEnabled cfg then [("build_validation", "all")] else []) ∧
    (generateBundleRules cfg T D).length =
      1 + 4 * (if javaGenerated cfg then 1 else 0) + 4 * (if pythonGenerated cfg then 1 else 0)
        + 5 * (if javaScriptGenerated cfg then 1 else 0) + (if anyEnabled cfg then 1 else 0) ∧
    (javaGenerated cfg = true ↔
      cfg.JavaConfig.Enabled = true ∧ cfg.JavaConfig.GroupId ≠ "" ∧
        cfg.JavaConfig.ArtifactId ≠ "") ∧
    (pythonGenerated cfg = true ↔
      cfg.PythonConfig.Enabled = true ∧ cfg.PythonConfig.PackageName ≠ "") ∧
    (javaScriptGenerated cfg = true ↔
      cfg.JavaScriptConfig.Enabled = true ∧ cfg.JavaScriptConfig.PackageName ≠ "") ∧
    (anyEnabled cfg = true ↔
      cfg.JavaConfig.Enabled = true ∨ cfg.PythonConfig.Enabled = true ∨
        cfg.JavaScriptConfig.Enabled = true) := by
  have hv := validationTargets_eq_nil_iff_anyEnabled cfg
  have heq : generateBundleRules cfg T D =
      [aggregateRule cfg T]
      ++ (if javaGenerated cfg then generateJavaBundleRules cfg cfg.BundleName D else [])
      ++ (if pythonGenerated cfg then generatePythonBundleRules cfg cfg.BundleName D else [])
      ++ (if javaScriptGenerated cfg then
            generateJavaScriptBundleRules cfg cfg.BundleName D else [])
      ++ (if anyEnabled cfg then [validationRule cfg] else []) := by
    rw [generateBundleRules_eq]
    by_cases h : anyEnabled cfg = true
    · have : validationTargets cfg ≠ [] := by rw [Ne, hv]; simp [h]
      simp [h, this]
    · have : validationTargets cfg = [] := by rw [hv]; simpa using h
      simp [h, this]
  refine ⟨heq, ?_, ?_, ?_, ?_, ?_, ?_⟩
  · rw [heq]
    simp only [List.map_append, apply_ite (List.map (fun r : Rule => (r.kind, r.name))),
      java_rule_heads, python_rule_heads, javascript_rule_heads, List.map_nil, List.map_cons,
      aggregateRule, validationRule]
  · rw [heq]
    cases javaGenerated cfg <;> cases pythonGenerated cfg <;>
      cases javaScriptGenerated cfg <;> cases anyEnabled cfg <;> rfl
  · simp [javaGenerated, and_assoc]
  · simp [pythonGenerated]
  · simp [javaScriptGenerated]
  · simp [anyEnabled, or_assoc]

/-- Witness of C32: the lake defaults enable all three languages and the bundle
names no artifact id, so Java is enabled but not generated: one aggregate rule,
four Python rules, five JavaScript rules and the validation rule. -/
theorem rule_order_and_count_witness :
    javaGenerated acmeMerged = false ∧ pythonGenerated acmeMerged = true ∧
    javaScriptGenerated acmeMerged = true ∧ anyEnabled acmeMerged = true ∧
    (generateBundleRules acmeMerged [":user_proto"] [":user_proto"]).length = 11 ∧
    (generateBundleRules acmeMerged [":user_proto"] [":user_proto"]).map Rule.kind
      = ["proto_library", "python_grpc_library", "py_proto_bundle", "genrule", "alias",
          "js_grpc_library", "js_grpc_web_library", "js_proto_bundle", "genrule", "alias",
          "build_validation"] :=
  ⟨by decide, by decide, by decide, by decide,
    (rule_order_and_count acmeMerged [":user_proto"] [":user_proto"]).2.2.1.trans
      (by decide),
    by decide⟩

/-- C33: the list returned by collectBundleTransitiveDependencies has unique
entries and holds every direct target, for every list of direct targets (also
one that names a target more than once), every repository and every iteration
order of the map; the same holds of the loop over any index and any list of
bundle proto files. -/
theorem collected_targets_unique (w : World) (iteration : MapOrder) (bundleDir : Path)
    (directTargets : List String) :
    (collectBundleTransitiveDependencies w iteration bundleDir directTargets).Nodup ∧
    (∀ t ∈ directTargets,
      t ∈ collectBundleTransitiveDependencies w iteration bundleDir directTargets) ∧
    (∀ (index : List (String × String)) (files : List FsEntry),
      (iteration.order
        (files.foldl (fun deps f => collectImportsFromProtoFile f index deps)
          (directTargets.foldl addTarget []))).Nodup ∧
      ∀ t ∈ directTargets,
        t ∈ iteration.order
          (files.foldl (fun deps f => collectImportsFromProtoFile f index deps)
            (directTargets.foldl addTarget []))) := by
  refine ⟨nodup_collectBundleTransitiveDependencies w iteration bundleDir directTargets, ?_, ?_⟩
  · intro t ht
    rw [mem_collectBundleTransitiveDependencies]
    exact Or.inl ht
  · intro index files
    refine ⟨?_, ?_⟩
    · rw [(iteration.isPerm _).nodup_iff]
      exact nodup_foldl_collectImports _ _ _ (nodup_foldl_addTarget _ _ List.nodup_nil)
    · intro t ht
      rw [(iteration.isPerm _).mem_iff, mem_foldl_collectImports, mem_foldl_addTarget]
      exact Or.inl (Or.inr ht)

/-- Witness of C33: the direct target of the sample bundle is given twice; the
result names it once, next to the target collected through the imports. -/
theorem collected_targets_unique_witness :
    collectBundleTransitiveDependencies sampleWorld insertionOrder ["services", "user"]
        ["//services/user:user_proto", "//services/user:user_proto"]
      = ["//services/user:user_proto", "//common:money_proto"] ∧
    "//services/user:user_proto" ∈ collectBundleTransitiveDependencies sampleWorld
      insertionOrder ["services", "user"]
      ["//services/user:user_proto", "//services/user:user_proto"] :=
  ⟨by decide,
    (collected_targets_unique sampleWorld insertionOrder ["services", "user"]
      ["//services/user:user_proto", "//services/user:user_proto"]).2.1
      "//services/user:user_proto" (by decide)⟩

/-! ## Required attributes, and the origin of the Java artifact id -/

/-- C34: every rule emitted by generateBundleRules satisfies the requirements
that KindInfo() declares for its kind in NonEmptyAttrs: each java_proto_bundle
has non-empty group_id, artifact_id, proto_deps, java_deps and java_grpc_deps;
each py_proto_bundle has non-empty package_name, proto_deps, py_deps and
py_grpc_deps; each js_proto_bundle has non-empty package_name, proto_deps,
js_deps and js_grpc_web_deps; each build_validation has a non-empty targets
list. -/
theorem emitted_rules_non_empty_attrs (cfg : MergedConfig) (T D : List String) :
    nonEmptyAttrsOf "java_proto_bundle"
      = ["group_id", "artifact_id", "proto_deps", "java_deps", "java_grpc_deps"] ∧
    nonEmptyAttrsOf "py_proto_bundle"
      = ["package_name", "proto_deps", "py_deps", "py_grpc_deps"] ∧
    nonEmptyAttrsOf "js_proto_bundle"
      = ["package_name", "proto_deps", "js_deps", "js_grpc_web_deps"] ∧
    nonEmptyAttrsOf "build_validation" = ["targets"] ∧
    (∀ r ∈ generateBundleRules cfg T D, r.hasNonEmptyAttrs = true) ∧
    (∀ r ∈ generateBundleRules cfg T D, ∀ key ∈ nonEmptyAttrsOf r.kind,
      ∃ v, r.Attr key = some v ∧ v.nonEmpty = true) := by
  have hall : ∀ r ∈ generateBundleRules cfg T D, r.hasNonEmptyAttrs = true := by
    intro r hr
    rw [mem_generateBundleRules_iff] at hr
    rcases hr with rfl | ⟨hg, hr⟩ | ⟨hg, hr⟩ | ⟨hg, hr⟩ | ⟨hv, rfl⟩
    · rfl
    · simp only [javaGenerated, Bool.and_eq_true, bne_iff_ne, ne_eq] at hg
      simp only [generateJavaBundleRules, NewRule, Rule.SetAttr] at hr
      simp at hr
      rcases hr with rfl | rfl | rfl | rfl
      · rfl
      · simp [Rule.hasNonEmptyAttrs, nonEmptyAttrsOf, KindInfo, List.lookup, Rule.Attr,
          AttrValue.nonEmpty, hg.1.2, hg.2]
      · rfl
      · rfl
    · simp only [pythonGenerated, Bool.and_eq_true, bne_iff_ne, ne_eq] at hg
      simp only [generatePythonBundleRules, NewRule, Rule.SetAttr] at hr
      simp at hr
      rcases hr with rfl | rfl | rfl | rfl
      · rfl
      · simp [Rule.hasNonEmptyAttrs, nonEmptyAttrsOf, KindInfo, List.lookup, Rule.Attr,
          AttrValue.nonEmpty, hg.2]
      · rfl
      · rfl
    · simp only [javaScriptGenerated, Bool.and_eq_true, bne_iff_ne, ne_eq] at hg
      simp only [generateJavaScriptBundleRules, NewRule, Rule.SetAttr] at hr
      simp at hr
      rcases hr with rfl | rfl | rfl | rfl | rfl
      · rfl
      · rfl
      · simp [Rule.hasNonEmptyAttrs, nonEmptyAttrsOf, KindInfo, List.lookup, Rule.Attr,
          AttrValue.nonEmpty, hg.2]
      · rfl
      · rfl
    · simp [Rule.hasNonEmptyAttrs, nonEmptyAttrsOf, KindInfo, List.lookup, Rule.Attr,
        AttrValue.nonEmpty, validationRule, hv]
  refine ⟨by decide, by decide, by decide, by decide, hall, ?_⟩
  intro r hr key hkey
  have h := hall r hr
  unfold Rule.hasNonEmptyAttrs at h
  rw [List.all_eq_true] at h
  have hk := h key hkey
  cases hattr : r.Attr key with
  | none => rw [hattr] at hk; cases hk
  | some v =>
    rw [hattr] at hk
    exact ⟨v, rfl, hk⟩

/-- Witness of C34: the Java bundle rule of the scenario is emitted and its
group_id is a non-empty string. -/
theorem emitted_rules_non_empty_attrs_witness :
    scenarioJavaBundleRule ∈ generateBundleRules javaOnlyMerged [":user_proto"] [":user_proto"]
    ∧ "group_id" ∈ nonEmptyAttrsOf scenarioJavaBundleRule.kind
    ∧ ∃ v, scenarioJavaBundleRule.Attr "group_id" = some v ∧ v.nonEmpty = true :=
  ⟨by decide, by decide,
    (emitted_rules_non_empty_attrs javaOnlyMerged [":user_proto"] [":user_proto"]).2.2.2.2.2
      scenarioJavaBundleRule (by decide) "group_id" (by decide)⟩

/-- C36: the Java artifact id comes only from the bundle: for every lake config
(or none) and every bundle config, the merged Java artifact id equals the
artifact_id of the bundle; so for a bundle whose artifact_id is empty
generateBundleRules emits no Java stub, bundle, publish or alias rule, also
when the lake default enables Java and supplies a group id. -/
theorem artifact_id_only_from_bundle (lakeConfig : Option LakeConfig)
    (bundleConfig : BundleConfig) (T D : List String) :
    (MergeConfigurations lakeConfig bundleConfig).JavaConfig.ArtifactId
      = bundleConfig.Config.Languages.Java.ArtifactId ∧
    (bundleConfig.Config.Languages.Java.ArtifactId = "" →
      javaGenerated (MergeConfigurations lakeConfig bundleConfig) = false ∧
      (∀ r ∈ generateBundleRules (MergeConfigurations lakeConfig bundleConfig) T D,
        isJavaRule bundleConfig.Name r = false ∧
        r.kind ≠ "java_grpc_library" ∧ r.kind ≠ "java_proto_bundle" ∧
        ¬ (r.kind = "genrule" ∧ r.name = "publish_" ++ bundleConfig.Name ++ "_to_maven") ∧
        ¬ (r.kind = "alias" ∧ r.name = "publish_to_maven"))) := by
  have hid : (MergeConfigurations lakeConfig bundleConfig).JavaConfig.ArtifactId
      = bundleConfig.Config.Languages.Java.ArtifactId := by
    rcases bundleConfig with ⟨n, dn, de, bp, v, ⟨⟨⟨je, jg, ja⟩, py, js⟩⟩⟩
    cases lakeConfig <;> cases je <;> by_cases hg : jg = "" <;> by_cases ha : ja = "" <;>
      simp [MergeConfigurations, applyLakeDefaults, mergedInit, overrideJava, hg, ha]
  have hname : (MergeConfigurations lakeConfig bundleConfig).BundleName = bundleConfig.Name := by
    cases lakeConfig <;> rfl
  refine ⟨hid, ?_⟩
  intro hempty
  have hgen : javaGenerated (MergeConfigurations lakeConfig bundleConfig) = false := by
    simp [javaGenerated, hid, hempty]
  refine ⟨hgen, ?_⟩
  intro r hr
  rw [mem_generateBundleRules_iff, hname] at hr
  have hav := aggregate_validation_classified (MergeConfigurations lakeConfig bundleConfig) T
    bundleConfig.Name
  have hfalse : isJavaRule bundleConfig.Name r = false := by
    rcases hr with rfl | ⟨hj, -⟩ | ⟨-, hr⟩ | ⟨-, hr⟩ | ⟨-, rfl⟩
    · exact hav.1.1
    · rw [hgen] at hj; cases hj
    · exact (python_rules_classified _ _ D r hr).1
    · exact (javascript_rules_classified _ _ D r hr).1
    · exact hav.2.1
  refine ⟨hfalse, ?_⟩
  simpa [isJavaRule, and_assoc] using hfalse

/-- Witness of C36: the lake default enables Java and supplies a group id, the
bundle names no artifact id; the merged artifact id is empty and the rule
`publish_to_maven` is not among the rules. -/
theorem artifact_id_only_from_bundle_witness :
    acmeLake.Config.LanguageDefaults.Java.Enabled = true ∧
    acmeLake.Config.LanguageDefaults.Java.GroupId = "com.acme.proto" ∧
    plainBundle.Config.Languages.Java.ArtifactId = "" ∧
    javaGenerated (MergeConfigurations (some acmeLake) plainBundle) = false ∧
    (∀ r ∈ generateBundleRules (MergeConfigurations (some acmeLake) plainBundle)
        [":user_proto"] [":user_proto"],
      isJavaRule plainBundle.Name r = false ∧
      r.kind ≠ "java_grpc_library" ∧ r.kind ≠ "java_proto_bundle" ∧
      ¬ (r.kind = "genrule" ∧ r.name = "publish_" ++ plainBundle.Name ++ "_to_maven") ∧
      ¬ (r.kind = "alias" ∧ r.name = "publish_to_maven")) :=
  ⟨rfl, rfl, rfl,
    (artifact_id_only_from_bundle (some acmeLake) plainBundle [":user_proto"]
      [":user_proto"]).2 rfl⟩

/-! ## The result of GenerateRules -/

/-- When every check of GenerateRules passes, the result holds the rules of
generateBundleRules and as many nil imports. -/
theorem generateRules_of_valid (lib : YamlLib) (w : World) (above : List LakeFile)
    (iteration : MapOrder) (c : GazelleConfig) (dir : Path) (lakeConfig : Option LakeConfig)
    (bundleConfig : BundleConfig)
    (henabled : (getProtolakeConfig c).1.enabled = true)
    (hstat : w.stat (dir ++ ["bundle.yaml"]) = true)
    (hlake : LoadLakeConfig lib w above dir = (lakeConfig, none))
    (hbundle : LoadBundleConfig lib w dir = (some bundleConfig, none))
    (htargets : discoverExistingProtoTargets w dir ≠ []) :
    GenerateRules lib w above iteration c dir =
      { Gen :=
          generateBundleRules (MergeConfigurations lakeConfig bundleConfig)
            (discoverExistingProtoTargets w dir)
            (collectBundleTransitiveDependencies w iteration dir
              (discoverExistingProtoTargets w dir))
        Imports :=
          List.replicate
            (generateBundleRules (MergeConfigurations lakeConfig bundleConfig)
              (discoverExistingProtoTargets w dir)
              (collectBundleTransitiveDependencies w iteration dir
                (discoverExistingProtoTargets w dir))).length none } := by
  have hlen : ((discoverExistingProtoTargets w dir).length == 0) = false := by
    cases h : discoverExistingProtoTargets w dir with
    | nil => exact absurd h htargets
    | cons a l => rfl
  unfold GenerateRules
  simp only [henabled, World.isNotExist_of_stat w _ hstat, hlake, hbundle, hlen,
    generateBundleRulesIn]
  rfl

/-- When discovery finds no target, GenerateRules returns the empty result. -/
theorem generateRules_of_no_targets (lib : YamlLib) (w : World) (above : List LakeFile)
    (iteration : MapOrder) (c : GazelleConfig) (dir : Path)
    (htargets : discoverExistingProtoTargets w dir = []) :
    GenerateRules lib w above iteration c dir = emptyResult := by
  unfold GenerateRules
  simp only [htargets]
  split
  · rfl
  · split
    · rfl
    · split
      · rfl
      · split
        · rfl
        · rfl
        · rfl

/-- The two shapes of the result of GenerateRules: the empty result, or the
rules of generateBundleRules for the merged config and the discovered targets
with as many nil imports. -/
theorem generateRules_cases (lib : YamlLib) (w : World) (above : List LakeFile)
    (iteration : MapOrder) (c : GazelleConfig) (dir : Path) :
    GenerateRules lib w above iteration c dir = emptyResult ∨
    ∃ lakeConfig bundleConfig,
      LoadLakeConfig lib w above dir = (lakeConfig, none) ∧
      LoadBundleConfig lib w dir = (some bundleConfig, none) ∧
      discoverExistingProtoTargets w dir ≠ [] ∧
      GenerateRules lib w above iteration c dir =
        { Gen :=
            generateBundleRules (MergeConfigurations lakeConfig bundleConfig)
              (discoverExistingProtoTargets w dir)
              (collectBundleTransitiveDependencies w iteration dir
                (discoverExistingProtoTargets w dir))
          Imports :=
            List.replicate
              (generateBundleRules (MergeConfigurations lakeConfig bundleConfig)
                (discoverExistingProtoTargets w dir)
                (collectBundleTransitiveDependencies w iteration dir
                  (discoverExistingProtoTargets w dir))).length none } := by
  by_cases henabled : (getProtolakeConfig c).1.enabled = true
  swap
  · left
    unfold GenerateRules
    simp [henabled]
  by_cases htargets : discoverExistingProtoTargets w dir = []
  · exact Or.inl (generateRules_of_no_targets lib w above iteration c dir htargets)
  rcases hl : LoadLakeConfig lib w above dir with ⟨lakeConfig, _ | e⟩
  swap
  · left
    unfold GenerateRules
    simp [hl]
  rcases hb : LoadBundleConfig lib w dir with ⟨_ | bundleConfig, _ | e⟩
  · exact Or.inl (generateRules_of_no_bundle lib w above iteration c dir (by rw [hb]))
  · exact Or.inl (generateRules_of_no_bundle lib w above iteration c dir (by rw [hb]))
  · have hstat : w.stat (dir ++ ["bundle.yaml"]) = true := by
      rcases loadBundleConfig_cases lib w dir with
        ⟨-, h⟩ | ⟨-, -, h⟩ | ⟨_, -, -, -, h⟩ | ⟨_, _, -, -, -, -, h⟩ | ⟨d, _, -, hr, -, -, -⟩
      · rw [hb] at h; cases h
      · rw [hb] at h; cases h
      · rw [hb] at h; cases h
      · rw [hb] at h; cases h
      · exact World.stat_of_readFile w _ d hr
    exact Or.inr ⟨lakeConfig, bundleConfig, rfl, rfl, htargets,
      generateRules_of_valid lib w above iteration c dir lakeConfig bundleConfig henabled hstat
        hl hb htargets⟩
  · left
    unfold GenerateRules
    simp [hb]
    split <;> simp

/-- C38: GenerateRules returns the empty result when a valid bundle
configuration is present but discovery finds no proto_library target in the
bundle directory or below it: no aggregate, language or validation rule is
emitted, whatever languages are enabled; with the same configuration and at
least one discovered target the rules of generateBundleRules are returned. -/
theorem generate_rules_no_targets (lib : YamlLib) (w : World) (above : List LakeFile)
    (iteration : MapOrder) (c : GazelleConfig) (dir : Path) (lakeConfig : Option LakeConfig)
    (bundleConfig : BundleConfig)
    (henabled : (getProtolakeConfig c).1.enabled = true)
    (hstat : w.stat (dir ++ ["bundle.yaml"]) = true)
    (hlake : LoadLakeConfig lib w above dir = (lakeConfig, none))
    (hbundle : LoadBundleConfig lib w dir = (some bundleConfig, none)) :
    (discoverExistingProtoTargets w dir = [] ↔
      discoverProtoTargetsInDirectory w dir = [] ∧
        discoverProtoTargetsRecursively w dir = []) ∧
    (discoverExistingProtoTargets w dir = [] →
      GenerateRules lib w above iteration c dir = emptyResult ∧
      (GenerateRules lib w above iteration c dir).Gen = [] ∧
      (GenerateRules lib w above iteration c dir).Imports = []) ∧
    (discoverExistingProtoTargets w dir ≠ [] →
      (GenerateRules lib w above iteration c dir).Gen =
        generateBundleRules (MergeConfigurations lakeConfig bundleConfig)
          (discoverExistingProtoTargets w dir)
          (collectBundleTransitiveDependencies w iteration dir
            (discoverExistingProtoTargets w dir)) ∧
      (GenerateRules lib w above iteration c dir).Gen ≠ []) := by
  refine ⟨?_, ?_, ?_⟩
  · simp [discoverExistingProtoTargets]
  · intro hnone
    have h := generateRules_of_no_targets lib w above iteration c dir hnone
    rw [h]
    exact ⟨rfl, rfl, rfl⟩
  · intro hsome
    rw [generateRules_of_valid lib w above iteration c dir lakeConfig bundleConfig henabled
      hstat hlake hbundle hsome]
    refine ⟨rfl, ?_⟩
    show generateBundleRules _ _ _ ≠ []
    rw [generateBundleRules_eq]
    simp

/-- Witness of C38: the directory `bare` has a bundle.yaml with a name and Java
enabled, and no proto_library in it or below it; the result is empty. The
directory `full` has the same bundle.yaml and one target; six rules. -/
theorem generate_rules_no_targets_witness :
    (LoadBundleConfig testYaml bareWorld ["bare"]).1.isSome = true ∧
    discoverExistingProtoTargets bareWorld ["bare"] = [] ∧
    GenerateRules testYaml bareWorld [] insertionOrder enabledConfig ["bare"] = emptyResult ∧
    (GenerateRules testYaml bareWorld [] insertionOrder enabledConfig ["full"]).Gen.length = 6 :=
  ⟨by decide, by decide,
    ((generate_rules_no_targets testYaml bareWorld [] insertionOrder enabledConfig ["bare"]
      (LoadLakeConfig testYaml bareWorld [] ["bare"]).1
      { Name := "user-service", DisplayName := "", Description := "", BundlePrefix := "",
        Version := "1.0.0"
        Config :=
        { Languages :=
          { Java := { Enabled := some true, GroupId := "", ArtifactId := "user-service-proto" }
            Python := { Enabled := none, PackageName := "" }
            Javascript := { Enabled := none, PackageName := "" } } } }
      rfl (by decide) (by decide) (by decide)).2.1 (by decide)).1,
    by decide⟩

/-- C39: for every invocation of GenerateRules the Imports list of the result
has the same length as the Gen list and every entry of Imports is nil; Gen is
empty when GenerateRules returns early, and otherwise it is exactly the list
returned by generateBundleRules for the merged config, the discovered targets
and the collected dependencies, in the same order. -/
theorem generate_result_imports (lib : YamlLib) (w : World) (above : List LakeFile)
    (iteration : MapOrder) (c : GazelleConfig) (dir : Path) :
    (GenerateRules lib w above iteration c dir).Imports.length
      = (GenerateRules lib w above iteration c dir).Gen.length ∧
    (∀ x ∈ (GenerateRules lib w above iteration c dir).Imports, x = none) ∧
    ((GenerateRules lib w above iteration c dir).Gen = [] ∨
      ∃ lakeConfig bundleConfig,
        LoadLakeConfig lib w above dir = (lakeConfig, none) ∧
        LoadBundleConfig lib w dir = (some bundleConfig, none) ∧
        (GenerateRules lib w above iteration c dir).Gen =
          generateBundleRules (MergeConfigurations lakeConfig bundleConfig)
            (discoverExistingProtoTargets w dir)
            (collectBundleTransitiveDependencies w iteration dir
              (discoverExistingProtoTargets w dir))) ∧
    (∀ lakeConfig bundleConfig,
      (getProtolakeConfig c).1.enabled = true →
      w.stat (dir ++ ["bundle.yaml"]) = true →
      LoadLakeConfig lib w above dir = (lakeConfig, none) →
      LoadBundleConfig lib w dir = (some bundleConfig, none) →
      discoverExistingProtoTargets w dir ≠ [] →
      (GenerateRules lib w above iteration c dir).Gen =
        generateBundleRules (MergeConfigurations lakeConfig bundleConfig)
          (discoverExistingProtoTargets w dir)
          (collectBundleTransitiveDependencies w iteration dir
            (discoverExistingProtoTargets w dir))) := by
  refine ⟨?_, ?_, ?_, ?_⟩
  · rcases generateRules_cases lib w above iteration c dir with h | ⟨_, _, -, -, -, h⟩
    · rw [h]; rfl
    · rw [h]; simp
  · rcases generateRules_cases lib w above iteration c dir with h | ⟨_, _, -, -, -, h⟩
    · rw [h]; intro x hx; cases hx
    · rw [h]
      intro x hx
      exact (List.mem_replicate.1 hx).2
  · rcases generateRules_cases lib w above iteration c dir with h | ⟨l, b, hl, hb, -, h⟩
    · left; rw [h]; rfl
    · right
      exact ⟨l, b, hl, hb, by rw [h]⟩
  · intro lakeConfig bundleConfig henabled hstat hlake hbundle htargets
    rw [generateRules_of_valid lib w above iteration c dir lakeConfig bundleConfig henabled
      hstat hlake hbundle htargets]

/-- Witness of C39: for the directory `full` of the sample repository the
result has six rules, those of generateBundleRules, and six nil imports. -/
theorem generate_result_imports_witness :
    (GenerateRules testYaml bareWorld [] insertionOrder enabledConfig ["full"]).Imports
      = [none, none, none, none, none, none] ∧
    (GenerateRules testYaml bareWorld [] insertionOrder enabledConfig ["full"]).Gen =
      generateBundleRules
        (MergeConfigurations (LoadLakeConfig testYaml bareWorld [] ["full"]).1
          { Name := "user-service", DisplayName := "", Description := "", BundlePrefix := "",
            Version := "1.0.0"
            Config :=
            { Languages :=
              { Java :=
                  { Enabled := some true, GroupId := "", ArtifactId := "user-service-proto" }
                Python := { Enabled := none, PackageName := "" }
                Javascript := { Enabled := none, PackageName := "" } } } })
        (discoverExistingProtoTargets bareWorld ["full"])
        (collectBundleTransitiveDependencies bareWorld insertionOrder ["full"]
          (discoverExistingProtoTargets bareWorld ["full"])) :=
  ⟨by decide,
    (generate_result_imports testYaml bareWorld [] insertionOrder enabledConfig ["full"]).2.2.2
      _ _ rfl (by decide) (by decide) (by decide) (by decide)⟩

/-! ## Distinct names -/

/-- The fifteen rule names of a bundle are pairwise different, whatever the
bundle name is: read from the right, any two of them differ within their fixed
endings, or one is longer than the other. -/
theorem allRuleNames_nodup (b : String) : (allRuleNames b).Nodup := by
  apply List.Nodup.of_map (fun s : String => s.data.reverse)
  simp only [allRuleNames, List.map_cons, List.map_nil, String.data_append,
    List.reverse_append]
  simp only [String.data, List.reverse_cons, List.reverse_nil, List.nil_append,
    List.cons_append, List.append_assoc]
  generalize b.data.reverse = m
  have hlen : ¬ m ++ ['_', 'h', 's', 'i', 'l', 'b', 'u', 'p']
      = ['h', 's', 'i', 'l', 'b', 'u', 'p'] := by
    intro h
    have hl := congrArg List.length h
    simp at hl
  simp [List.nodup_cons, hlen]

/-- A list that is present or absent depending on a condition is a sublist of
the list. -/
theorem ite_sublist {α : Type} (c : Prop) [Decidable c] (l : List α) :
    (if c then l else []).Sublist l := by
  split
  · exact List.Sublist.refl l
  · exact List.nil_sublist l

/-- A list that is absent or present depending on a condition is a sublist of
the list. -/
theorem ite_sublist_neg {α : Type} (c : Prop) [Decidable c] (l : List α) :
    (if c then [] else l).Sublist l := by
  split
  · exact List.nil_sublist l
  · exact List.Sublist.refl l

/-- The names of the rules returned by generateBundleRules, in order. -/
theorem generateBundleRules_names (cfg : MergedConfig) (T D : List String) :
    (generateBundleRules cfg T D).map Rule.name =
      [cfg.BundleName ++ "_all_protos"]
      ++ (if javaGenerated cfg then
            [cfg.BundleName ++ "_java_grpc", cfg.BundleName ++ "_java_bundle",
             "publish_" ++ cfg.BundleName ++ "_to_maven", "publish_to_maven"] else [])
      ++ (if pythonGenerated cfg then
            [cfg.BundleName ++ "_python_grpc", cfg.BundleName ++ "_py_bundle",
             "publish_" ++ cfg.BundleName ++ "_to_pypi", "publish_to_pypi"] else [])
      ++ (if javaScriptGenerated cfg then
            [cfg.BundleName ++ "_js_grpc_node", cfg.BundleName ++ "_js_grpc_web",
             cfg.BundleName ++ "_js_bundle", "publish_" ++ cfg.BundleName ++ "_to_npm",
             "publish_to_npm"] else [])
      ++ (if validationTargets cfg = [] then [] else ["all"]) := by
  have hj : ∀ b, (generateJavaBundleRules cfg b D).map Rule.name
      = [b ++ "_java_grpc", b ++ "_java_bundle", "publish_" ++ b ++ "_to_maven",
          "publish_to_maven"] := fun _ => rfl
  have hp : ∀ b, (generatePythonBundleRules cfg b D).map Rule.name
      = [b ++ "_python_grpc", b ++ "_py_bundle", "publish_" ++ b ++ "_to_pypi",
          "publish_to_pypi"] := fun _ => rfl
  have hs : ∀ b, (generateJavaScriptBundleRules cfg b D).map Rule.name
      = [b ++ "_js_grpc_node", b ++ "_js_grpc_web", b ++ "_js_bundle",
          "publish_" ++ b ++ "_to_npm", "publish_to_npm"] := fun _ => rfl
  rw [generateBundleRules_eq]
  simp only [List.map_append, apply_ite (List.map Rule.name), hj, hp, hs, List.map_nil,
    List.map_cons, aggregateRule, validationRule]

/-- The names of the rules returned by generateBundleRules are among the
fifteen names of the bundle, in their order. -/
theorem generateBundleRules_names_sublist (cfg : MergedConfig) (T D : List String) :
    ((generateBundleRules cfg T D).map Rule.name).Sublist (allRuleNames cfg.BundleName) := by
  rw [generateBundleRules_names]
  exact ((((List.Sublist.refl _).append (ite_sublist _ _)).append (ite_sublist _ _)).append
    (ite_sublist _ _)).append (ite_sublist_neg _ _)

/-- C35: for every bundle name (any string, the empty one included) and every
merged config, the rules returned by generateBundleRules have pairwise distinct
names, so no two generated declarations collide in the build file: the fifteen
names N_all_protos, N_java_grpc, N_java_bundle, publish_N_to_maven,
publish_to_maven, N_python_grpc, N_py_bundle, publish_N_to_pypi,
publish_to_pypi, N_js_grpc_node, N_js_grpc_web, N_js_bundle, publish_N_to_npm,
publish_to_npm and all are different for every N, and the names of the returned
rules are among them. -/
theorem rule_names_distinct (cfg : MergedConfig) (T D : List String) :
    ((generateBundleRules cfg T D).map Rule.name).Nodup ∧
    (∀ N : String, (allRuleNames N).Nodup) ∧
    (∀ r ∈ generateBundleRules cfg T D, r.name ∈ allRuleNames cfg.BundleName) ∧
    (∀ i j : Fin (generateBundleRules cfg T D).length,
      ((generateBundleRules cfg T D).get i).name = ((generateBundleRules cfg T D).get j).name →
        i = j) := by
  have hsub := generateBundleRules_names_sublist cfg T D
  have hnodup : ((generateBundleRules cfg T D).map Rule.name).Nodup :=
    (allRuleNames_nodup cfg.BundleName).sublist hsub
  refine ⟨hnodup, allRuleNames_nodup, ?_, ?_⟩
  · intro r hr
    exact hsub.subset (List.mem_map_of_mem Rule.name hr)
  · intro i j hij
    have hinj := List.nodup_iff_injective_get.1 hnodup
    have hi : i.1 < ((generateBundleRules cfg T D).map Rule.name).length := by
      rw [List.length_map]; exact i.2
    have hj : j.1 < ((generateBundleRules cfg T D).map Rule.name).length := by
      rw [List.length_map]; exact j.2
    have := @hinj ⟨i.1, hi⟩ ⟨j.1, hj⟩ (by simpa using hij)
    exact Fin.ext (by simpa using congrArg Fin.val this)

/-- Witness of C35: with the empty bundle name and all three languages
generated, the fifteen names are different. -/
theorem rule_names_distinct_witness :
    ((generateBundleRules
        { BundleName := "", BundleOwner := "", ProtoPackage := "", Description := "",
          Version := "", JavaConfig := { Enabled := true, GroupId := "g", ArtifactId := "a" },
          PythonConfig := { Enabled := true, PackageName := "p" },
          JavaScriptConfig := { Enabled := true, PackageName := "s" } }
        [":x"] [":x"]).map Rule.name)
      = ["_all_protos", "_java_grpc", "_java_bundle", "publish__to_maven", "publish_to_maven",
          "_python_grpc", "_py_bundle", "publish__to_pypi", "publish_to_pypi",
          "_js_grpc_node", "_js_grpc_web", "_js_bundle", "publish__to_npm", "publish_to_npm",
          "all"] ∧
    ((generateBundleRules
        { BundleName := "", BundleOwner := "", ProtoPackage := "", Description := "",
          Version := "", JavaConfig := { Enabled := true, GroupId := "g", ArtifactId := "a" },
          PythonConfig := { Enabled := true, PackageName := "p" },
          JavaScriptConfig := { Enabled := true, PackageName := "s" } }
        [":x"] [":x"]).map Rule.name).Nodup :=
  ⟨by decide, (rule_names_distinct _ [":x"] [":x"]).1⟩

/-! ## Import statements with a modifier -/

/-- What a match of the pattern of line 298 looks like: the keyword, whitespace,
and the captured path between quotes. -/
theorem matchImportAt_eq_some (s cap rest : List Char)
    (h : matchImportAt s = some (cap, rest)) :
    ∃ ws : List Char, ws ≠ [] ∧ (∀ c ∈ ws, isSpace c = true) ∧
      s = "import".data ++ ws ++ '\x22' :: cap ++ '\x22' :: rest ∧ cap ≠ [] ∧ '\x22' ∉ cap := by
  unfold matchImportAt at h
  split at h
  · cases h
  · rename_i r hlit
    split at h
    · cases h
    · rename_i hws
      have hq := matchQuoted_eq_some _ _ _ h
      have hsplit := List.takeWhile_append_dropWhile isSpace r
      refine ⟨r.takeWhile isSpace, ?_, ?_, ?_, hq.2.1, hq.2.2⟩
      · intro hnil
        apply hws
        rw [hnil]
        rfl
      · intro c hc
        exact List.mem_takeWhile_imp hc
      · rw [expectLit_eq_some _ _ _ hlit]
        conv_lhs => rw [← hsplit]
        rw [hq.1]
        simp only [List.append_assoc]

/-- Every path that is found was captured by a match at some place of the text. -/
theorem mem_findAllImports (s : List Char) (k : Nat) (q : String)
    (h : q ∈ findAllImports s k) :
    ∃ pre tail rest, s = pre ++ tail ∧ matchImportAt tail = some (q.data, rest) := by
  induction s generalizing k with
  | nil => simp [findAllImports] at h
  | cons c cs ih =>
    cases k with
    | succ k =>
      simp only [findAllImports] at h
      obtain ⟨pre, tail, rest, hs, hm⟩ := ih k h
      exact ⟨c :: pre, tail, rest, by rw [hs]; rfl, hm⟩
    | zero =>
      simp only [findAllImports] at h
      split at h
      · rename_i cap rest hm
        rw [List.mem_cons] at h
        rcases h with h | h
        · exact ⟨[], c :: cs, rest, rfl, by rw [hm, h]⟩
        · obtain ⟨pre, tail, rest2, hs, hm2⟩ := ih _ h
          exact ⟨c :: pre, tail, rest2, by rw [hs]; rfl, hm2⟩
      · obtain ⟨pre, tail, rest2, hs, hm2⟩ := ih _ h
        exact ⟨c :: pre, tail, rest2, by rw [hs]; rfl, hm2⟩

/-- Every extracted path stands in the text in the plain form. -/
theorem plainImportIn_of_mem (content path : String) (h : path ∈ extractImports content) :
    PlainImportIn content path ∧ path ≠ "" ∧ '\x22' ∉ path.data := by
  obtain ⟨pre, tail, rest, hs, hm⟩ := mem_findAllImports _ _ _ h
  obtain ⟨ws, hne, hsp, htail, hcap, hq⟩ := matchImportAt_eq_some _ _ _ hm
  refine ⟨⟨pre, ws, rest, hne, hsp, ?_⟩, ?_, hq⟩
  · rw [hs, htail]
    simp only [List.append_assoc]
  · intro hp
    apply hcap
    rw [hp]

/-- The text before the first quote is determined by the text. -/
theorem first_quote_unique (a b x y : List Char) (ha : '\x22' ∉ a) (hb : '\x22' ∉ b)
    (h : a ++ '\x22' :: x = b ++ '\x22' :: y) : a = b := by
  induction a generalizing b with
  | nil =>
    cases b with
    | nil => rfl
    | cons c cs =>
      simp only [List.nil_append, List.cons_append, List.cons.injEq] at h
      exact absurd (by rw [← h.1]; exact List.mem_cons_self _ _) hb
  | cons c cs ih =>
    cases b with
    | nil =>
      simp only [List.nil_append, List.cons_append, List.cons.injEq] at h
      exact absurd (by rw [h.1]; exact List.mem_cons_self _ _) ha
    | cons d ds =>
      simp only [List.cons_append, List.cons.injEq] at h
      rw [h.1, ih ds (fun hm => ha (List.mem_cons_of_mem _ hm))
        (fun hm => hb (List.mem_cons_of_mem _ hm)) h.2]

/-- The pattern does not match at the head of a run without whitespace that
ends in a quote. -/
theorem matchImportAt_clean (q tail : List Char)
    (hq : ∀ c ∈ q, c ≠ '\x22' ∧ isSpace c = false) :
    matchImportAt (q ++ '\x22' :: tail) = none := by
  cases hm : matchImportAt (q ++ '\x22' :: tail) with
  | none => rfl
  | some pr =>
    obtain ⟨cap, rest⟩ := pr
    obtain ⟨ws, hne, hsp, hs, -, -⟩ := matchImportAt_eq_some _ _ _ hm
    exfalso
    have hnq : '\x22' ∉ "import".data ++ ws := by
      intro hmem
      rw [List.mem_append] at hmem
      rcases hmem with hmem | hmem
      · revert hmem; decide
      · have := hsp _ hmem
        revert this; decide
    have hqq : '\x22' ∉ q := fun hmem => (hq _ hmem).1 rfl
    rw [List.append_assoc] at hs
    have heq := first_quote_unique q ("import".data ++ ws) tail _ hqq hnq hs
    cases ws with
    | nil => exact hne rfl
    | cons c cs =>
      have hc : c ∈ q := by rw [heq]; simp
      have h1 := (hq c hc).2
      have h2 := hsp c (by simp)
      rw [h1] at h2
      cases h2

/-- The search passes over a run without whitespace and quotes. -/
theorem findAllImports_clean (q tail : List Char)
    (hq : ∀ c ∈ q, c ≠ '\x22' ∧ isSpace c = false) :
    findAllImports (q ++ '\x22' :: tail) 0 = findAllImports ('\x22' :: tail) 0 := by
  induction q with
  | nil => rfl
  | cons c cs ih =>
    have hm := matchImportAt_clean (c :: cs) tail hq
    rw [List.cons_append] at hm ⊢
    rw [findAllImports, hm]
    exact ih (fun d hd => hq d (List.mem_cons_of_mem _ hd))

/-- The characters of a match are passed over. -/
theorem findAllImports_skip (a b : List Char) :
    findAllImports (a ++ b) a.length = findAllImports b 0 := by
  induction a with
  | nil => rfl
  | cons c cs ih =>
    rw [List.cons_append, List.length_cons, findAllImports]
    exact ih

/-- After a head within which no match starts, a quoted path without whitespace,
the closing quote and the semicolon contribute nothing. -/
theorem findAllImports_modified (head : List Char) (path post : List Char)
    (hhead : ∀ t, findAllImports (head ++ t) 0 = findAllImports t 0)
    (hq : ∀ c ∈ path, c ≠ '\x22' ∧ isSpace c = false) :
    findAllImports (head ++ (path ++ '\x22' :: ';' :: post)) 0 = findAllImports post 0 := by
  rw [hhead, findAllImports_clean path _ hq]
  rfl

/-- A statement of the plain form yields its path, and the search goes on
after it. -/
theorem findAllImports_plain (path post : List Char) (hne : path ≠ [])
    (hq : '\x22' ∉ path) :
    findAllImports ("import \x22".data ++ (path ++ '\x22' :: ';' :: post)) 0
      = String.mk path :: findAllImports post 0 := by
  have hm : matchImportAt ("import \x22".data ++ (path ++ '\x22' :: ';' :: post))
      = some (path, ';' :: post) := by
    have := matchQuoted_name path (';' :: post) hne hq
    simpa [matchImportAt, expectLit, isSpace, List.takeWhile, List.dropWhile] using this
  have hlen : ("import \x22".data ++ (path ++ '\x22' :: ';' :: post)).length
      - (';' :: post).length - 1 = ("mport \x22".data ++ path ++ ['\x22']).length := by
    simp only [List.length_append, List.length_cons, String.length_data, List.length_nil]
    omega
  have hcs : "mport \x22".data ++ (path ++ '\x22' :: ';' :: post)
      = ("mport \x22".data ++ path ++ ['\x22']) ++ (';' :: post) := by
    simp only [List.append_assoc, List.cons_append, List.nil_append]
  have hstep : findAllImports ("import \x22".data ++ (path ++ '\x22' :: ';' :: post)) 0
      = String.mk path :: findAllImports ("mport \x22".data ++ (path ++ '\x22' :: ';' :: post))
          (("import \x22".data ++ (path ++ '\x22' :: ';' :: post)).length
            - (';' :: post).length - 1) := by
    show findAllImports ('i' :: ("mport \x22".data ++ (path ++ '\x22' :: ';' :: post))) 0 = _
    rw [findAllImports]
    have hm2 : matchImportAt ('i' :: ("mport \x22".data ++ (path ++ '\x22' :: ';' :: post)))
        = some (path, ';' :: post) := hm
    rw [hm2]
    rfl
  rw [hstep, hlen, hcs, findAllImports_skip]
  rfl

/-- A literal is matched within the characters it spans: text appended after
them changes only what is left over. -/
theorem expectLit_append_right (lit l m : List Char) (h : lit.length ≤ l.length) :
    expectLit lit (l ++ m) = (expectLit lit l).map (fun r => r ++ m) := by
  induction lit generalizing l with
  | nil => cases l <;> cases m <;> rfl
  | cons c cs ih =>
    cases l with
    | nil => simp at h
    | cons d ds =>
      simp only [List.cons_append, expectLit]
      split
      · exact ih ds (by simpa using h)
      · rfl

/-- A run that ends within a text is not changed by text appended to it. -/
theorem takeWhile_append_of_stop (p : Char → Bool) (l m : List Char)
    (h : ∃ x ∈ l, p x = false) :
    (l ++ m).takeWhile p = l.takeWhile p ∧ (l ++ m).dropWhile p = l.dropWhile p ++ m := by
  induction l with
  | nil => obtain ⟨x, hx, -⟩ := h; cases hx
  | cons c cs ih =>
    cases hc : p c with
    | false => simp [List.takeWhile, List.dropWhile, hc]
    | true =>
      have h2 : ∃ x ∈ cs, p x = false := by
        obtain ⟨x, hx, hpx⟩ := h
        rcases List.mem_cons.1 hx with rfl | hx
        · rw [hc] at hpx; cases hpx
        · exact ⟨x, hx, hpx⟩
      simp [List.takeWhile, List.dropWhile, hc, ih h2]

/-- A quoted part that is closed within a text is matched the same way when
more text follows. -/
theorem matchQuoted_append (d t : List Char) (hne : d ≠ [])
    (hq : ∀ r, d = '\x22' :: r → '\x22' ∈ r) :
    matchQuoted (d ++ t) = (matchQuoted d).map (fun pr => (pr.1, pr.2 ++ t)) := by
  cases d with
  | nil => exact absurd rfl hne
  | cons c r =>
    by_cases hc : c = '\x22'
    · subst hc
      have hstop : ∃ x ∈ r, (fun c => c != '\x22') x = false :=
        ⟨'\x22', hq r rfl, by decide⟩
      obtain ⟨h1, h2⟩ := takeWhile_append_of_stop (fun c => c != '\x22') r t hstop
      simp only [List.cons_append, matchQuoted, h1, h2]
      split
      · rfl
      · cases hd : List.dropWhile (fun c => c != '\x22') r with
        | nil => 
          exfalso
          have := List.takeWhile_append_dropWhile (fun c => c != '\x22') r
          rw [hd, List.append_nil] at this
          have hmem : '\x22' ∈ List.takeWhile (fun c => c != '\x22') r := by
            rw [this]; exact hq r rfl
          have := List.mem_takeWhile_imp hmem
          simp at this
        | cons e es =>
          by_cases he : e = '\x22'
          · subst he
            rfl
          · exfalso
            have hhead := List.head_dropWhile_not (fun c => c != '\x22') r
              (by rw [hd]; simp)
            simp [hd] at hhead
            exact he hhead
    · have : ∀ X : List Char, matchQuoted (c :: X) = none := by
        intro X
        unfold matchQuoted
        split
        · rename_i heq
          simp only [List.cons.injEq] at heq
          exact absurd heq.1.symm (fun h => hc h.symm)
        · rfl
      rw [List.cons_append, this, this]
      rfl

/-- A run that meets a character outside its class leaves a rest. -/
theorem dropWhile_ne_nil_of_stop (p : Char → Bool) (l : List Char)
    (h : ∃ x ∈ l, p x = false) : l.dropWhile p ≠ [] := by
  intro hnil
  obtain ⟨x, hx, hpx⟩ := h
  have hsplit := List.takeWhile_append_dropWhile p l
  rw [hnil, List.append_nil] at hsplit
  rw [← hsplit] at hx
  have := List.mem_takeWhile_imp hx
  rw [hpx] at this
  cases this

/-- A match attempt on a text that ends in a character other than whitespace,
a space and a quote has the same outcome when more text follows: the attempt
cannot have its opening quote at the end of the text. -/
theorem matchImportAt_append (y t : List Char) (a : Char) (hy : 6 ≤ y.length)
    (ha : isSpace a = false) :
    matchImportAt (y ++ [a, ' ', '\x22'] ++ t)
      = (matchImportAt (y ++ [a, ' ', '\x22'])).map (fun pr => (pr.1, pr.2 ++ t)) := by
  unfold matchImportAt
  have hlen : "import".data.length ≤ (y ++ [a, ' ', '\x22']).length := by
    simp only [List.length_append]
    exact Nat.le_trans hy (Nat.le_add_right _ _)
  rw [expectLit_append_right "import".data _ t hlen]
  cases hlit : expectLit "import".data (y ++ [a, ' ', '\x22']) with
  | none => rfl
  | some r =>
    simp only [Option.map]
    have hx := expectLit_eq_some _ _ _ hlit
    have hr : r = y.drop 6 ++ [a, ' ', '\x22'] := by
      have h1 := congrArg (List.drop 6) hx
      rw [List.drop_append_of_le_length hy] at h1
      rw [h1]
      rfl
    have hstop : ∃ x ∈ r, isSpace x = false := ⟨a, by rw [hr]; simp, ha⟩
    obtain ⟨h1, h2⟩ := takeWhile_append_of_stop isSpace r t hstop
    rw [h1, h2]
    split
    · rfl
    · have hstop0 : ∃ x ∈ y.drop 6 ++ [a], isSpace x = false := ⟨a, by simp, ha⟩
      have hd : List.dropWhile isSpace r
          = List.dropWhile isSpace (y.drop 6 ++ [a]) ++ [' ', '\x22'] := by
        rw [hr]
        have := (takeWhile_append_of_stop isSpace (y.drop 6 ++ [a]) [' ', '\x22'] hstop0).2
        rw [← this]
        simp only [List.append_assoc, List.cons_append, List.nil_append]
      have hd0 := dropWhile_ne_nil_of_stop isSpace _ hstop0
      apply matchQuoted_append
      · rw [hd]
        intro hnil
        have := congrArg List.length hnil
        simp at this
      · intro r2 hr2
        rw [hd] at hr2
        cases hd1 : List.dropWhile isSpace (y.drop 6 ++ [a]) with
        | nil => exact absurd hd1 hd0
        | cons e es =>
          rw [hd1] at hr2
          simp only [List.cons_append, List.cons.injEq] at hr2
          rw [← hr2.2]
          simp

/-- The search in a text that goes on after the opening quote of a statement
with a modifier: the matches found up to that quote are those of the text cut
there, and the search resumes after the quote with no match in progress. -/
theorem findAllImports_append_head (head0 : List Char) (a : Char) (t : List Char)
    (h0 : 6 ≤ head0.length) (ha : isSpace a = false)
    (hhead : ∀ (u : List Char) (k : Nat), k ≤ (head0 ++ [a, ' ', '\x22']).length →
      findAllImports (head0 ++ [a, ' ', '\x22'] ++ u) k = findAllImports u 0)
    (pre : List Char) (k : Nat) (hk : k ≤ pre.length + (head0 ++ [a, ' ', '\x22']).length) :
    findAllImports (pre ++ (head0 ++ [a, ' ', '\x22'] ++ t)) k
      = findAllImports (pre ++ (head0 ++ [a, ' ', '\x22'])) k ++ findAllImports t 0 := by
  induction pre generalizing k with
  | nil =>
    have h1 := hhead t k (by simpa using hk)
    have h2 := hhead [] k (by simpa using hk)
    rw [List.append_nil] at h2
    rw [List.nil_append, List.nil_append, h1, h2]
    rfl
  | cons c cs ih =>
    cases k with
    | succ k =>
      rw [List.cons_append, List.cons_append, findAllImports, findAllImports]
      exact ih k (by simp only [List.length_cons] at hk; omega)
    | zero =>
      have hE := matchImportAt_append (c :: cs ++ head0) t a
        (by simp only [List.length_append, List.length_cons]; omega) ha
      have e1 : c :: cs ++ head0 ++ [a, ' ', '\x22'] ++ t
          = c :: (cs ++ (head0 ++ [a, ' ', '\x22'] ++ t)) := by
        simp only [List.append_assoc, List.cons_append]
      have e2 : c :: cs ++ head0 ++ [a, ' ', '\x22']
          = c :: (cs ++ (head0 ++ [a, ' ', '\x22'])) := by
        simp only [List.append_assoc, List.cons_append]
      rw [e1, e2] at hE
      rw [List.cons_append, List.cons_append, findAllImports, findAllImports, hE]
      cases hm : matchImportAt (c :: (cs ++ (head0 ++ [a, ' ', '\x22']))) with
      | none =>
        simp only [Option.map]
        exact ih 0 (Nat.zero_le _)
      | some pr =>
        obtain ⟨cap, rest⟩ := pr
        simp only [Option.map, List.cons_append, List.cons.injEq, true_and]
        have hskip : (c :: (cs ++ (head0 ++ [a, ' ', '\x22'] ++ t))).length
              - (rest ++ t).length - 1
            = (c :: (cs ++ (head0 ++ [a, ' ', '\x22']))).length - rest.length - 1 := by
          simp only [List.length_cons, List.length_append]
          omega
        rw [hskip]
        apply ih
        simp only [List.length_cons, List.length_append]
        omega

/-- A literal that matches a text followed by more text either lies within
the text or begins with it. -/
theorem expectLit_prefix (lit s t r : List Char) (h : expectLit lit (s ++ t) = some r) :
    lit.isPrefixOf s = true ∨ s.isPrefixOf lit = true := by
  induction lit generalizing s with
  | nil => left; cases s <;> rfl
  | cons c cs ih =>
    cases s with
    | nil => right; rfl
    | cons d ds =>
      simp only [List.cons_append, expectLit] at h
      split at h
      · rename_i hcd
        have hcd2 : c = d := by simpa using hcd
        subst hcd2
        rcases ih ds h with h1 | h1
        · left; simp [List.isPrefixOf, h1]
        · right; simp [List.isPrefixOf, h1]
      · cases h

/-- Without the keyword there is no match. -/
theorem matchImportAt_of_expectLit_none (s : List Char)
    (h : expectLit "import".data s = none) : matchImportAt s = none := by
  unfold matchImportAt
  rw [h]

/-- The search passes over a text in which the keyword does not occur. -/
theorem findAllImports_keywordFree (u t : List Char) (k : Nat)
    (hu : keywordFree "import".data u = true) (hk : k ≤ u.length) :
    findAllImports (u ++ t) k = findAllImports t 0 := by
  induction u generalizing k with
  | nil =>
    have : k = 0 := by simpa using hk
    subst this
    rfl
  | cons c cs ih =>
    have hu2 : keywordFree "import".data cs = true := by
      unfold keywordFree at hu ⊢
      simp only [List.tails, List.all_cons, Bool.and_eq_true] at hu
      exact hu.2
    cases k with
    | succ k =>
      rw [List.cons_append, findAllImports]
      exact ih k hu2 (by simpa using hk)
    | zero =>
      have hlit : expectLit "import".data (c :: cs ++ t) = none := by
        cases hl : expectLit "import".data (c :: cs ++ t) with
        | none => rfl
        | some r =>
          exfalso
          have hp := expectLit_prefix _ _ _ _ hl
          unfold keywordFree at hu
          simp only [List.tails, List.all_cons, Bool.and_eq_true, List.isEmpty_cons,
            Bool.false_or, Bool.not_eq_true'] at hu
          rcases hp with hp | hp
          · rw [hu.1.1] at hp; cases hp
          · rw [hu.1.2] at hp; cases hp
      have hm := matchImportAt_of_expectLit_none _ hlit
      rw [List.cons_append] at hm ⊢
      rw [findAllImports, hm]
      exact ih 0 hu2 (Nat.zero_le _)

/-- No match starts within the head of a statement with the modifier public,
wherever in the head the search resumes. -/
theorem findAllImports_public_skip (u : List Char) (k : Nat)
    (hk : k ≤ ("import publi".data ++ ['c', ' ', '\x22']).length) :
    findAllImports ("import publi".data ++ ['c', ' ', '\x22'] ++ u) k = findAllImports u 0 := by
  have hk2 : k ≤ 15 := hk
  interval_cases k <;> rfl

/-- No match starts within the head of a statement with the modifier weak,
wherever in the head the search resumes. -/
theorem findAllImports_weak_skip (u : List Char) (k : Nat)
    (hk : k ≤ ("import wea".data ++ ['k', ' ', '\x22']).length) :
    findAllImports ("import wea".data ++ ['k', ' ', '\x22'] ++ u) k = findAllImports u 0 := by
  have hk2 : k ≤ 13 := hk
  interval_cases k <;> rfl

/-- A clean path holds neither a quote nor whitespace. -/
theorem cleanPath_iff (path : String) :
    cleanPath path = true ↔ ∀ c ∈ path.data, c ≠ '\x22' ∧ isSpace c = false := by
  unfold cleanPath
  rw [List.all_eq_true]
  constructor
  · intro h c hc
    have := h c hc
    simpa using this
  · intro h c hc
    have := h c hc
    simpa using this

/-- The opening quote of a statement with the modifier public or weak cuts the
search in two: no match reaches from the text up to the quote into the text
after it, whatever the two texts are. -/
theorem extractImports_cut (modifier pre tail : String)
    (hmod : modifier = "public" ∨ modifier = "weak") :
    extractImports (pre ++ "import " ++ modifier ++ " \x22" ++ tail)
      = extractImports (pre ++ "import " ++ modifier ++ " \x22") ++ extractImports tail := by
  unfold extractImports
  rcases hmod with rfl | rfl
  · have hd : (pre ++ "import " ++ "public" ++ " \x22" ++ tail).data
        = pre.data ++ ("import publi".data ++ ['c', ' ', '\x22'] ++ tail.data) := by
      simp only [String.data_append, List.append_assoc]
      rfl
    have hd2 : (pre ++ "import " ++ "public" ++ " \x22").data
        = pre.data ++ ("import publi".data ++ ['c', ' ', '\x22']) := by
      simp only [String.data_append, List.append_assoc]
      rfl
    rw [hd, hd2, findAllImports_append_head _ _ _ (by decide) (by decide)
      findAllImports_public_skip _ _ (Nat.zero_le _)]
  · have hd : (pre ++ "import " ++ "weak" ++ " \x22" ++ tail).data
        = pre.data ++ ("import wea".data ++ ['k', ' ', '\x22'] ++ tail.data) := by
      simp only [String.data_append, List.append_assoc]
      rfl
    have hd2 : (pre ++ "import " ++ "weak" ++ " \x22").data
        = pre.data ++ ("import wea".data ++ ['k', ' ', '\x22']) := by
      simp only [String.data_append, List.append_assoc]
      rfl
    rw [hd, hd2, findAllImports_append_head _ _ _ (by decide) (by decide)
      findAllImports_weak_skip _ _ (Nat.zero_le _)]

/-- A statement with the modifier public or weak contributes nothing, whatever
stands before and after it. -/
theorem extractImports_modified (modifier path pre post : String)
    (hmod : modifier = "public" ∨ modifier = "weak") (hclean : cleanPath path = true) :
    extractImports (pre ++ modifiedImport modifier path ++ post)
      = extractImports (pre ++ "import " ++ modifier ++ " \x22") ++ extractImports post := by
  have hq := (cleanPath_iff path).1 hclean
  unfold extractImports
  rcases hmod with rfl | rfl
  · have hd : (pre ++ modifiedImport "public" path ++ post).data
        = pre.data ++ ("import publi".data ++ ['c', ' ', '\x22']
            ++ (path.data ++ '\x22' :: ';' :: post.data)) := by
      simp only [modifiedImport, String.data_append, List.append_assoc]
      rfl
    have hd2 : (pre ++ "import " ++ "public" ++ " \x22").data
        = pre.data ++ ("import publi".data ++ ['c', ' ', '\x22']) := by
      simp only [String.data_append, List.append_assoc]
      rfl
    rw [hd, hd2, findAllImports_append_head _ _ _ (by decide) (by decide)
      findAllImports_public_skip _ _ (Nat.zero_le _), findAllImports_clean _ _ hq]
    rfl
  · have hd : (pre ++ modifiedImport "weak" path ++ post).data
        = pre.data ++ ("import wea".data ++ ['k', ' ', '\x22']
            ++ (path.data ++ '\x22' :: ';' :: post.data)) := by
      simp only [modifiedImport, String.data_append, List.append_assoc]
      rfl
    have hd2 : (pre ++ "import " ++ "weak" ++ " \x22").data
        = pre.data ++ ("import wea".data ++ ['k', ' ', '\x22']) := by
      simp only [String.data_append, List.append_assoc]
      rfl
    rw [hd, hd2, findAllImports_append_head _ _ _ (by decide) (by decide)
      findAllImports_weak_skip _ _ (Nat.zero_le _), findAllImports_clean _ _ hq]
    rfl

/-- The paths of the plain statements are the paths listed by plainPaths. -/
theorem mem_plainPaths (pieces : List ProtoPiece) (path : String) :
    path ∈ plainPaths pieces ↔ ProtoPiece.plain path ∈ pieces := by
  induction pieces with
  | nil => simp [plainPaths]
  | cons piece rest ih =>
    cases piece with
    | text u => simp [plainPaths, ih]
    | plain p =>
      simp only [plainPaths, List.mem_cons, ih, ProtoPiece.plain.injEq]
    | modified m p => simp [plainPaths, ih]

/-- From a text made of well-formed pieces the search finds the paths of the
plain statements, in order, and goes on after the last piece with no match in
progress. -/
theorem findAllImports_renderPieces (pieces : List ProtoPiece) (t : List Char)
    (h : ∀ piece ∈ pieces, piece.wellFormed = true) :
    findAllImports ((renderPieces pieces).data ++ t) 0
      = plainPaths pieces ++ findAllImports t 0 := by
  induction pieces with
  | nil => rfl
  | cons piece rest ih =>
    have ih2 := ih (fun x hx => h x (List.mem_cons_of_mem _ hx))
    have hw := h piece (List.mem_cons_self _ _)
    have hd : (renderPieces (piece :: rest)).data ++ t
        = piece.render.data ++ ((renderPieces rest).data ++ t) := by
      show (piece.render ++ renderPieces rest).data ++ t = _
      rw [String.data_append, List.append_assoc]
    rw [hd]
    cases piece with
    | text u =>
      simp only [ProtoPiece.wellFormed] at hw
      show findAllImports (u.data ++ _) 0 = _
      rw [findAllImports_keywordFree _ _ 0 hw (Nat.zero_le _), ih2]
      rfl
    | plain path =>
      simp only [ProtoPiece.wellFormed, Bool.and_eq_true, bne_iff_ne, ne_eq,
        List.all_eq_true] at hw
      have hne : path.data ≠ [] := fun hnil => hw.1 (String.ext hnil)
      have hq : '\x22' ∉ path.data := fun hmem => hw.2 _ hmem rfl
      have hd2 : (ProtoPiece.plain path).render.data ++ ((renderPieces rest).data ++ t)
          = "import \x22".data
            ++ (path.data ++ '\x22' :: ';' :: ((renderPieces rest).data ++ t)) := by
        simp only [ProtoPiece.render, plainImport, String.data_append, List.append_assoc]
        rfl
      rw [hd2, findAllImports_plain _ _ hne hq, ih2]
      rfl
    | modified modifier path =>
      simp only [ProtoPiece.wellFormed, Bool.and_eq_true, Bool.or_eq_true, beq_iff_eq] at hw
      have hq := (cleanPath_iff path).1 hw.2
      show findAllImports _ 0 = plainPaths rest ++ _
      rcases hw.1 with rfl | rfl
      · have hd2 : (ProtoPiece.modified "public" path).render.data
              ++ ((renderPieces rest).data ++ t)
            = ("import publi".data ++ ['c', ' ', '\x22'])
              ++ (path.data ++ '\x22' :: ';' :: ((renderPieces rest).data ++ t)) := by
          simp only [ProtoPiece.render, modifiedImport, String.data_append, List.append_assoc]
          rfl
        rw [hd2, findAllImports_modified _ _ _
          (fun u => findAllImports_public_skip u 0 (Nat.zero_le _)) hq, ih2]
      · have hd2 : (ProtoPiece.modified "weak" path).render.data
              ++ ((renderPieces rest).data ++ t)
            = ("import wea".data ++ ['k', ' ', '\x22'])
              ++ (path.data ++ '\x22' :: ';' :: ((renderPieces rest).data ++ t)) := by
          simp only [ProtoPiece.render, modifiedImport, String.data_append, List.append_assoc]
          rfl
        rw [hd2, findAllImports_modified _ _ _
          (fun u => findAllImports_weak_skip u 0 (Nat.zero_le _)) hq, ih2]

/-- C37 as stated fails: the pattern is applied to the raw text, so a match that
starts earlier can run into a plain statement. Here the text of an option ends
in the keyword and a space; the match that starts there takes the closing
quote of the option for its opening quote and runs up to the opening quote of
the import. The path `p.proto` is not extracted and its target is not added,
while the statement alone yields it. -/
theorem shadowed_import_counterexample :
    extractImports ("option x = \"import \"; " ++ plainImport "p.proto") = ["; import "] ∧
    "p.proto" ∉ extractImports ("option x = \"import \"; " ++ plainImport "p.proto") ∧
    collectImportsFromProtoFile
        (fileEntry ["a.proto"] ("option x = \"import \"; " ++ plainImport "p.proto"))
        [("p.proto", "//:p_proto")] [] = [] ∧
    extractImports (plainImport "p.proto") = ["p.proto"] ∧
    collectImportsFromProtoFile (fileEntry ["a.proto"] (plainImport "p.proto"))
        [("p.proto", "//:p_proto")] [] = ["//:p_proto"] := by
  decide

/-- C37, amended: the import extraction recognises only the plain form, by a
pattern applied to the raw text. For every proto file content, every extracted
path stands in the text right after the keyword and whitespace. A statement
with the modifier public or weak before the quoted path p (p without a quote
or whitespace in it) is not extracted wherever it stands: the paths extracted
from the text before it, the statement and the text after it are those
extracted from the text up to the opening quote of the statement followed by
those extracted from the text after the statement; they do not depend on p,
and collectImportsFromProtoFile adds nothing on account of the statement. The
statement of the plain form is extracted, and the target that the index gives
for its path is added, when the text before it is made of plain statements,
statements with public or weak, and text in which the keyword does not occur;
what follows the statement is arbitrary. For a path of any shape, no match
reaches across the opening quote of a statement with public or weak: the
search after that quote starts afresh, so no match has that quote for its
opening quote. -/
theorem only_plain_imports_extracted :
    (∀ content path : String, path ∈ extractImports content →
      PlainImportIn content path ∧ path ≠ "" ∧ '\x22' ∉ path.data) ∧
    (∀ (modifier path pre post : String) (f : FsEntry) (index : List (String × String))
        (allDeps : List String),
      modifier = "public" ∨ modifier = "weak" → cleanPath path = true →
      f.content = some (pre ++ modifiedImport modifier path ++ post) →
      extractImports (pre ++ modifiedImport modifier path ++ post)
        = extractImports (pre ++ "import " ++ modifier ++ " \x22") ++ extractImports post ∧
      collectImportsFromProtoFile f index allDeps
        = collectImportPaths index
            (extractImports (pre ++ "import " ++ modifier ++ " \x22") ++ extractImports post)
            allDeps) ∧
    (∀ (pieces : List ProtoPiece) (post : String) (f : FsEntry)
        (index : List (String × String)) (allDeps : List String),
      (∀ piece ∈ pieces, piece.wellFormed = true) →
      f.content = some (renderPieces pieces ++ post) →
      extractImports (renderPieces pieces ++ post) = plainPaths pieces ++ extractImports post ∧
      (post = "" →
        collectImportsFromProtoFile f index allDeps
          = collectImportPaths index (plainPaths pieces) allDeps) ∧
      (∀ path target, ProtoPiece.plain path ∈ pieces → startsWith path "google/" = false →
        index.lookup path = some target →
        target ∈ collectImportsFromProtoFile f index allDeps)) ∧
    (∀ modifier pre tail : String, modifier = "public" ∨ modifier = "weak" →
      extractImports (pre ++ "import " ++ modifier ++ " \x22" ++ tail)
        = extractImports (pre ++ "import " ++ modifier ++ " \x22") ++ extractImports tail) := by
  refine ⟨plainImportIn_of_mem, ?_, ?_, extractImports_cut⟩
  · intro modifier path pre post f index allDeps hmod hclean hcontent
    have hex := extractImports_modified modifier path pre post hmod hclean
    refine ⟨hex, ?_⟩
    unfold collectImportsFromProtoFile
    rw [hcontent]
    simp only [hex]
  · intro pieces post f index allDeps hwf hcontent
    have hex : extractImports (renderPieces pieces ++ post)
        = plainPaths pieces ++ extractImports post := by
      unfold extractImports
      rw [String.data_append]
      exact findAllImports_renderPieces pieces post.data hwf
    refine ⟨hex, ?_, ?_⟩
    · intro hpost
      subst hpost
      unfold collectImportsFromProtoFile
      rw [hcontent]
      show collectImportPaths index (extractImports (renderPieces pieces ++ "")) allDeps = _
      rw [hex]
      have : extractImports "" = [] := rfl
      rw [this, List.append_nil]
    · intro path target hmem hgoogle hlookup
      rw [mem_collectImportsFromProtoFile]
      refine Or.inr ⟨_, hcontent, path, ?_, hgoogle, hlookup⟩
      rw [hex, List.mem_append]
      exact Or.inl ((mem_plainPaths pieces path).2 hmem)

/-- Witness of C37 amended: a proto file that opens with its syntax and package
lines and then imports `common/money.proto` in the plain form,
`common/types.proto` with public and `common/legacy.proto` with weak. Only the
first path is extracted, and of the three targets of the index only the first
is added. -/
theorem only_plain_imports_extracted_witness :
    (∀ piece ∈ sampleProtoPieces, piece.wellFormed = true) ∧
    extractImports (renderPieces sampleProtoPieces ++ "") = ["common/money.proto"] ∧
    collectImportsFromProtoFile (fileEntry ["a.proto"] (renderPieces sampleProtoPieces ++ ""))
        sampleProtoIndex [] = ["//common:money_proto"] ∧
    "//common:money_proto" ∈ collectImportsFromProtoFile
        (fileEntry ["a.proto"] (renderPieces sampleProtoPieces ++ "")) sampleProtoIndex [] ∧
    extractImports
        ("syntax = \"proto3\";\n" ++ modifiedImport "public" "common/types.proto" ++ "\n")
      = extractImports ("syntax = \"proto3\";\n" ++ "import " ++ "public" ++ " \x22")
          ++ extractImports "\n" :=
  ⟨by decide, by decide, by decide,
    (only_plain_imports_extracted.2.2.1 sampleProtoPieces ""
      (fileEntry ["a.proto"] (renderPieces sampleProtoPieces ++ "")) sampleProtoIndex []
      (by decide) rfl).2.2 "common/money.proto" "//common:money_proto" (by decide) (by decide)
      (by decide),
    (only_plain_imports_extracted.2.1 "public" "common/types.proto" "syntax = \"proto3\";\n"
      "\n"
      (fileEntry ["a.proto"]
        ("syntax = \"proto3\";\n" ++ modifiedImport "public" "common/types.proto" ++ "\n"))
      [] [] (Or.inl rfl) (by decide) rfl).1⟩

end Protolake
